import Mathlib

/-!
A verification development for a turn-based board-game engine
(square grid board, Gomoku five-in-a-row, simplified Go with captures,
area scoring, and a reversible history log backing undo).

The definitions below are a shallow embedding of the Python sources
(`src/core/board.py`, `src/core/game.py`, `src/core/gomoku.py`,
`src/core/go.py`, `src/core/factory.py`):

* cells are `Cell` values (the source's `'empty' / 'black' / 'white'`
  strings);
* the board is a size together with a 2-dimensional list of cells,
  exactly as `Board._grid`;
* public coordinates are integers (the source takes Python ints and
  bounds-checks them against `[0, N)`); once validated they are
  converted to natural numbers for internal indexing;
* a Python exception raised by a method of a mutable game object is
  modelled by returning `Option GameError × State`: `(none, s)` is a
  normal return, `(some e, s)` is a raised exception with `s` the
  state of the object at the moment of the raise (this keeps partial
  mutation visible to the caller, exactly as exceptions do);
* the unbounded `while` loops of the flood fill (`GoGame._find_chain`)
  and of the direction scan (`GomokuGame._has_five_in_a_row`) are run
  on explicit fuel; the fuel chosen is proved sufficient below, so the
  functions agree with the source's loops on every input the game can
  produce.
-/

namespace BoardGame

/-- Cell contents: the strings `'empty'`, `'black'`, `'white'` of `Board`. -/
inductive Cell where
  | empty
  | black
  | white
deriving DecidableEq, Repr

/-- The error kinds of the engine (the spec's §7 names for the
`ValueError` / `InvalidPositionError` / `PositionOccupiedError` /
`NotImplementedError` conditions raised by the source). -/
inductive GameError where
  | outOfBounds
  | alreadyOccupied
  | notOccupied
  | invalidColor
  | gameOver
  | passNotSupported
  | suicideNotAllowed
  | nothingToUndo
  | unknownVariant
  | invalidConstruction
deriving DecidableEq, Repr

/-! ## The grid (`Board._grid`) -/

/-- The raw 2-dimensional cell matrix, as the Python list of lists. -/
abbrev Grid := List (List Cell)

/-- Read a cell; out-of-range reads default to `empty` (in the source
they only occur behind bounds checks). -/
def Grid.getCell (g : Grid) (r c : Nat) : Cell :=
  (g.getD r []).getD c Cell.empty

/-- Write a cell (the source's `self._grid[row][col] = value`). -/
def Grid.setCell (g : Grid) (r c : Nat) (v : Cell) : Grid :=
  g.set r ((g.getD r []).set c v)

/-- A fresh size×size grid of `empty` cells (`Board.__init__`). -/
def mkGrid (n : Nat) : Grid :=
  List.replicate n (List.replicate n Cell.empty)

/-- The grid is a well-formed `n × n` matrix. -/
def Grid.Rect (g : Grid) (n : Nat) : Prop :=
  g.length = n ∧ ∀ row ∈ g, row.length = n

instance (g : Grid) (n : Nat) : Decidable (g.Rect n) := by
  unfold Grid.Rect; infer_instance

theorem Grid.rect_mkGrid (n : Nat) : (mkGrid n).Rect n := by
  refine ⟨by simp [mkGrid], ?_⟩
  intro row hrow
  simp only [mkGrid, List.mem_replicate] at hrow
  simp [hrow.2]

theorem Grid.getCell_mkGrid (n r c : Nat) : (mkGrid n).getCell r c = Cell.empty := by
  unfold Grid.getCell mkGrid
  simp only [List.getD_eq_getElem?_getD, List.getElem?_replicate]
  split
  · simp only [Option.getD_some, List.getElem?_replicate]
    split <;> simp
  · simp

theorem Grid.length_setCell (g : Grid) (r c : Nat) (v : Cell) :
    (g.setCell r c v).length = g.length := by
  simp [Grid.setCell]

theorem Grid.rect_setCell {g : Grid} {n : Nat} (h : g.Rect n) (r c : Nat) (v : Cell) :
    (g.setCell r c v).Rect n := by
  obtain ⟨hlen, hrow⟩ := h
  rcases Nat.lt_or_ge r g.length with hr | hr
  · refine ⟨by simp [Grid.setCell, hlen], ?_⟩
    intro row hmem
    unfold Grid.setCell at hmem
    rcases List.mem_or_eq_of_mem_set hmem with h1 | h1
    · exact hrow _ h1
    · subst h1
      rw [List.length_set]
      simp only [List.getD_eq_getElem?_getD, List.getElem?_eq_getElem hr, Option.getD_some]
      exact hrow _ (List.getElem_mem hr)
  · unfold Grid.setCell
    rw [List.set_eq_of_length_le hr]
    exact ⟨hlen, hrow⟩

theorem Grid.getCell_setCell_ne {g : Grid} {r c r' c' : Nat}
    (h : r ≠ r' ∨ c ≠ c') (v : Cell) :
    (g.setCell r c v).getCell r' c' = g.getCell r' c' := by
  unfold Grid.setCell Grid.getCell
  simp only [List.getD_eq_getElem?_getD]
  rcases Nat.lt_or_ge r g.length with hr | hr
  · by_cases hrr : r = r'
    · subst hrr
      have hcc : c ≠ c' := h.resolve_left (fun hh => hh rfl)
      rw [List.getElem?_set_self hr, Option.getD_some, List.getElem?_set_ne hcc]
    · rw [List.getElem?_set_ne hrr]
  · rw [List.set_eq_of_length_le hr]

theorem Grid.getCell_setCell_self {g : Grid} {r c : Nat}
    (hr : r < g.length) (hc : c < (g.getD r []).length) (v : Cell) :
    (g.setCell r c v).getCell r c = v := by
  have hc' : c < ((g[r]?).getD []).length := by
    simpa [List.getD_eq_getElem?_getD] using hc
  unfold Grid.setCell Grid.getCell
  simp only [List.getD_eq_getElem?_getD]
  rw [List.getElem?_set_self hr, Option.getD_some, List.getElem?_set_self hc',
    Option.getD_some]

/-- In-bounds write/read on a well-formed grid. -/
theorem Grid.getCell_setCell_eq {g : Grid} {n r c : Nat} (h : g.Rect n)
    (hr : r < n) (hc : c < n) (v : Cell) :
    (g.setCell r c v).getCell r c = v := by
  obtain ⟨hlen, hrow⟩ := h
  have hr' : r < g.length := by omega
  refine Grid.getCell_setCell_self hr' ?_ v
  rw [List.getD_eq_getElem?_getD, List.getElem?_eq_getElem hr']
  have := hrow _ (List.getElem_mem hr')
  simpa [this] using hc

/-- Out-of-bounds reads of a well-formed grid give `empty`. -/
theorem Grid.getCell_out {g : Grid} {n : Nat} (h : g.Rect n) {r c : Nat}
    (hout : n ≤ r ∨ n ≤ c) : g.getCell r c = Cell.empty := by
  obtain ⟨hlen, hrow⟩ := h
  unfold Grid.getCell
  simp only [List.getD_eq_getElem?_getD]
  rcases Nat.lt_or_ge r g.length with hr | hr
  · rw [List.getElem?_eq_getElem hr, Option.getD_some]
    have hlr := hrow _ (List.getElem_mem hr)
    have hc : n ≤ c := by
      rcases hout with h1 | h1
      · omega
      · exact h1
    have hnone : (g[r])[c]? = none := List.getElem?_eq_none (by omega)
    rw [hnone]
    rfl
  · have hnone : g[r]? = none := List.getElem?_eq_none (by omega)
    rw [hnone]
    rfl

/-- Two well-formed grids with the same in-bounds cells are equal. -/
theorem Grid.rect_ext {g g' : Grid} {n : Nat} (h : g.Rect n) (h' : g'.Rect n)
    (hcell : ∀ r < n, ∀ c < n, g.getCell r c = g'.getCell r c) : g = g' := by
  obtain ⟨hlen, hrow⟩ := h
  obtain ⟨hlen', hrow'⟩ := h'
  apply List.ext_getElem (by omega)
  intro r hr1 hr2
  have hrn : r < n := by omega
  have hrowlen := hrow _ (List.getElem_mem hr1)
  have hrowlen' := hrow' _ (List.getElem_mem hr2)
  apply List.ext_getElem (by omega)
  intro c hc1 hc2
  have hcn : c < n := by omega
  have := hcell r hrn c hcn
  unfold Grid.getCell at this
  simp only [List.getD_eq_getElem?_getD] at this
  rw [List.getElem?_eq_getElem hr1, Option.getD_some, List.getElem?_eq_getElem hc1,
    Option.getD_some, List.getElem?_eq_getElem hr2, Option.getD_some,
    List.getElem?_eq_getElem hc2, Option.getD_some] at this
  exact this

/-! ## The board (`src/core/board.py`, class `Board`) -/

/-- The `Board` object: a side length and the cell matrix. -/
@[ext]
structure Board where
  size : Nat
  grid : Grid
deriving DecidableEq, Repr

/-- `Board._validate_position`: `0 <= row < size and 0 <= col < size`. -/
def Board.validPos (b : Board) (row col : Int) : Prop :=
  0 ≤ row ∧ row < (b.size : Int) ∧ 0 ≤ col ∧ col < (b.size : Int)

instance (b : Board) (row col : Int) : Decidable (b.validPos row col) := by
  unfold Board.validPos; infer_instance

/-- `Board.get_piece`: bounds-checked read. -/
def Board.get_piece (b : Board) (row col : Int) : Except GameError Cell :=
  if b.validPos row col then .ok (b.grid.getCell row.toNat col.toNat)
  else .error .outOfBounds

/-- `Board.place_piece`: bounds check, then color check, then occupancy
check, then write. -/
def Board.place_piece (b : Board) (row col : Int) (color : Cell) :
    Except GameError Board :=
  if ¬ b.validPos row col then .error .outOfBounds
  else if color ≠ Cell.black ∧ color ≠ Cell.white then .error .invalidColor
  else if b.grid.getCell row.toNat col.toNat ≠ Cell.empty then .error .alreadyOccupied
  else .ok { b with grid := b.grid.setCell row.toNat col.toNat color }

/-- `Board.remove_piece`: bounds check, then emptiness check, then write. -/
def Board.remove_piece (b : Board) (row col : Int) : Except GameError Board :=
  if ¬ b.validPos row col then .error .outOfBounds
  else if b.grid.getCell row.toNat col.toNat = Cell.empty then .error .notOccupied
  else .ok { b with grid := b.grid.setCell row.toNat col.toNat Cell.empty }

/-- The privileged direct write used by undo and the capture loop
(`self.board._grid[r][c] = v`). -/
def Board.setCellB (b : Board) (r c : Nat) (v : Cell) : Board :=
  { b with grid := b.grid.setCell r c v }

/-- A fresh board (`Board.__init__` with a positive size). -/
def Board.init (size : Nat) : Board :=
  { size := size, grid := mkGrid size }

/-- Board well-formedness: the grid really is `size × size`.  Every
board the engine constructs satisfies this. -/
def Board.WF (b : Board) : Prop :=
  b.grid.Rect b.size

instance (b : Board) : Decidable b.WF := by
  unfold Board.WF; infer_instance

theorem Board.wf_init (size : Nat) : (Board.init size).WF :=
  Grid.rect_mkGrid size

theorem Board.wf_setCellB {b : Board} (h : b.WF) (r c : Nat) (v : Cell) :
    (b.setCellB r c v).WF :=
  Grid.rect_setCell h r c v

theorem Board.size_setCellB (b : Board) (r c : Nat) (v : Cell) :
    (b.setCellB r c v).size = b.size := rfl

theorem Board.validPos_toNat {b : Board} {row col : Int} (h : b.validPos row col) :
    row.toNat < b.size ∧ col.toNat < b.size := by
  obtain ⟨h1, h2, h3, h4⟩ := h
  omega

/-- C9: the three grid accessors are bounds-checked, failing with
`OutOfBounds` whenever `row` or `col` is outside `[0, N)`; in bounds,
`place` fails with `AlreadyOccupied` exactly when the cell is not
`Empty` and otherwise stores the color (so a subsequent `get` returns
it, and a second `place` at the same cell fails `AlreadyOccupied`);
`clear` fails with `NotOccupied` exactly when the cell is `Empty` and
otherwise resets it to `Empty`. -/
theorem board_accessors_spec (b : Board) (row col : Int) (color : Cell)
    (hwf : b.WF) (hcolor : color = Cell.black ∨ color = Cell.white) :
    (¬ b.validPos row col →
      b.get_piece row col = .error .outOfBounds ∧
      b.place_piece row col color = .error .outOfBounds ∧
      b.remove_piece row col = .error .outOfBounds) ∧
    (b.validPos row col →
      (b.place_piece row col color = .error .alreadyOccupied ↔
        b.grid.getCell row.toNat col.toNat ≠ Cell.empty) ∧
      (∀ b', b.place_piece row col color = .ok b' →
        b'.get_piece row col = .ok color ∧
        b'.place_piece row col color = .error .alreadyOccupied) ∧
      (b.remove_piece row col = .error .notOccupied ↔
        b.grid.getCell row.toNat col.toNat = Cell.empty) ∧
      (∀ b', b.remove_piece row col = .ok b' →
        b'.get_piece row col = .ok Cell.empty)) := by
  have hcolne : ¬ (color ≠ Cell.black ∧ color ≠ Cell.white) := by
    rcases hcolor with h | h <;> subst h <;> simp
  constructor
  · intro hout
    refine ⟨?_, ?_, ?_⟩ <;>
      simp [Board.get_piece, Board.place_piece, Board.remove_piece, hout]
  · intro hin
    obtain ⟨hr, hc⟩ := Board.validPos_toNat hin
    by_cases hocc : b.grid.getCell row.toNat col.toNat = Cell.empty
    · refine ⟨?_, ?_, ?_, ?_⟩
      · simp [Board.place_piece, hin, hcolne, hocc]
      · intro b' hb'
        simp only [Board.place_piece, if_neg (not_not_intro hin), if_neg hcolne,
          ne_eq, hocc, not_true_eq_false, if_neg, ite_false, Except.ok.injEq,
          not_false_eq_true, if_pos] at hb'
        subst hb'
        have hget := Grid.getCell_setCell_eq hwf hr hc color
        constructor
        · have hval : (⟨b.size, b.grid.setCell row.toNat col.toNat color⟩ :
              Board).validPos row col := hin
          simp [Board.get_piece, hval, hget]
        · have hval : (⟨b.size, b.grid.setCell row.toNat col.toNat color⟩ :
              Board).validPos row col := hin
          have hcellne : (⟨b.size, b.grid.setCell row.toNat col.toNat color⟩ :
              Board).grid.getCell row.toNat col.toNat ≠ Cell.empty := by
            simp only [hget]
            rcases hcolor with h | h <;> subst h <;> simp
          simp [Board.place_piece, hval, hcolne, hcellne]
      · simp [Board.remove_piece, hin, hocc]
      · intro b' hb'
        simp [Board.remove_piece, hin, hocc] at hb'
    · refine ⟨?_, ?_, ?_, ?_⟩
      · simp [Board.place_piece, hin, hcolne, hocc]
      · intro b' hb'
        simp [Board.place_piece, hin, hcolne, hocc] at hb'
      · simp [Board.remove_piece, hin, hocc]
      · intro b' hb'
        simp only [Board.remove_piece, if_neg (not_not_intro hin), if_neg hocc,
          Except.ok.injEq] at hb'
        subst hb'
        have hget := Grid.getCell_setCell_eq hwf hr hc Cell.empty
        have hval : (⟨b.size, b.grid.setCell row.toNat col.toNat Cell.empty⟩ :
            Board).validPos row col := hin
        simp [Board.get_piece, hval, hget]

/-- Witness for `board_accessors_spec` at a concrete board. -/
theorem board_accessors_spec_witness :
    ((Board.init 3).WF ∧ (Cell.black = Cell.black ∨ Cell.black = Cell.white)) ∧
    (¬ (Board.init 3).validPos 0 0 →
      (Board.init 3).get_piece 0 0 = .error .outOfBounds ∧
      (Board.init 3).place_piece 0 0 Cell.black = .error .outOfBounds ∧
      (Board.init 3).remove_piece 0 0 = .error .outOfBounds) ∧
    ((Board.init 3).validPos 0 0 →
      ((Board.init 3).place_piece 0 0 Cell.black = .error .alreadyOccupied ↔
        (Board.init 3).grid.getCell (0 : Int).toNat (0 : Int).toNat ≠ Cell.empty) ∧
      (∀ b', (Board.init 3).place_piece 0 0 Cell.black = .ok b' →
        b'.get_piece 0 0 = .ok Cell.black ∧
        b'.place_piece 0 0 Cell.black = .error .alreadyOccupied) ∧
      ((Board.init 3).remove_piece 0 0 = .error .notOccupied ↔
        (Board.init 3).grid.getCell (0 : Int).toNat (0 : Int).toNat = Cell.empty) ∧
      (∀ b', (Board.init 3).remove_piece 0 0 = .ok b' →
        b'.get_piece 0 0 = .ok Cell.empty)) :=
  ⟨⟨by decide, Or.inl rfl⟩,
    board_accessors_spec (Board.init 3) 0 0 Cell.black (by decide) (Or.inl rfl)⟩

/-! ## Players and game status (`src/core/player.py`, `src/core/game.py`) -/

/-- `GameStatus` of `game.py`. -/
inductive GameStatus where
  | ongoing
  | blackWin
  | whiteWin
  | draw
deriving DecidableEq, Repr

/-- A `Player`: display name and color string. -/
@[ext]
structure Player where
  name : String
  color : Cell
deriving DecidableEq, Repr

/-! ## Orthogonal neighbors (`GoGame._neighbors`)

The source iterates the offsets `(-1,0), (1,0), (0,-1), (0,1)` and
keeps the results inside `[0,size) × [0,size)`.  Positions are natural
number pairs (the game has already validated them); the `1 ≤ _` guards
express the `0 ≤ r + dr` checks. -/

def nbrs (size : Nat) (p : Nat × Nat) : List (Nat × Nat) :=
  (if 1 ≤ p.1 ∧ p.1 - 1 < size ∧ p.2 < size then [(p.1 - 1, p.2)] else []) ++
  (if p.1 + 1 < size ∧ p.2 < size then [(p.1 + 1, p.2)] else []) ++
  (if 1 ≤ p.2 ∧ p.1 < size ∧ p.2 - 1 < size then [(p.1, p.2 - 1)] else []) ++
  (if p.2 + 1 < size ∧ p.1 < size then [(p.1, p.2 + 1)] else [])

theorem mem_nbrs {size : Nat} {p q : Nat × Nat} :
    q ∈ nbrs size p ↔
      q.1 < size ∧ q.2 < size ∧
        ((q.1 + 1 = p.1 ∧ q.2 = p.2) ∨ (q.1 = p.1 + 1 ∧ q.2 = p.2) ∨
         (q.2 + 1 = p.2 ∧ q.1 = p.1) ∨ (q.2 = p.2 + 1 ∧ q.1 = p.1)) := by
  obtain ⟨qr, qc⟩ := q
  obtain ⟨pr, pc⟩ := p
  simp only [nbrs, List.mem_append, List.mem_ite_nil_right, List.mem_singleton,
    Prod.mk.injEq]
  omega

theorem nbrs_inBounds {size : Nat} {p q : Nat × Nat} (h : q ∈ nbrs size p) :
    q.1 < size ∧ q.2 < size := by
  have := mem_nbrs.mp h
  exact ⟨this.1, this.2.1⟩

theorem nbrs_symm {size : Nat} {p q : Nat × Nat}
    (hp1 : p.1 < size) (hp2 : p.2 < size) (h : q ∈ nbrs size p) :
    p ∈ nbrs size q := by
  rw [mem_nbrs] at h ⊢
  obtain ⟨h1, h2, h3⟩ := h
  refine ⟨hp1, hp2, ?_⟩
  omega

theorem nbrs_length_le (size : Nat) (p : Nat × Nat) : (nbrs size p).length ≤ 4 := by
  unfold nbrs
  split <;> split <;> split <;> split <;> simp

/-! ## Batch cell writes

`writeAll` captures the source's per-cell write loops: capturing a
chain (`self.board._grid[r][c] = EMPTY` for each chain member) and
undo's restoration loop (`self.board._grid[r][c] = color`). -/

def writeAll (b : Board) (l : List (Nat × Nat × Cell)) : Board :=
  l.foldl (fun bb t => bb.setCellB t.1 t.2.1 t.2.2) b

theorem writeAll_nil (b : Board) : writeAll b [] = b := rfl

theorem writeAll_cons (b : Board) (t : Nat × Nat × Cell) (l : List (Nat × Nat × Cell)) :
    writeAll b (t :: l) = writeAll (b.setCellB t.1 t.2.1 t.2.2) l := rfl

theorem writeAll_append (b : Board) (l1 l2 : List (Nat × Nat × Cell)) :
    writeAll b (l1 ++ l2) = writeAll (writeAll b l1) l2 := by
  simp [writeAll, List.foldl_append]

theorem writeAll_size (b : Board) (l : List (Nat × Nat × Cell)) :
    (writeAll b l).size = b.size := by
  induction l generalizing b with
  | nil => rfl
  | cons t l ih => rw [writeAll_cons, ih]; rfl

theorem writeAll_wf {b : Board} (h : b.WF) (l : List (Nat × Nat × Cell)) :
    (writeAll b l).WF := by
  induction l generalizing b with
  | nil => exact h
  | cons t l ih => rw [writeAll_cons]; exact ih (Board.wf_setCellB h _ _ _)

/-- Cells not written by `writeAll` are unchanged. -/
theorem writeAll_getCell_notMem {l : List (Nat × Nat × Cell)} {r c : Nat}
    (h : ∀ t ∈ l, t.1 ≠ r ∨ t.2.1 ≠ c) (b : Board) :
    (writeAll b l).grid.getCell r c = b.grid.getCell r c := by
  induction l generalizing b with
  | nil => rfl
  | cons t l ih =>
    rw [writeAll_cons]
    rw [ih (fun t' ht' => h t' (List.mem_cons_of_mem _ ht'))]
    exact Grid.getCell_setCell_ne (h t (List.mem_cons_self _ _)) _

/-- A written cell (unique in the list) reads back its written value. -/
theorem writeAll_getCell_mem {b : Board} {l : List (Nat × Nat × Cell)}
    {r c : Nat} {v : Cell}
    (hwf : b.WF) (hr : r < b.size) (hc : c < b.size)
    (hmem : (r, c, v) ∈ l)
    (huniq : ∀ t ∈ l, t.1 = r → t.2.1 = c → t.2.2 = v) :
    (writeAll b l).grid.getCell r c = v := by
  induction l generalizing b with
  | nil => simp at hmem
  | cons t l ih =>
    rw [writeAll_cons]
    by_cases hhead : t.1 = r ∧ t.2.1 = c
    · -- the head writes (r, c); whether or not (r,c,v) is also in the
      -- tail, every later write to (r,c) writes v, and so does this one
      have hv : t.2.2 = v := huniq t (List.mem_cons_self _ _) hhead.1 hhead.2
      by_cases htail : (r, c, v) ∈ l
      · exact ih (Board.wf_setCellB hwf _ _ _) hr hc htail
          (fun t' ht' => huniq t' (List.mem_cons_of_mem _ ht'))
      · have hnone : ∀ t' ∈ l, t'.1 ≠ r ∨ t'.2.1 ≠ c := by
          intro t' ht'
          by_contra hcontra
          push_neg at hcontra
          have := huniq t' (List.mem_cons_of_mem _ ht') hcontra.1 hcontra.2
          apply htail
          have : t' = (r, c, v) := by
            obtain ⟨a, b', c'⟩ := t'
            simp only [Prod.mk.injEq]
            exact ⟨hcontra.1, hcontra.2, this⟩
          rwa [this] at ht'
        rw [writeAll_getCell_notMem hnone]
        obtain ⟨e1, e2⟩ := hhead
        subst e1; subst e2; subst hv
        exact Grid.getCell_setCell_eq hwf hr hc _
    · have hmem' : (r, c, v) ∈ l := by
        rcases List.mem_cons.mp hmem with h1 | h1
        · exfalso; apply hhead; rw [← h1]; exact ⟨rfl, rfl⟩
        · exact h1
      have hb' : (b.setCellB t.1 t.2.1 t.2.2).WF := Board.wf_setCellB hwf _ _ _
      exact ih hb' hr hc hmem' (fun t' ht' => huniq t' (List.mem_cons_of_mem _ ht'))

/-! ## Chains: the flood fill of `GoGame._find_chain`

The source runs a stack-based depth-first search with a visited set.
`chainLoop` is that loop on explicit fuel; `5 * size² + 1` fuel is
proved sufficient below (each iteration either discards an
already-visited stack entry, or visits a new cell and pushes at most 4
neighbors). -/

def chainLoop (g : Grid) (size : Nat) (color : Cell) :
    Nat → List (Nat × Nat) → List (Nat × Nat) → List (Nat × Nat)
  | 0, _, visited => visited
  | _ + 1, [], visited => visited
  | fuel + 1, p :: stack, visited =>
    if p ∈ visited then chainLoop g size color fuel stack visited
    else
      let visited' := visited ++ [p]
      let pushes := (nbrs size p).filter
        fun q => decide (g.getCell q.1 q.2 = color ∧ q ∉ visited')
      chainLoop g size color fuel (pushes ++ stack) visited'

/-- `GoGame._find_chain`: empty-cell seeds give the empty chain,
otherwise flood-fill the seed's color. -/
def find_chain (b : Board) (p : Nat × Nat) : List (Nat × Nat) :=
  if b.grid.getCell p.1 p.2 = Cell.empty then []
  else chainLoop b.grid b.size (b.grid.getCell p.1 p.2)
    (5 * b.size * b.size + 1) [p] []

/-- `GoGame._chain_has_liberties`: some member has an empty orthogonal
neighbor. -/
def chain_has_liberties (b : Board) (chain : List (Nat × Nat)) : Bool :=
  chain.any fun p => (nbrs b.size p).any fun q => b.grid.getCell q.1 q.2 == Cell.empty

/-! ### The specification of a chain: reachability

The spec describes a group as "every cell reachable from the seed
through same-colored orthogonal steps".  `stepRel` is one such step
and `reach` its reflexive-transitive closure. -/

/-- One same-colored orthogonal step. -/
def stepRel (g : Grid) (size : Nat) (color : Cell) (p q : Nat × Nat) : Prop :=
  g.getCell p.1 p.2 = color ∧ q ∈ nbrs size p ∧ g.getCell q.1 q.2 = color

/-- The spec's "group of `p`": all cells reachable from `p` by
same-colored orthogonal steps. -/
def reach (g : Grid) (size : Nat) (color : Cell) (p q : Nat × Nat) : Prop :=
  Relation.ReflTransGen (stepRel g size color) p q

theorem reach_refl (g : Grid) (size : Nat) (color : Cell) (p : Nat × Nat) :
    reach g size color p p :=
  Relation.ReflTransGen.refl

/-- Every cell reached from a colored seed is colored. -/
theorem reach_colored {g : Grid} {size : Nat} {color : Cell} {p q : Nat × Nat}
    (hp : g.getCell p.1 p.2 = color) (h : reach g size color p q) :
    g.getCell q.1 q.2 = color := by
  induction h with
  | refl => exact hp
  | tail _ hstep ih => exact hstep.2.2

/-- Every cell reached from an in-bounds seed is in bounds. -/
theorem reach_inBounds {g : Grid} {size : Nat} {color : Cell} {p q : Nat × Nat}
    (hp : p.1 < size ∧ p.2 < size) (h : reach g size color p q) :
    q.1 < size ∧ q.2 < size := by
  induction h with
  | refl => exact hp
  | tail _ hstep _ => exact nbrs_inBounds hstep.2.1

/-- From an in-bounds seed, reachability is symmetric. -/
theorem reach_symm {g : Grid} {size : Nat} {color : Cell} {p q : Nat × Nat}
    (hp : p.1 < size ∧ p.2 < size) (h : reach g size color p q) :
    reach g size color q p := by
  induction h with
  | refl => exact reach_refl _ _ _ _
  | tail hr hstep ih =>
    rename_i b' c'
    have hb : b'.1 < size ∧ b'.2 < size := reach_inBounds hp hr
    have hback : stepRel g size color c' b' :=
      ⟨hstep.2.2, nbrs_symm hb.1 hb.2 hstep.2.1, hstep.1⟩
    exact Relation.ReflTransGen.head hback ih

theorem reach_trans {g : Grid} {size : Nat} {color : Cell} {p q s : Nat × Nat}
    (h1 : reach g size color p q) (h2 : reach g size color q s) :
    reach g size color p s :=
  Relation.ReflTransGen.trans h1 h2

/-- Two in-bounds seeds whose groups meet have the same group. -/
theorem reach_of_common {g : Grid} {size : Nat} {color : Cell}
    {p q x : Nat × Nat} (hp : p.1 < size ∧ p.2 < size)
    (hq : q.1 < size ∧ q.2 < size)
    (hx : reach g size color p x) (hx' : reach g size color q x) :
    ∀ y, reach g size color p y ↔ reach g size color q y := by
  intro y
  have hqp : reach g size color q p := reach_trans hx' (reach_symm hp hx)
  have hpq : reach g size color p q := reach_trans hx (reach_symm hq hx')
  exact ⟨fun hy => reach_trans hqp hy, fun hy => reach_trans hpq hy⟩

/-- A duplicate-free list of in-bounds positions has at most `n²` entries. -/
theorem nodup_pos_length_le {l : List (Nat × Nat)} {n : Nat}
    (hnd : l.Nodup) (hin : ∀ p ∈ l, p.1 < n ∧ p.2 < n) : l.length ≤ n * n := by
  have hsub : l.toFinset ⊆ Finset.range n ×ˢ Finset.range n := by
    intro p hp
    rw [List.mem_toFinset] at hp
    have := hin p hp
    simp [Finset.mem_product, Finset.mem_range, this.1, this.2]
  calc l.length = l.toFinset.card := (List.toFinset_card_of_nodup hnd).symm
    _ ≤ (Finset.range n ×ˢ Finset.range n).card := Finset.card_le_card hsub
    _ = n * n := by simp [Finset.card_product]

/-- Full correctness of the flood-fill loop under its invariants: the
result is duplicate-free, contains the visited cells and the stack,
consists exactly of colored cells reachable from the seed, and is
closed under same-colored adjacency. -/
theorem chainLoop_spec {g : Grid} {size : Nat} {color : Cell} {seed : Nat × Nat} :
    ∀ (fuel : Nat) (stack visited : List (Nat × Nat)),
    visited.Nodup →
    (∀ p ∈ visited, p.1 < size ∧ p.2 < size) →
    (∀ p ∈ stack, p.1 < size ∧ p.2 < size) →
    (∀ p ∈ visited, g.getCell p.1 p.2 = color) →
    (∀ p ∈ stack, g.getCell p.1 p.2 = color) →
    (∀ p ∈ visited, reach g size color seed p) →
    (∀ p ∈ stack, reach g size color seed p) →
    (∀ p ∈ visited, ∀ q ∈ nbrs size p, g.getCell q.1 q.2 = color →
      q ∈ visited ∨ q ∈ stack) →
    5 * (size * size - visited.length) + stack.length ≤ fuel →
    (chainLoop g size color fuel stack visited).Nodup ∧
    (∀ p ∈ visited, p ∈ chainLoop g size color fuel stack visited) ∧
    (∀ p ∈ stack, p ∈ chainLoop g size color fuel stack visited) ∧
    (∀ p ∈ chainLoop g size color fuel stack visited,
      g.getCell p.1 p.2 = color ∧ reach g size color seed p ∧
      p.1 < size ∧ p.2 < size) ∧
    (∀ p ∈ chainLoop g size color fuel stack visited, ∀ q ∈ nbrs size p,
      g.getCell q.1 q.2 = color → q ∈ chainLoop g size color fuel stack visited) := by
  intro fuel
  induction fuel with
  | zero =>
    intro stack visited hnd hvin hsin hvcol hscol hvreach hsreach hclosed hfuel
    have hstack : stack = [] := by
      have h0 : stack.length = 0 := by omega
      exact List.length_eq_zero.mp h0
    subst hstack
    simp only [chainLoop]
    refine ⟨hnd, fun p hp => hp, by simp, fun p hp => ⟨hvcol p hp, hvreach p hp, hvin p hp⟩, ?_⟩
    intro p hp q hq hqcol
    rcases hclosed p hp q hq hqcol with h | h
    · exact h
    · simp at h
  | succ fuel ih =>
    intro stack visited hnd hvin hsin hvcol hscol hvreach hsreach hclosed hfuel
    match stack with
    | [] =>
      simp only [chainLoop]
      refine ⟨hnd, fun p hp => hp, by simp, fun p hp => ⟨hvcol p hp, hvreach p hp, hvin p hp⟩, ?_⟩
      intro p hp q hq hqcol
      rcases hclosed p hp q hq hqcol with h | h
      · exact h
      · simp at h
    | p :: rest =>
      by_cases hpvis : p ∈ visited
      · have hres : chainLoop g size color (fuel + 1) (p :: rest) visited =
            chainLoop g size color fuel rest visited := by
          simp [chainLoop, hpvis]
        rw [hres]
        have hstep := ih rest visited hnd hvin
          (fun q hq => hsin q (List.mem_cons_of_mem _ hq))
          hvcol (fun q hq => hscol q (List.mem_cons_of_mem _ hq))
          hvreach (fun q hq => hsreach q (List.mem_cons_of_mem _ hq))
          (fun x hx q hq hqc => by
            rcases hclosed x hx q hq hqc with h | h
            · exact Or.inl h
            · rcases List.mem_cons.mp h with h1 | h1
              · exact Or.inl (h1 ▸ hpvis)
              · exact Or.inr h1)
          (by simp only [List.length_cons] at hfuel; omega)
        refine ⟨hstep.1, hstep.2.1, ?_, hstep.2.2.2.1, hstep.2.2.2.2⟩
        intro q hq
        rcases List.mem_cons.mp hq with h1 | h1
        · exact h1 ▸ hstep.2.1 p hpvis
        · exact hstep.2.2.1 q h1
      · have hres : chainLoop g size color (fuel + 1) (p :: rest) visited =
            chainLoop g size color fuel
              (((nbrs size p).filter
                fun q => decide (g.getCell q.1 q.2 = color ∧ q ∉ visited ++ [p])) ++ rest)
              (visited ++ [p]) := by
          simp only [chainLoop, if_neg hpvis]
        rw [hres]
        set visited' := visited ++ [p] with hv'
        set pushes := (nbrs size p).filter
          fun q => decide (g.getCell q.1 q.2 = color ∧ q ∉ visited') with hpushes
        have hpin : p.1 < size ∧ p.2 < size := hsin p (List.mem_cons_self _ _)
        have hpcol : g.getCell p.1 p.2 = color := hscol p (List.mem_cons_self _ _)
        have hpreach : reach g size color seed p := hsreach p (List.mem_cons_self _ _)
        have hmem_v' : ∀ q, q ∈ visited' ↔ q ∈ visited ∨ q = p := by
          intro q; simp [hv']
        have hmem_pushes : ∀ q, q ∈ pushes ↔
            q ∈ nbrs size p ∧ g.getCell q.1 q.2 = color ∧ q ∉ visited' := by
          intro q
          simp only [hpushes, List.mem_filter, decide_eq_true_eq]
        have hnd' : visited'.Nodup := by
          simp only [hv', List.nodup_append, List.nodup_cons, List.nodup_nil,
            List.disjoint_singleton]
          exact ⟨hnd, by simp, by simpa using hpvis⟩
        have hvin' : ∀ q ∈ visited', q.1 < size ∧ q.2 < size := by
          intro q hq
          rcases (hmem_v' q).mp hq with h | h
          · exact hvin q h
          · exact h ▸ hpin
        have hvcol' : ∀ q ∈ visited', g.getCell q.1 q.2 = color := by
          intro q hq
          rcases (hmem_v' q).mp hq with h | h
          · exact hvcol q h
          · exact h ▸ hpcol
        have hvreach' : ∀ q ∈ visited', reach g size color seed q := by
          intro q hq
          rcases (hmem_v' q).mp hq with h | h
          · exact hvreach q h
          · exact h ▸ hpreach
        have hsin' : ∀ q ∈ pushes ++ rest, q.1 < size ∧ q.2 < size := by
          intro q hq
          rcases List.mem_append.mp hq with h | h
          · exact nbrs_inBounds ((hmem_pushes q).mp h).1
          · exact hsin q (List.mem_cons_of_mem _ h)
        have hscol' : ∀ q ∈ pushes ++ rest, g.getCell q.1 q.2 = color := by
          intro q hq
          rcases List.mem_append.mp hq with h | h
          · exact ((hmem_pushes q).mp h).2.1
          · exact hscol q (List.mem_cons_of_mem _ h)
        have hsreach' : ∀ q ∈ pushes ++ rest, reach g size color seed q := by
          intro q hq
          rcases List.mem_append.mp hq with h | h
          · obtain ⟨hq1, hq2, _⟩ := (hmem_pushes q).mp h
            exact Relation.ReflTransGen.tail hpreach ⟨hpcol, hq1, hq2⟩
          · exact hsreach q (List.mem_cons_of_mem _ h)
        have hclosed' : ∀ x ∈ visited', ∀ q ∈ nbrs size x,
            g.getCell q.1 q.2 = color → q ∈ visited' ∨ q ∈ pushes ++ rest := by
          intro x hx q hq hqc
          rcases (hmem_v' x).mp hx with h | h
          · rcases hclosed x h q hq hqc with h1 | h1
            · exact Or.inl ((hmem_v' q).mpr (Or.inl h1))
            · rcases List.mem_cons.mp h1 with h2 | h2
              · exact Or.inl ((hmem_v' q).mpr (Or.inr h2))
              · exact Or.inr (List.mem_append.mpr (Or.inr h2))
          · subst h
            by_cases hqv : q ∈ visited'
            · exact Or.inl hqv
            · exact Or.inr (List.mem_append.mpr
                (Or.inl ((hmem_pushes q).mpr ⟨hq, hqc, hqv⟩)))
        have hlen' : visited'.length = visited.length + 1 := by simp [hv']
        have hbound : visited'.length ≤ size * size := nodup_pos_length_le hnd' hvin'
        have hpushlen : pushes.length ≤ 4 := by
          calc pushes.length ≤ (nbrs size p).length := List.length_filter_le _ _
          _ ≤ 4 := nbrs_length_le size p
        have hfuel' : 5 * (size * size - visited'.length) +
            (pushes ++ rest).length ≤ fuel := by
          have h1 : (pushes ++ rest).length = pushes.length + rest.length := by
            simp
          simp only [List.length_cons] at hfuel
          omega
        have hstep := ih (pushes ++ rest) visited' hnd' hvin' hsin' hvcol' hscol'
          hvreach' hsreach' hclosed' hfuel'
        refine ⟨hstep.1, ?_, ?_, hstep.2.2.2.1, hstep.2.2.2.2⟩
        · intro q hq
          exact hstep.2.1 q ((hmem_v' q).mpr (Or.inl hq))
        · intro q hq
          rcases List.mem_cons.mp hq with h1 | h1
          · exact h1 ▸ hstep.2.1 p ((hmem_v' p).mpr (Or.inr rfl))
          · exact hstep.2.2.1 q (List.mem_append.mpr (Or.inr h1))

/-- `_find_chain` at a colored in-bounds seed computes exactly the
spec's group: the cells reachable from the seed through same-colored
orthogonal steps. -/
theorem find_chain_correct {b : Board} {seed : Nat × Nat} {color : Cell}
    (hseed : seed.1 < b.size ∧ seed.2 < b.size)
    (hcol : b.grid.getCell seed.1 seed.2 = color) (hne : color ≠ Cell.empty) :
    (find_chain b seed).Nodup ∧
    (∀ p, p ∈ find_chain b seed ↔ reach b.grid b.size color seed p) := by
  have hchain : find_chain b seed =
      chainLoop b.grid b.size color (5 * b.size * b.size + 1) [seed] [] := by
    unfold find_chain
    rw [hcol, if_neg hne]
  rw [hchain]
  have hstep := @chainLoop_spec b.grid b.size color seed
    (5 * b.size * b.size + 1) [seed] []
    List.nodup_nil (by simp) (by simpa using hseed) (by simp)
    (by simpa using hcol) (by simp)
    (by simpa using reach_refl b.grid b.size color seed) (by simp)
    (by simp [Nat.mul_assoc])
  refine ⟨hstep.1, fun p => ⟨fun hp => (hstep.2.2.2.1 p hp).2.1, fun hp => ?_⟩⟩
  induction hp with
  | refl => exact hstep.2.2.1 seed (by simp)
  | tail hr hstepr ih =>
    exact hstep.2.2.2.2 _ ih _ hstepr.2.1 hstepr.2.2

/-- The spec's "zero liberties": no member of the group of `n` has an
empty orthogonal neighbor. -/
def groupDead (g : Grid) (size : Nat) (color : Cell) (n : Nat × Nat) : Prop :=
  ∀ p, reach g size color n p → ∀ q ∈ nbrs size p, g.getCell q.1 q.2 ≠ Cell.empty

theorem chain_has_liberties_iff {b : Board} {chain : List (Nat × Nat)} :
    chain_has_liberties b chain = true ↔
      ∃ p ∈ chain, ∃ q ∈ nbrs b.size p, b.grid.getCell q.1 q.2 = Cell.empty := by
  unfold chain_has_liberties
  simp [List.any_eq_true]

/-- For a colored in-bounds seed, the source's liberty check on the
computed chain decides exactly the spec's `groupDead`. -/
theorem groupDead_iff_chain {b : Board} {seed : Nat × Nat} {color : Cell}
    (hseed : seed.1 < b.size ∧ seed.2 < b.size)
    (hcol : b.grid.getCell seed.1 seed.2 = color) (hne : color ≠ Cell.empty) :
    groupDead b.grid b.size color seed ↔
      chain_has_liberties b (find_chain b seed) = false := by
  have hc := find_chain_correct hseed hcol hne
  rw [← Bool.not_eq_true, chain_has_liberties_iff]
  unfold groupDead
  constructor
  · intro hdead hlib
    obtain ⟨p, hp, q, hq, hqe⟩ := hlib
    exact hdead p ((hc.2 p).mp hp) q hq hqe
  · intro hnolib p hp q hq
    intro hqe
    exact hnolib ⟨p, (hc.2 p).mpr hp, q, hq, hqe⟩

/-! ### Transfer lemmas

During the capture loop the board differs from the post-placement
board `B1` only on the already-captured cells `P`.  For a group
disjoint from `P` (components of distinct seeds of the same color are
either equal or disjoint), reachability and liberties are the same on
both boards. -/

section Transfer

variable {b b' : Board} {P : List (Nat × Nat)} {color : Cell} {n : Nat × Nat}

/-- Reachability transfer: emptying the cells of `P` does not change
the group of a seed whose group avoids `P`. -/
theorem reach_transfer
    (hB' : ∀ r c, b'.grid.getCell r c =
      if (r, c) ∈ P then Cell.empty else b.grid.getCell r c)
    (hne : color ≠ Cell.empty)
    (hdisj : ∀ x, reach b.grid b.size color n x → x ∉ P) :
    ∀ p, reach b'.grid b.size color n p ↔ reach b.grid b.size color n p := by
  have hcell : ∀ x : Nat × Nat, b'.grid.getCell x.1 x.2 = color →
      b.grid.getCell x.1 x.2 = color := by
    intro x hx
    rw [hB' x.1 x.2] at hx
    split at hx
    · exact absurd hx.symm hne
    · exact hx
  have hcell' : ∀ x : Nat × Nat, x ∉ P → b.grid.getCell x.1 x.2 = color →
      b'.grid.getCell x.1 x.2 = color := by
    intro x hxP hx
    rw [hB' x.1 x.2, if_neg hxP]
    exact hx
  intro p
  constructor
  · intro h
    refine Relation.ReflTransGen.mono ?_ h
    rintro x y ⟨h1, h2, h3⟩
    exact ⟨hcell x h1, h2, hcell y h3⟩
  · intro h
    induction h with
    | refl => exact reach_refl _ _ _ _
    | tail hr hstep ih =>
      rename_i x y
      have hx : x ∉ P := hdisj x hr
      have hy : y ∉ P := hdisj y (Relation.ReflTransGen.tail hr hstep)
      exact Relation.ReflTransGen.tail ih
        ⟨hcell' x hx hstep.1, hstep.2.1, hcell' y hy hstep.2.2⟩

/-- No member of a `P`-disjoint group has a neighbor in `P`, as long
as `P` holds only cells of the same color (two adjacent same-colored
cells are in the same group). -/
theorem comp_no_P_neighbor
    (hncol : b.grid.getCell n.1 n.2 = color)
    (hPcol : ∀ p ∈ P, b.grid.getCell p.1 p.2 = color)
    (hdisj : ∀ x, reach b.grid b.size color n x → x ∉ P) :
    ∀ x, reach b.grid b.size color n x → ∀ q ∈ nbrs b.size x, q ∉ P := by
  intro x hx q hq hqP
  have hstep : stepRel b.grid b.size color x q :=
    ⟨reach_colored hncol hx, hq, hPcol q hqP⟩
  exact hdisj q (Relation.ReflTransGen.tail hx hstep) hqP

/-- Liberties transfer: under the same disjointness, the group of `n`
is dead on the capture-loop board iff it is dead on `B1`. -/
theorem groupDead_transfer
    (hB' : ∀ r c, b'.grid.getCell r c =
      if (r, c) ∈ P then Cell.empty else b.grid.getCell r c)
    (hne : color ≠ Cell.empty)
    (hncol : b.grid.getCell n.1 n.2 = color)
    (hPcol : ∀ p ∈ P, b.grid.getCell p.1 p.2 = color)
    (hdisj : ∀ x, reach b.grid b.size color n x → x ∉ P) :
    groupDead b'.grid b.size color n ↔ groupDead b.grid b.size color n := by
  have htrans := reach_transfer hB' hne hdisj
  have hnoPn := comp_no_P_neighbor hncol hPcol hdisj
  unfold groupDead
  constructor
  · intro hdead p hp q hq hqe
    have hqP : q ∉ P := hnoPn p hp q hq
    apply hdead p ((htrans p).mpr hp) q hq
    rw [hB' q.1 q.2, if_neg hqP]
    exact hqe
  · intro hdead p hp q hq hqe
    have hp1 := (htrans p).mp hp
    have hqP : q ∉ P := hnoPn p hp1 q hq
    rw [hB' q.1 q.2, if_neg hqP] at hqe
    exact hdead p hp1 q hq hqe

end Transfer

/-! ## The capture phase of `GoGame.make_move`

The source iterates the four neighbors of the placed stone; for each
neighbor currently holding the opponent color it flood-fills the
chain, checks liberties, skips chains overlapping already-captured
cells, and otherwise removes the chain, records the removed stones,
and credits the mover.  `CapState` is the mutable state of that loop
(`self.board`, `captured_positions`, `processed_positions`, and the
two captured counters). -/

structure CapState where
  board : Board
  captured : List (Nat × Nat × Cell)
  processed : List (Nat × Nat)
  captured_black : Nat
  captured_white : Nat
deriving DecidableEq, Repr

/-- Remove every chain member (`self.board._grid[r][c] = EMPTY`). -/
def emptyOutChain (b : Board) (chain : List (Nat × Nat)) : Board :=
  writeAll b (chain.map fun p => (p.1, p.2, Cell.empty))

/-- The body of the neighbor loop in `GoGame.make_move`. -/
def captureStep (opp : Cell) (st : CapState) (n : Nat × Nat) : CapState :=
  if st.board.grid.getCell n.1 n.2 = opp then
    if chain_has_liberties st.board (find_chain st.board n) = false then
      if ((find_chain st.board n).any fun p => decide (p ∈ st.processed)) = true then st
      else
        { board := emptyOutChain st.board (find_chain st.board n)
          captured := st.captured ++ (find_chain st.board n).map fun p => (p.1, p.2, opp)
          processed := st.processed ++ find_chain st.board n
          captured_black :=
            if opp = Cell.black then st.captured_black
            else st.captured_black + (find_chain st.board n).length
          captured_white :=
            if opp = Cell.black then st.captured_white + (find_chain st.board n).length
            else st.captured_white }
    else st
  else st

/-- The spec's captured set after processing the seeds `pre`: cells of
a zero-liberty opponent group through one of those seeds, with group
and liberties read off the post-placement board `B1`. -/
def capturedBySeeds (B1 : Board) (opp : Cell) (pre : List (Nat × Nat))
    (p : Nat × Nat) : Prop :=
  ∃ n ∈ pre, B1.grid.getCell n.1 n.2 = opp ∧ groupDead B1.grid B1.size opp n ∧
    reach B1.grid B1.size opp n p

/-- Loop invariant of the capture phase, relative to the
post-placement board `B1` and the counter values before the move. -/
structure CapInv (B1 : Board) (opp : Cell) (initB initW : Nat)
    (pre : List (Nat × Nat)) (st : CapState) : Prop where
  size_eq : st.board.size = B1.size
  wf : st.board.WF
  cells : ∀ r c, st.board.grid.getCell r c =
    if (r, c) ∈ st.processed then Cell.empty else B1.grid.getCell r c
  nodup : st.processed.Nodup
  pcol : ∀ p ∈ st.processed, B1.grid.getCell p.1 p.2 = opp
  pin : ∀ p ∈ st.processed, p.1 < B1.size ∧ p.2 < B1.size
  pmem : ∀ p, p ∈ st.processed ↔ capturedBySeeds B1 opp pre p
  cap : st.captured = st.processed.map fun p => (p.1, p.2, opp)
  cntb : st.captured_black =
    if opp = Cell.black then initB else initB + st.processed.length
  cntw : st.captured_white =
    if opp = Cell.black then initW + st.processed.length else initW

theorem capturedBySeeds_append_one {B1 : Board} {opp : Cell}
    {pre : List (Nat × Nat)} {n p : Nat × Nat} :
    capturedBySeeds B1 opp (pre ++ [n]) p ↔
      capturedBySeeds B1 opp pre p ∨
        (B1.grid.getCell n.1 n.2 = opp ∧ groupDead B1.grid B1.size opp n ∧
          reach B1.grid B1.size opp n p) := by
  unfold capturedBySeeds
  constructor
  · rintro ⟨m, hm, hrest⟩
    rcases List.mem_append.mp hm with h | h
    · exact Or.inl ⟨m, h, hrest⟩
    · rcases List.mem_singleton.mp h with rfl
      exact Or.inr hrest
  · rintro (⟨m, hm, hrest⟩ | hrest)
    · exact ⟨m, List.mem_append.mpr (Or.inl hm), hrest⟩
    · exact ⟨n, List.mem_append.mpr (Or.inr (List.mem_singleton.mpr rfl)), hrest⟩

/-- One step of the capture loop preserves the invariant, advancing
the processed seed list by the current neighbor. -/
theorem captureStep_inv {B1 : Board} {opp : Cell} {initB initW : Nat}
    {pre : List (Nat × Nat)} {st : CapState} {n : Nat × Nat}
    (hopp : opp ≠ Cell.empty)
    (hnin : n.1 < B1.size ∧ n.2 < B1.size)
    (hpre : ∀ m ∈ pre, m.1 < B1.size ∧ m.2 < B1.size)
    (hinv : CapInv B1 opp initB initW pre st) :
    CapInv B1 opp initB initW (pre ++ [n]) (captureStep opp st n) := by
  obtain ⟨hsize, hwf, hcells, hnodup, hpcol, hpin, hpmem, hcap, hcntb, hcntw⟩ := hinv
  by_cases hn : st.board.grid.getCell n.1 n.2 = opp
  case neg =>
    -- the neighbor does not currently hold the opponent color: no-op,
    -- and the ideal set does not grow (if the `B1`-group of `n` is dead
    -- and opponent-colored, `n` was already captured through an earlier
    -- seed, whose group includes the whole group of `n`)
    have hstep : captureStep opp st n = st := by
      unfold captureStep
      rw [if_neg hn]
    rw [hstep]
    refine ⟨hsize, hwf, hcells, hnodup, hpcol, hpin, ?_, hcap, hcntb, hcntw⟩
    intro p
    rw [hpmem p, capturedBySeeds_append_one]
    constructor
    · exact Or.inl
    · rintro (h | ⟨hB1n, hdead, hreach⟩)
      · exact h
      · -- `B1` has the opponent color at `n` but the loop board does not:
        -- `n` is processed, so some earlier seed reaches `n`, hence `p`
        have hnPr : n ∈ st.processed := by
          by_contra hnP
          rw [hcells n.1 n.2, if_neg hnP] at hn
          exact hn hB1n
        obtain ⟨m, hm, hmcol, hmdead, hmreach⟩ := (hpmem n).mp hnPr
        exact ⟨m, hm, hmcol, hmdead, reach_trans hmreach hreach⟩
  case pos =>
    have hnP : n ∉ st.processed := by
      intro hmem
      rw [hcells n.1 n.2, if_pos hmem] at hn
      exact hopp hn.symm
    have hB1n : B1.grid.getCell n.1 n.2 = opp := by
      have := hcells n.1 n.2
      rw [if_neg hnP] at this
      rw [← this]; exact hn
    have hdisj : ∀ x, reach B1.grid B1.size opp n x → x ∉ st.processed := by
      intro x hx hxP
      obtain ⟨m, hm, hmcol, hmdead, hmreach⟩ := (hpmem x).mp hxP
      have hiff := reach_of_common hnin (hpre m hm) hx hmreach
      have : reach B1.grid B1.size opp m n :=
        (hiff n).mp (reach_refl _ _ _ _)
      exact hnP ((hpmem n).mpr ⟨m, hm, hmcol, hmdead, this⟩)
    -- the chain computed on the loop board is the `B1`-group of `n`
    have hnin' : n.1 < st.board.size ∧ n.2 < st.board.size := by
      rw [hsize]; exact hnin
    have hfc := @find_chain_correct st.board n _ hnin' hn hopp
    have hreach_iff := @reach_transfer B1 st.board st.processed _ _
      hcells hopp hdisj
    have hsize_rw : st.board.size = B1.size := hsize
    have hchain_mem : ∀ p, p ∈ find_chain st.board n ↔
        reach B1.grid B1.size opp n p := by
      intro p
      rw [hfc.2 p, hsize_rw]
      exact hreach_iff p
    have hdead_iff : chain_has_liberties st.board (find_chain st.board n) = false ↔
        groupDead B1.grid B1.size opp n := by
      rw [← groupDead_iff_chain hnin' hn hopp, hsize_rw]
      exact groupDead_transfer hcells hopp hB1n hpcol hdisj
    by_cases hlib : chain_has_liberties st.board (find_chain st.board n) = false
    case neg =>
      have hstep : captureStep opp st n = st := by
        unfold captureStep
        rw [if_pos hn, if_neg hlib]
      rw [hstep]
      refine ⟨hsize, hwf, hcells, hnodup, hpcol, hpin, ?_, hcap, hcntb, hcntw⟩
      intro p
      rw [hpmem p, capturedBySeeds_append_one]
      constructor
      · exact Or.inl
      · rintro (h | ⟨hB1n', hdead, hreach⟩)
        · exact h
        · exact absurd (hdead_iff.mpr hdead) hlib
    case pos =>
      have hdead : groupDead B1.grid B1.size opp n := hdead_iff.mp hlib
      have hchain_notP : ∀ p ∈ find_chain st.board n, p ∉ st.processed := by
        intro p hp
        exact hdisj p ((hchain_mem p).mp hp)
      have hany : ((find_chain st.board n).any fun p => decide (p ∈ st.processed)) = false := by
        rw [List.any_eq_false]
        intro p hp
        simpa using hchain_notP p hp
      have hstep : captureStep opp st n =
          { board := emptyOutChain st.board (find_chain st.board n)
            captured := st.captured ++ (find_chain st.board n).map fun p => (p.1, p.2, opp)
            processed := st.processed ++ find_chain st.board n
            captured_black :=
              if opp = Cell.black then st.captured_black
              else st.captured_black + (find_chain st.board n).length
            captured_white :=
              if opp = Cell.black then st.captured_white + (find_chain st.board n).length
              else st.captured_white } := by
        unfold captureStep
        rw [if_pos hn, if_pos hlib, if_neg (by rw [hany]; simp)]
      rw [hstep]
      set chain := find_chain st.board n with hchain_def
      have hchain_col : ∀ p ∈ chain, B1.grid.getCell p.1 p.2 = opp := by
        intro p hp
        exact reach_colored hB1n ((hchain_mem p).mp hp)
      have hchain_in : ∀ p ∈ chain, p.1 < B1.size ∧ p.2 < B1.size := by
        intro p hp
        exact reach_inBounds hnin ((hchain_mem p).mp hp)
      constructor
      case size_eq =>
        show (emptyOutChain st.board chain).size = B1.size
        unfold emptyOutChain
        rw [writeAll_size, hsize]
      case wf =>
        show (emptyOutChain st.board chain).WF
        exact writeAll_wf hwf _
      case cells =>
        intro r c
        show (emptyOutChain st.board chain).grid.getCell r c =
          if (r, c) ∈ st.processed ++ chain then Cell.empty else B1.grid.getCell r c
        by_cases hrc : (r, c) ∈ chain
        · have hin := hchain_in _ hrc
          have hrs : r < st.board.size := by rw [hsize]; exact hin.1
          have hcs : c < st.board.size := by rw [hsize]; exact hin.2
          have : (emptyOutChain st.board chain).grid.getCell r c = Cell.empty := by
            unfold emptyOutChain
            refine writeAll_getCell_mem hwf hrs hcs ?_ ?_
            · exact List.mem_map.mpr ⟨(r, c), hrc, rfl⟩
            · rintro t ht - -
              obtain ⟨q, hq, rfl⟩ := List.mem_map.mp ht
              rfl
          rw [this, if_pos (List.mem_append.mpr (Or.inr hrc))]
        · have hnw : ∀ t ∈ chain.map fun p => (p.1, p.2, Cell.empty),
              t.1 ≠ r ∨ t.2.1 ≠ c := by
            rintro t ht
            obtain ⟨q, hq, rfl⟩ := List.mem_map.mp ht
            by_contra hcon
            push_neg at hcon
            apply hrc
            have : q = (r, c) := by
              obtain ⟨q1, q2⟩ := q
              simp only at hcon
              simp [hcon.1, hcon.2]
            rwa [this] at hq
          have : (emptyOutChain st.board chain).grid.getCell r c =
              st.board.grid.getCell r c := writeAll_getCell_notMem hnw st.board
          rw [this, hcells r c]
          by_cases hP : (r, c) ∈ st.processed
          · rw [if_pos hP, if_pos (List.mem_append.mpr (Or.inl hP))]
          · rw [if_neg hP, if_neg (by
              intro hmem
              rcases List.mem_append.mp hmem with h | h
              · exact hP h
              · exact hrc h)]
      case nodup =>
        show (st.processed ++ chain).Nodup
        rw [List.nodup_append]
        exact ⟨hnodup, hfc.1, fun a ha hb => hchain_notP a hb ha⟩
      case pcol =>
        intro p hp
        rcases List.mem_append.mp hp with h | h
        · exact hpcol p h
        · exact hchain_col p h
      case pin =>
        intro p hp
        rcases List.mem_append.mp hp with h | h
        · exact hpin p h
        · exact hchain_in p h
      case pmem =>
        intro p
        show p ∈ st.processed ++ chain ↔ capturedBySeeds B1 opp (pre ++ [n]) p
        rw [capturedBySeeds_append_one]
        constructor
        · intro hp
          rcases List.mem_append.mp hp with h | h
          · exact Or.inl ((hpmem p).mp h)
          · exact Or.inr ⟨hB1n, hdead, (hchain_mem p).mp h⟩
        · rintro (h | ⟨-, -, hreach⟩)
          · exact List.mem_append.mpr (Or.inl ((hpmem p).mpr h))
          · exact List.mem_append.mpr (Or.inr ((hchain_mem p).mpr hreach))
      case cap =>
        show st.captured ++ chain.map (fun p => (p.1, p.2, opp)) =
          (st.processed ++ chain).map fun p => (p.1, p.2, opp)
        rw [List.map_append, hcap]
      case cntb =>
        show (if opp = Cell.black then st.captured_black
            else st.captured_black + chain.length) =
          if opp = Cell.black then initB else initB + (st.processed ++ chain).length
        rw [List.length_append]
        by_cases h : opp = Cell.black
        · rw [if_pos h, if_pos h, hcntb, if_pos h]
        · rw [if_neg h, if_neg h, hcntb, if_neg h]
          omega
      case cntw =>
        show (if opp = Cell.black then st.captured_white + chain.length
            else st.captured_white) =
          if opp = Cell.black then initW + (st.processed ++ chain).length else initW
        rw [List.length_append]
        by_cases h : opp = Cell.black
        · rw [if_pos h, if_pos h, hcntw, if_pos h]
          omega
        · rw [if_neg h, if_neg h, hcntw, if_neg h]

/-- The whole neighbor loop preserves the invariant. -/
theorem captureFold_inv {B1 : Board} {opp : Cell} {initB initW : Nat}
    (hopp : opp ≠ Cell.empty) :
    ∀ (ns pre : List (Nat × Nat)) (st : CapState),
    (∀ m ∈ ns, m.1 < B1.size ∧ m.2 < B1.size) →
    (∀ m ∈ pre, m.1 < B1.size ∧ m.2 < B1.size) →
    CapInv B1 opp initB initW pre st →
    CapInv B1 opp initB initW (pre ++ ns) (ns.foldl (captureStep opp) st) := by
  intro ns
  induction ns with
  | nil =>
    intro pre st hns hpre hinv
    simpa using hinv
  | cons n ns ih =>
    intro pre st hns hpre hinv
    have hstep := captureStep_inv hopp (hns n (List.mem_cons_self _ _)) hpre hinv
    have hpre' : ∀ m ∈ pre ++ [n], m.1 < B1.size ∧ m.2 < B1.size := by
      intro m hm
      rcases List.mem_append.mp hm with h | h
      · exact hpre m h
      · have hmn : m = n := List.mem_singleton.mp h
        rw [hmn]
        exact hns n (List.mem_cons_self _ _)
    have := ih (pre ++ [n]) (captureStep opp st n)
      (fun m hm => hns m (List.mem_cons_of_mem _ hm)) hpre' hstep
    rw [List.append_assoc] at this
    simpa using this

/-- The invariant holds initially (empty captured/processed lists, the
post-placement board, the pre-move counters). -/
theorem capInv_init {B1 : Board} {opp : Cell} {initB initW : Nat}
    (hwf : B1.WF) :
    CapInv B1 opp initB initW []
      ⟨B1, [], [], initB, initW⟩ := by
  refine ⟨rfl, hwf, ?_, List.nodup_nil, by simp, by simp, ?_, rfl, by simp, by simp⟩
  · intro r c
    simp
  · intro p
    simp [capturedBySeeds]

/-! ## Whole-board scans -/

/-- All board coordinates in row-major order (`range(size)` twice). -/
def allPositions (n : Nat) : List (Nat × Nat) :=
  (List.range n).flatMap fun r => (List.range n).map fun c => (r, c)

theorem mem_allPositions {n : Nat} {p : Nat × Nat} :
    p ∈ allPositions n ↔ p.1 < n ∧ p.2 < n := by
  obtain ⟨r, c⟩ := p
  simp [allPositions, List.mem_flatMap, List.mem_range]

/-- Stones of a color on the board (the counting loop of
`GoGame._end_game_by_counts`). -/
def countColor (b : Board) (color : Cell) : Nat :=
  (allPositions b.size).countP fun p => b.grid.getCell p.1 p.2 == color

/-- `not any(… == EMPTY …)`: the board has no empty cell. -/
def boardFull (b : Board) : Bool :=
  (allPositions b.size).all fun p => !(b.grid.getCell p.1 p.2 == Cell.empty)

theorem boardFull_iff {b : Board} :
    boardFull b = true ↔
      ∀ r < b.size, ∀ c < b.size, b.grid.getCell r c ≠ Cell.empty := by
  unfold boardFull
  rw [List.all_eq_true]
  constructor
  · intro h r hr c hc
    have := h (r, c) (mem_allPositions.mpr ⟨hr, hc⟩)
    simpa using this
  · intro h p hp
    have hin := mem_allPositions.mp hp
    simpa using h p.1 hin.1 p.2 hin.2

/-! ## The Go game (`src/core/go.py`, class `GoGame`) -/

/-- The fields common to every `"move"` history dict pushed by
`Game._record_move`. -/
structure MoveData where
  row : Nat
  col : Nat
  prev : Cell
  prevStatus : GameStatus
  prevCurrent : Player
  prevOther : Player
deriving DecidableEq, Repr

/-- A Go history entry.  The `Option` fields model dict keys that
`GoGame` adds to the entry after `_apply_move` / `_apply_pass` pushed
it; `undo` reads them with `entry.get(key, default)`. -/
inductive GoEntry where
  | move (base : MoveData) (captured : Option (List (Nat × Nat × Cell)))
      (prevCapturedBlack prevCapturedWhite prevPasses : Option Nat)
  | passEntry (prevStatus : GameStatus) (prevCurrent prevOther : Player)
      (prevPasses : Option Nat)
  | resignEntry (prevStatus : GameStatus) (prevCurrent prevOther : Player)
deriving DecidableEq, Repr

/-- The `GoGame` object state. -/
@[ext]
structure GoState where
  board : Board
  blackPlayer : Player
  whitePlayer : Player
  current : Player
  other : Player
  status : GameStatus
  captured_black : Nat
  captured_white : Nat
  consecutive_passes : Nat
  history : List GoEntry
deriving DecidableEq, Repr

/-- `GoGame._end_game_by_counts`: area scoring. -/
def GoState.end_game_by_counts (g : GoState) : GoState :=
  { g with status :=
      if countColor g.board Cell.white + g.captured_white <
          countColor g.board Cell.black + g.captured_black then
        GameStatus.blackWin
      else if countColor g.board Cell.black + g.captured_black <
          countColor g.board Cell.white + g.captured_white then
        GameStatus.whiteWin
      else GameStatus.draw }

/-- `GoGame.undo`: pop the entry, restore players and status, then the
Go-specific fields (placed cell, captured stones, counters, passes). -/
def GoState.undo (g : GoState) : Option GameError × GoState :=
  match g.history with
  | [] => (some .nothingToUndo, g)
  | entry :: rest =>
    match entry with
    | .move base captured pcb pcw pp =>
      (none, { g with
        history := rest
        current := base.prevCurrent
        other := base.prevOther
        status := base.prevStatus
        board := writeAll (g.board.setCellB base.row base.col base.prev)
          (captured.getD [])
        captured_black := pcb.getD g.captured_black
        captured_white := pcw.getD g.captured_white
        consecutive_passes := pp.getD g.consecutive_passes })
    | .passEntry ps pc po pp =>
      (none, { g with
        history := rest
        current := pc
        other := po
        status := ps
        consecutive_passes := pp.getD g.consecutive_passes })
    | .resignEntry ps pc po =>
      (none, { g with
        history := rest
        current := pc
        other := po
        status := ps })

/-- The board right after `_apply_move` placed the mover's stone. -/
def goB1 (g : GoState) (r c : Nat) : Board :=
  g.board.setCellB r c g.current.color

/-- The capture-loop result: the source folds `captureStep` over the
neighbors of the placed stone, starting from the post-placement board,
empty captured/processed lists, and the current counters.  After
`_apply_move` switched the turn, the opponent color is the new current
player's color, i.e. `g.other.color` of the pre-move state. -/
def goStf (g : GoState) (r c : Nat) : CapState :=
  (nbrs g.board.size (r, c)).foldl (captureStep g.other.color)
    ⟨goB1 g r c, [], [], g.captured_black, g.captured_white⟩

/-- The game state after placement, captures, history augmentation and
the pass-counter reset (the source's state at the suicide check).  The
recorded `prev` cell is `Empty`: the occupancy pre-check guarantees the
cell was empty. -/
def goG3 (g : GoState) (r c : Nat) : GoState :=
  { g with
    board := (goStf g r c).board
    current := g.other
    other := g.current
    captured_black := (goStf g r c).captured_black
    captured_white := (goStf g r c).captured_white
    consecutive_passes := 0
    history := GoEntry.move ⟨r, c, Cell.empty, g.status, g.current, g.other⟩
      (some (goStf g r c).captured) (some g.captured_black)
      (some g.captured_white) (some g.consecutive_passes) :: g.history }

/-- `GoGame.make_move`.  The steps mirror the source: terminal check,
occupancy pre-check (`get_piece` raising `OutOfBounds` first),
`_apply_move` (record entry, place stone — whose only remaining
failure is an invalid mover color — and switch turn), the capture
loop, history augmentation, pass-counter reset, suicide check
(internal `undo()` plus failure), and the full-board scoring check. -/
def GoState.make_move (g : GoState) (row col : Int) : Option GameError × GoState :=
  if g.status ≠ GameStatus.ongoing then (some .gameOver, g)
  else if ¬ g.board.validPos row col then (some .outOfBounds, g)
  else if g.board.grid.getCell row.toNat col.toNat ≠ Cell.empty then
    (some .alreadyOccupied, g)
  else if g.current.color ≠ Cell.black ∧ g.current.color ≠ Cell.white then
    -- `place_piece` raises after `_record_move` already pushed the entry
    (some .invalidColor, { g with
      history := GoEntry.move ⟨row.toNat, col.toNat, Cell.empty, g.status,
        g.current, g.other⟩ none none none none :: g.history })
  else if chain_has_liberties (goG3 g row.toNat col.toNat).board
      (find_chain (goG3 g row.toNat col.toNat).board (row.toNat, col.toNat)) = false
      ∧ (goStf g row.toNat col.toNat).captured = [] then
    (some .suicideNotAllowed, ((goG3 g row.toNat col.toNat).undo).2)
  else if boardFull (goG3 g row.toNat col.toNat).board = true then
    (none, (goG3 g row.toNat col.toNat).end_game_by_counts)
  else (none, goG3 g row.toNat col.toNat)

/-- The state after `_apply_pass` plus the counter bump and history
augmentation of `GoGame.pass_turn`. -/
def goPassG1 (g : GoState) : GoState :=
  { g with
    history := GoEntry.passEntry g.status g.current g.other
      (some g.consecutive_passes) :: g.history
    current := g.other
    other := g.current
    consecutive_passes := g.consecutive_passes + 1 }

/-- `GoGame.pass_turn`: terminal check, push a pass entry (with the
previous pass count recorded into it), switch turn, bump the counter,
and score when both players passed. -/
def GoState.pass_turn (g : GoState) : Option GameError × GoState :=
  if g.status ≠ GameStatus.ongoing then (some .gameOver, g)
  else if 2 ≤ (goPassG1 g).consecutive_passes then
    (none, (goPassG1 g).end_game_by_counts)
  else (none, goPassG1 g)

/-- `Game.resign` (inherited): push a resign entry, then the other
player wins.  The source never fails here. -/
def GoState.resign (g : GoState) : GoState :=
  { g with
    history := GoEntry.resignEntry g.status g.current g.other :: g.history
    status := if g.current.color = Cell.black then GameStatus.whiteWin
      else GameStatus.blackWin }

/-- The two turn pointers hold the two distinct colors. -/
def colorsOK (cur oth : Player) : Prop :=
  (cur.color = Cell.black ∧ oth.color = Cell.white) ∨
  (cur.color = Cell.white ∧ oth.color = Cell.black)

instance (cur oth : Player) : Decidable (colorsOK cur oth) := by
  unfold colorsOK; infer_instance

/-- Go state well-formedness: well-formed board, distinct player
colors.  Holds for every state the engine constructs. -/
def GoState.WF (g : GoState) : Prop :=
  g.board.WF ∧ colorsOK g.current g.other

instance (g : GoState) : Decidable g.WF := by
  unfold GoState.WF; infer_instance

/-- A fresh Go game (`GoGame.__init__` via the factory's players). -/
def GoState.init (size : Nat) : GoState :=
  { board := Board.init size
    blackPlayer := ⟨"Black", Cell.black⟩
    whitePlayer := ⟨"White", Cell.white⟩
    current := ⟨"Black", Cell.black⟩
    other := ⟨"White", Cell.white⟩
    status := GameStatus.ongoing
    captured_black := 0
    captured_white := 0
    consecutive_passes := 0
    history := [] }

theorem GoState.go_wf_init (size : Nat) : (GoState.init size).WF :=
  ⟨Board.wf_init size, Or.inl ⟨rfl, rfl⟩⟩

/-! ### Facts about a successful Go move -/

section GoMove

variable {g : GoState} {row col : Int}

theorem colorsOK_ne {cur oth : Player} (h : colorsOK cur oth) :
    cur.color ≠ oth.color := by
  rcases h with ⟨h1, h2⟩ | ⟨h1, h2⟩ <;> rw [h1, h2] <;> simp

theorem colorsOK_cur_ne_empty {cur oth : Player} (h : colorsOK cur oth) :
    cur.color ≠ Cell.empty := by
  rcases h with ⟨h1, _⟩ | ⟨h1, _⟩ <;> rw [h1] <;> simp

theorem colorsOK_oth_ne_empty {cur oth : Player} (h : colorsOK cur oth) :
    oth.color ≠ Cell.empty := by
  rcases h with ⟨_, h2⟩ | ⟨_, h2⟩ <;> rw [h2] <;> simp

theorem goB1_size (g : GoState) (r c : Nat) : (goB1 g r c).size = g.board.size := rfl

/-- The capture loop establishes its invariant over all four neighbor
seeds of the placed stone. -/
theorem goCapInv (hwf : g.WF) :
    ∀ r c : Nat,
    CapInv (goB1 g r c) g.other.color g.captured_black g.captured_white
      (nbrs g.board.size (r, c)) (goStf g r c) := by
  intro r c
  have hopp : g.other.color ≠ Cell.empty := colorsOK_oth_ne_empty hwf.2
  have hinit : CapInv (goB1 g r c) g.other.color g.captured_black g.captured_white []
      ⟨goB1 g r c, [], [], g.captured_black, g.captured_white⟩ :=
    capInv_init (Board.wf_setCellB hwf.1 r c _)
  have hns : ∀ m ∈ nbrs g.board.size (r, c),
      m.1 < (goB1 g r c).size ∧ m.2 < (goB1 g r c).size := by
    intro m hm
    rw [goB1_size]
    exact nbrs_inBounds hm
  have := captureFold_inv hopp (nbrs g.board.size (r, c)) [] _ hns (by simp) hinit
  simpa [goStf] using this

/-- The placed cell is never captured: it holds the mover's color, not
the opponent's. -/
theorem goPlaced_notProcessed (hwf : g.WF) {r c : Nat}
    (hr : r < g.board.size) (hc : c < g.board.size) :
    (r, c) ∉ (goStf g r c).processed := by
  intro hmem
  have hinv := goCapInv hwf r c
  have hcol := hinv.pcol _ hmem
  have hmover : (goB1 g r c).grid.getCell r c = g.current.color :=
    Grid.getCell_setCell_eq hwf.1 hr hc _
  rw [hmover] at hcol
  exact colorsOK_ne hwf.2 hcol

/-- Undoing the state reached right after a Go move (with any status
the post-move checks may have set) restores the pre-move state
exactly. -/
theorem goUndo_g3 (hwf : g.WF) (hpos : g.board.validPos row col)
    (hempty : g.board.grid.getCell row.toNat col.toNat = Cell.empty) :
    ∀ s' : GameStatus,
      GoState.undo { goG3 g row.toNat col.toNat with status := s' } = (none, g) := by
  intro s'
  set r := row.toNat
  set c := col.toNat
  obtain ⟨hr, hc⟩ := Board.validPos_toNat hpos
  have hinv := goCapInv hwf r c
  have hrcP : (r, c) ∉ (goStf g r c).processed := goPlaced_notProcessed hwf hr hc
  have hundo : GoState.undo { goG3 g r c with status := s' } =
      (none, { g with board := (writeAll ((goStf g r c).board.setCellB r c
        Cell.empty) ((goStf g r c).captured)) }) := rfl
  rw [hundo]
  have hbase_wf : ((goStf g r c).board.setCellB r c Cell.empty).WF :=
    Board.wf_setCellB hinv.wf r c _
  have hbase_size : ((goStf g r c).board.setCellB r c Cell.empty).size = g.board.size := by
    rw [Board.size_setCellB, hinv.size_eq, goB1_size]
  have hwb_wf : (writeAll ((goStf g r c).board.setCellB r c Cell.empty)
      (goStf g r c).captured).WF := writeAll_wf hbase_wf _
  have hwb_size : (writeAll ((goStf g r c).board.setCellB r c Cell.empty)
      (goStf g r c).captured).size = g.board.size := by
    rw [writeAll_size, hbase_size]
  have hboard : writeAll ((goStf g r c).board.setCellB r c Cell.empty)
      (goStf g r c).captured = g.board := by
    have hgrid : (writeAll ((goStf g r c).board.setCellB r c Cell.empty)
        (goStf g r c).captured).grid = g.board.grid := by
      apply Grid.rect_ext (n := g.board.size) (hwb_size ▸ hwb_wf) hwf.1
      intro x hx y hy
      by_cases hxp : (x, y) ∈ (goStf g r c).processed
      · -- a captured cell: the restoration loop rewrote it with the
        -- opponent color it held before the move
        have hne_rc : (r, c) ≠ (x, y) := fun h => hrcP (h ▸ hxp)
        have hmem : (x, y, g.other.color) ∈ (goStf g r c).captured := by
          rw [hinv.cap]
          exact List.mem_map.mpr ⟨(x, y), hxp, rfl⟩
        have huniq : ∀ t ∈ (goStf g r c).captured,
            t.1 = x → t.2.1 = y → t.2.2 = g.other.color := by
          rintro t ht - -
          rw [hinv.cap] at ht
          obtain ⟨q, hq, rfl⟩ := List.mem_map.mp ht
          rfl
        have hL : (writeAll ((goStf g r c).board.setCellB r c Cell.empty)
            (goStf g r c).captured).grid.getCell x y = g.other.color :=
          writeAll_getCell_mem hbase_wf (by rw [hbase_size]; exact hx)
            (by rw [hbase_size]; exact hy) hmem huniq
        have hB1 : (goB1 g r c).grid.getCell x y = g.other.color := hinv.pcol _ hxp
        have hgb : g.board.grid.getCell x y = g.other.color := by
          have : (goB1 g r c).grid.getCell x y = g.board.grid.getCell x y :=
            Grid.getCell_setCell_ne (by
              by_contra hcon
              push_neg at hcon
              exact hne_rc (by rw [hcon.1, hcon.2])) _
          rw [← this, hB1]
        rw [hL, hgb]
      · have hnw : ∀ t ∈ (goStf g r c).captured, t.1 ≠ x ∨ t.2.1 ≠ y := by
          intro t ht
          rw [hinv.cap] at ht
          obtain ⟨q, hq, rfl⟩ := List.mem_map.mp ht
          by_contra hcon
          push_neg at hcon
          apply hxp
          have : q = (x, y) := by
            obtain ⟨q1, q2⟩ := q
            simp only at hcon
            simp [hcon.1, hcon.2]
          rwa [this] at hq
        have hL : (writeAll ((goStf g r c).board.setCellB r c Cell.empty)
            (goStf g r c).captured).grid.getCell x y =
            ((goStf g r c).board.setCellB r c Cell.empty).grid.getCell x y :=
          writeAll_getCell_notMem hnw _
        rw [hL]
        by_cases hrc : (x, y) = (r, c)
        · injection hrc with hxr hyc
          subst hxr; subst hyc
          have : ((goStf g r c).board.setCellB r c Cell.empty).grid.getCell r c =
              Cell.empty := by
            apply Grid.getCell_setCell_eq hinv.wf
            · rw [hinv.size_eq, goB1_size]; exact hx
            · rw [hinv.size_eq, goB1_size]; exact hy
          rw [this, hempty]
        · have hne : r ≠ x ∨ c ≠ y := by
            by_contra hcon
            push_neg at hcon
            exact hrc (by rw [hcon.1, hcon.2])
          have h1 : ((goStf g r c).board.setCellB r c Cell.empty).grid.getCell x y =
              (goStf g r c).board.grid.getCell x y :=
            Grid.getCell_setCell_ne hne _
          rw [h1, hinv.cells x y, if_neg hxp]
          exact Grid.getCell_setCell_ne hne _
    ext : 1
    · rw [hwb_size]
    · exact hgrid
  rw [hboard]

/-- Undoing the state reached right after a Go pass (with any status
the scoring check may have set) restores the pre-pass state exactly. -/
theorem goUndo_pass (g : GoState) :
    ∀ s' : GameStatus, GoState.undo { goPassG1 g with status := s' } = (none, g) :=
  fun _ => rfl

/-- Undoing a resignation restores the pre-resign state exactly. -/
theorem goUndo_resign (g : GoState) : GoState.undo g.resign = (none, g) := rfl

end GoMove

/-! ## The Gomoku game (`src/core/gomoku.py`, class `GomokuGame`) -/

/-- A Gomoku history entry (the base-class dicts; no Go fields). -/
inductive GomokuEntry where
  | move (base : MoveData)
  | passEntry (prevStatus : GameStatus) (prevCurrent prevOther : Player)
  | resignEntry (prevStatus : GameStatus) (prevCurrent prevOther : Player)
deriving DecidableEq, Repr

/-- The `GomokuGame` object state. -/
@[ext]
structure GomokuState where
  board : Board
  blackPlayer : Player
  whitePlayer : Player
  current : Player
  other : Player
  status : GameStatus
  history : List GomokuEntry
deriving DecidableEq, Repr

/-- The `count_in_dir` loop of `GomokuGame._has_five_in_a_row`: walk
from `(r, c)` in direction `(dr, dc)` while in bounds and matching the
color.  The walk moves one of its coordinates monotonically, so `size`
fuel is enough (proved below). -/
def countInDir (b : Board) (color : Cell) : Int → Int → Int → Int → Nat → Nat
  | _, _, _, _, 0 => 0
  | r, c, dr, dc, fuel + 1 =>
    if 0 ≤ r ∧ r < (b.size : Int) ∧ 0 ≤ c ∧ c < (b.size : Int) ∧
        b.grid.getCell r.toNat c.toNat = color then
      countInDir b color (r + dr) (c + dc) dr dc fuel + 1
    else 0

/-- `GomokuGame._has_five_in_a_row`: for each of the four axes, count
both ways and test `1 + fwd + bwd ≥ 5`. -/
def hasFiveInARow (b : Board) (row col : Int) (color : Cell) : Bool :=
  [((0 : Int), (1 : Int)), (1, 0), (1, 1), (1, -1)].any fun d =>
    decide (5 ≤ 1 + countInDir b color (row + d.1) (col + d.2) d.1 d.2 b.size
      + countInDir b color (row - d.1) (col - d.2) (-d.1) (-d.2) b.size)

/-- The state after a successful `_apply_move` in Gomoku (stone
placed, turn switched, entry recorded; the cell was empty). -/
def gomokuG2 (g : GomokuState) (r c : Nat) : GomokuState :=
  { g with
    board := g.board.setCellB r c g.current.color
    current := g.other
    other := g.current
    history := GomokuEntry.move ⟨r, c, Cell.empty, g.status, g.current, g.other⟩
      :: g.history }

/-- `GomokuGame.make_move`: terminal check, then `_apply_move` —
which records the history entry *before* `place_piece` can still fail
with `AlreadyOccupied` (there is no occupancy pre-check in Gomoku) —
then win detection for the mover, then the full-board draw check. -/
def GomokuState.make_move (g : GomokuState) (row col : Int) :
    Option GameError × GomokuState :=
  if g.status ≠ GameStatus.ongoing then (some .gameOver, g)
  else if ¬ g.board.validPos row col then (some .outOfBounds, g)
  else if g.current.color ≠ Cell.black ∧ g.current.color ≠ Cell.white then
    (some .invalidColor, { g with
      history := GomokuEntry.move ⟨row.toNat, col.toNat,
        g.board.grid.getCell row.toNat col.toNat, g.status, g.current, g.other⟩
        :: g.history })
  else if g.board.grid.getCell row.toNat col.toNat ≠ Cell.empty then
    -- the failed move leaves its history entry behind
    (some .alreadyOccupied, { g with
      history := GomokuEntry.move ⟨row.toNat, col.toNat,
        g.board.grid.getCell row.toNat col.toNat, g.status, g.current, g.other⟩
        :: g.history })
  else if hasFiveInARow (gomokuG2 g row.toNat col.toNat).board row col
      g.current.color = true then
    (none, { gomokuG2 g row.toNat col.toNat with
      status := if g.current.color = Cell.black then GameStatus.blackWin
        else GameStatus.whiteWin })
  else if boardFull (gomokuG2 g row.toNat col.toNat).board = true then
    (none, { gomokuG2 g row.toNat col.toNat with status := GameStatus.draw })
  else (none, gomokuG2 g row.toNat col.toNat)

/-- `Game.pass_turn` (not overridden): always raises. -/
def GomokuState.pass_turn (g : GomokuState) : Option GameError × GomokuState :=
  (some .passNotSupported, g)

/-- `Game.resign` (inherited). -/
def GomokuState.resign (g : GomokuState) : GomokuState :=
  { g with
    history := GomokuEntry.resignEntry g.status g.current g.other :: g.history
    status := if g.current.color = Cell.black then GameStatus.whiteWin
      else GameStatus.blackWin }

/-- `Game.undo` (inherited): pop, restore players/status, restore the
placed cell for move entries. -/
def GomokuState.undo (g : GomokuState) : Option GameError × GomokuState :=
  match g.history with
  | [] => (some .nothingToUndo, g)
  | .move base :: rest =>
    (none, { g with
      history := rest
      current := base.prevCurrent
      other := base.prevOther
      status := base.prevStatus
      board := g.board.setCellB base.row base.col base.prev })
  | .passEntry ps pc po :: rest =>
    (none, { g with history := rest, current := pc, other := po, status := ps })
  | .resignEntry ps pc po :: rest =>
    (none, { g with history := rest, current := pc, other := po, status := ps })

/-- Gomoku state well-formedness. -/
def GomokuState.WF (g : GomokuState) : Prop :=
  g.board.WF ∧ colorsOK g.current g.other

instance (g : GomokuState) : Decidable g.WF := by
  unfold GomokuState.WF; infer_instance

/-- A fresh Gomoku game. -/
def GomokuState.init (size : Nat) : GomokuState :=
  { board := Board.init size
    blackPlayer := ⟨"Black", Cell.black⟩
    whitePlayer := ⟨"White", Cell.white⟩
    current := ⟨"Black", Cell.black⟩
    other := ⟨"White", Cell.white⟩
    status := GameStatus.ongoing
    history := [] }

theorem GomokuState.gomoku_wf_init (size : Nat) : (GomokuState.init size).WF :=
  ⟨Board.wf_init size, Or.inl ⟨rfl, rfl⟩⟩

/-- Undoing the state reached right after a successful Gomoku move
(with any status the win/draw checks may have set) restores the
pre-move state exactly. -/
theorem gomokuUndo_g2 {g : GomokuState} {row col : Int} (hwf : g.WF)
    (hpos : g.board.validPos row col)
    (hempty : g.board.grid.getCell row.toNat col.toNat = Cell.empty) :
    ∀ s' : GameStatus,
      GomokuState.undo { gomokuG2 g row.toNat col.toNat with status := s' } =
        (none, g) := by
  intro s'
  set r := row.toNat
  set c := col.toNat
  obtain ⟨hr, hc⟩ := Board.validPos_toNat hpos
  have hundo : GomokuState.undo { gomokuG2 g r c with status := s' } =
      (none, { g with
        board := (g.board.setCellB r c g.current.color).setCellB r c Cell.empty }) :=
    rfl
  rw [hundo]
  have hboard : (g.board.setCellB r c g.current.color).setCellB r c Cell.empty =
      g.board := by
    have hrect1 : (g.board.grid.setCell r c g.current.color).Rect g.board.size :=
      Grid.rect_setCell hwf.1 r c _
    have hrect2 : ((g.board.grid.setCell r c g.current.color).setCell r c
        Cell.empty).Rect g.board.size := Grid.rect_setCell hrect1 r c _
    have hgrid : (g.board.grid.setCell r c g.current.color).setCell r c
        Cell.empty = g.board.grid := by
      apply Grid.rect_ext hrect2 hwf.1
      intro x hx y hy
      by_cases hrc : (x, y) = (r, c)
      · injection hrc with hxr hyc
        subst hxr; subst hyc
        rw [Grid.getCell_setCell_eq hrect1 hx hy, hempty]
      · have hne : r ≠ x ∨ c ≠ y := by
          by_contra hcon
          push_neg at hcon
          exact hrc (by rw [hcon.1, hcon.2])
        rw [Grid.getCell_setCell_ne hne, Grid.getCell_setCell_ne hne]
    ext : 1
    · rfl
    · exact hgrid
  rw [hboard]

/-- Undoing a Gomoku resignation restores the pre-resign state. -/
theorem gomokuUndo_resign (g : GomokuState) :
    GomokuState.undo g.resign = (none, g) := rfl

/-! ## The two variants under one public surface, and the factory -/

/-- A game engine instance of either variant. -/
inductive AnyGame where
  | gomoku : GomokuState → AnyGame
  | go : GoState → AnyGame
deriving DecidableEq, Repr

/-- A public operation of the front-end surface. -/
inductive Op where
  | moveAt (row col : Int)
  | passOp
  | resignOp
  | undoOp
deriving DecidableEq, Repr

/-- Dispatch one public operation to the variant's method. -/
def AnyGame.applyOp : AnyGame → Op → Option GameError × AnyGame
  | .gomoku s, .moveAt row col =>
    ((s.make_move row col).1, .gomoku (s.make_move row col).2)
  | .go s, .moveAt row col =>
    ((s.make_move row col).1, .go (s.make_move row col).2)
  | .gomoku s, .passOp => ((s.pass_turn).1, .gomoku (s.pass_turn).2)
  | .go s, .passOp => ((s.pass_turn).1, .go (s.pass_turn).2)
  | .gomoku s, .resignOp => (none, .gomoku s.resign)
  | .go s, .resignOp => (none, .go s.resign)
  | .gomoku s, .undoOp => ((s.undo).1, .gomoku (s.undo).2)
  | .go s, .undoOp => ((s.undo).1, .go (s.undo).2)

def AnyGame.undo (g : AnyGame) : Option GameError × AnyGame :=
  g.applyOp .undoOp

def AnyGame.resign : AnyGame → AnyGame
  | .gomoku s => .gomoku s.resign
  | .go s => .go s.resign

/-- Run a list of operations; stop at the first raised error. -/
def AnyGame.applyAll : AnyGame → List Op → Option GameError × AnyGame
  | g, [] => (none, g)
  | g, op :: ops =>
    match g.applyOp op with
    | (none, g1) => g1.applyAll ops
    | (some e, g1) => (some e, g1)

/-- Call `undo()` `n + 1` times: `n` times, then once more on the
result; errors short-circuit (sequential composition of undos). -/
def AnyGame.undoN : AnyGame → Nat → Option GameError × AnyGame
  | g, 0 => (none, g)
  | g, n + 1 =>
    match g.undoN n with
    | (none, g1) => g1.undo
    | (some e, g1) => (some e, g1)

def AnyGame.WF : AnyGame → Prop
  | .gomoku s => s.WF
  | .go s => s.WF

instance : (g : AnyGame) → Decidable g.WF
  | .gomoku s => inferInstanceAs (Decidable s.WF)
  | .go s => inferInstanceAs (Decidable s.WF)

def AnyGame.statusOf : AnyGame → GameStatus
  | .gomoku s => s.status
  | .go s => s.status

def AnyGame.currentOf : AnyGame → Player
  | .gomoku s => s.current
  | .go s => s.current

def AnyGame.otherOf : AnyGame → Player
  | .gomoku s => s.other
  | .go s => s.other

def AnyGame.boardOf : AnyGame → Board
  | .gomoku s => s.board
  | .go s => s.board

/-- The whitespace code points stripped by Python's `str.strip()`
(every code point with `str.isspace()` true). -/
def pySpaceList : List Nat :=
  [0x9, 0xa, 0xb, 0xc, 0xd, 0x1c, 0x1d, 0x1e, 0x1f, 0x20, 0x85, 0xa0, 0x1680, 0x2000, 0x2001, 0x2002, 0x2003, 0x2004, 0x2005, 0x2006, 0x2007, 0x2008, 0x2009, 0x200a, 0x2028, 0x2029, 0x202f, 0x205f, 0x3000]

/-- Whitespace test of Python's `str.strip()` on a character. -/
def isSpaceChar (c : Char) : Bool :=
  pySpaceList.contains c.toNat

/-- Python's `str.strip()`: drop leading and trailing whitespace. -/
def strStrip (s : String) : String :=
  ⟨((s.data.dropWhile isSpaceChar).reverse.dropWhile isSpaceChar).reverse⟩

set_option maxHeartbeats 1600000 in
/-- The lowercase mapping table of Python's `str.lower`: every code
point whose context-free lowercase differs from itself, with its
lowercase code points (`0x130`, capital I with dot, maps to two code
points; every other entry to one).  The capital sigma `0x3a3` also
appears here with its non-final form; its context-dependent final form
is handled in `lowerAt`. -/
def lowerTable : List (Nat × List Nat) := [
  (0x41, [0x61]), (0x42, [0x62]), (0x43, [0x63]), (0x44, [0x64]), (0x45, [0x65]),
  (0x46, [0x66]), (0x47, [0x67]), (0x48, [0x68]), (0x49, [0x69]), (0x4a, [0x6a]),
  (0x4b, [0x6b]), (0x4c, [0x6c]), (0x4d, [0x6d]), (0x4e, [0x6e]), (0x4f, [0x6f]),
  (0x50, [0x70]), (0x51, [0x71]), (0x52, [0x72]), (0x53, [0x73]), (0x54, [0x74]),
  (0x55, [0x75]), (0x56, [0x76]), (0x57, [0x77]), (0x58, [0x78]), (0x59, [0x79]),
  (0x5a, [0x7a]), (0xc0, [0xe0]), (0xc1, [0xe1]), (0xc2, [0xe2]), (0xc3, [0xe3]),
  (0xc4, [0xe4]), (0xc5, [0xe5]), (0xc6, [0xe6]), (0xc7, [0xe7]), (0xc8, [0xe8]),
  (0xc9, [0xe9]), (0xca, [0xea]), (0xcb, [0xeb]), (0xcc, [0xec]), (0xcd, [0xed]),
  (0xce, [0xee]), (0xcf, [0xef]), (0xd0, [0xf0]), (0xd1, [0xf1]), (0xd2, [0xf2]),
  (0xd3, [0xf3]), (0xd4, [0xf4]), (0xd5, [0xf5]), (0xd6, [0xf6]), (0xd8, [0xf8]),
  (0xd9, [0xf9]), (0xda, [0xfa]), (0xdb, [0xfb]), (0xdc, [0xfc]), (0xdd, [0xfd]),
  (0xde, [0xfe]), (0x100, [0x101]), (0x102, [0x103]), (0x104, [0x105]), (0x106, [0x107]),
  (0x108, [0x109]), (0x10a, [0x10b]), (0x10c, [0x10d]), (0x10e, [0x10f]), (0x110, [0x111]),
  (0x112, [0x113]), (0x114, [0x115]), (0x116, [0x117]), (0x118, [0x119]), (0x11a, [0x11b]),
  (0x11c, [0x11d]), (0x11e, [0x11f]), (0x120, [0x121]), (0x122, [0x123]), (0x124, [0x125]),
  (0x126, [0x127]), (0x128, [0x129]), (0x12a, [0x12b]), (0x12c, [0x12d]), (0x12e, [0x12f]),
  (0x130, [0x69, 0x307]), (0x132, [0x133]), (0x134, [0x135]), (0x136, [0x137]), (0x139, [0x13a]),
  (0x13b, [0x13c]), (0x13d, [0x13e]), (0x13f, [0x140]), (0x141, [0x142]), (0x143, [0x144]),
  (0x145, [0x146]), (0x147, [0x148]), (0x14a, [0x14b]), (0x14c, [0x14d]), (0x14e, [0x14f]),
  (0x150, [0x151]), (0x152, [0x153]), (0x154, [0x155]), (0x156, [0x157]), (0x158, [0x159]),
  (0x15a, [0x15b]), (0x15c, [0x15d]), (0x15e, [0x15f]), (0x160, [0x161]), (0x162, [0x163]),
  (0x164, [0x165]), (0x166, [0x167]), (0x168, [0x169]), (0x16a, [0x16b]), (0x16c, [0x16d]),
  (0x16e, [0x16f]), (0x170, [0x171]), (0x172, [0x173]), (0x174, [0x175]), (0x176, [0x177]),
  (0x178, [0xff]), (0x179, [0x17a]), (0x17b, [0x17c]), (0x17d, [0x17e]), (0x181, [0x253]),
  (0x182, [0x183]), (0x184, [0x185]), (0x186, [0x254]), (0x187, [0x188]), (0x189, [0x256]),
  (0x18a, [0x257]), (0x18b, [0x18c]), (0x18e, [0x1dd]), (0x18f, [0x259]), (0x190, [0x25b]),
  (0x191, [0x192]), (0x193, [0x260]), (0x194, [0x263]), (0x196, [0x269]), (0x197, [0x268]),
  (0x198, [0x199]), (0x19c, [0x26f]), (0x19d, [0x272]), (0x19f, [0x275]), (0x1a0, [0x1a1]),
  (0x1a2, [0x1a3]), (0x1a4, [0x1a5]), (0x1a6, [0x280]), (0x1a7, [0x1a8]), (0x1a9, [0x283]),
  (0x1ac, [0x1ad]), (0x1ae, [0x288]), (0x1af, [0x1b0]), (0x1b1, [0x28a]), (0x1b2, [0x28b]),
  (0x1b3, [0x1b4]), (0x1b5, [0x1b6]), (0x1b7, [0x292]), (0x1b8, [0x1b9]), (0x1bc, [0x1bd]),
  (0x1c4, [0x1c6]), (0x1c5, [0x1c6]), (0x1c7, [0x1c9]), (0x1c8, [0x1c9]), (0x1ca, [0x1cc]),
  (0x1cb, [0x1cc]), (0x1cd, [0x1ce]), (0x1cf, [0x1d0]), (0x1d1, [0x1d2]), (0x1d3, [0x1d4]),
  (0x1d5, [0x1d6]), (0x1d7, [0x1d8]), (0x1d9, [0x1da]), (0x1db, [0x1dc]), (0x1de, [0x1df]),
  (0x1e0, [0x1e1]), (0x1e2, [0x1e3]), (0x1e4, [0x1e5]), (0x1e6, [0x1e7]), (0x1e8, [0x1e9]),
  (0x1ea, [0x1eb]), (0x1ec, [0x1ed]), (0x1ee, [0x1ef]), (0x1f1, [0x1f3]), (0x1f2, [0x1f3]),
  (0x1f4, [0x1f5]), (0x1f6, [0x195]), (0x1f7, [0x1bf]), (0x1f8, [0x1f9]), (0x1fa, [0x1fb]),
  (0x1fc, [0x1fd]), (0x1fe, [0x1ff]), (0x200, [0x201]), (0x202, [0x203]), (0x204, [0x205]),
  (0x206, [0x207]), (0x208, [0x209]), (0x20a, [0x20b]), (0x20c, [0x20d]), (0x20e, [0x20f]),
  (0x210, [0x211]), (0x212, [0x213]), (0x214, [0x215]), (0x216, [0x217]), (0x218, [0x219]),
  (0x21a, [0x21b]), (0x21c, [0x21d]), (0x21e, [0x21f]), (0x220, [0x19e]), (0x222, [0x223]),
  (0x224, [0x225]), (0x226, [0x227]), (0x228, [0x229]), (0x22a, [0x22b]), (0x22c, [0x22d]),
  (0x22e, [0x22f]), (0x230, [0x231]), (0x232, [0x233]), (0x23a, [0x2c65]), (0x23b, [0x23c]),
  (0x23d, [0x19a]), (0x23e, [0x2c66]), (0x241, [0x242]), (0x243, [0x180]), (0x244, [0x289]),
  (0x245, [0x28c]), (0x246, [0x247]), (0x248, [0x249]), (0x24a, [0x24b]), (0x24c, [0x24d]),
  (0x24e, [0x24f]), (0x370, [0x371]), (0x372, [0x373]), (0x376, [0x377]), (0x37f, [0x3f3]),
  (0x386, [0x3ac]), (0x388, [0x3ad]), (0x389, [0x3ae]), (0x38a, [0x3af]), (0x38c, [0x3cc]),
  (0x38e, [0x3cd]), (0x38f, [0x3ce]), (0x391, [0x3b1]), (0x392, [0x3b2]), (0x393, [0x3b3]),
  (0x394, [0x3b4]), (0x395, [0x3b5]), (0x396, [0x3b6]), (0x397, [0x3b7]), (0x398, [0x3b8]),
  (0x399, [0x3b9]), (0x39a, [0x3ba]), (0x39b, [0x3bb]), (0x39c, [0x3bc]), (0x39d, [0x3bd]),
  (0x39e, [0x3be]), (0x39f, [0x3bf]), (0x3a0, [0x3c0]), (0x3a1, [0x3c1]), (0x3a3, [0x3c3]),
  (0x3a4, [0x3c4]), (0x3a5, [0x3c5]), (0x3a6, [0x3c6]), (0x3a7, [0x3c7]), (0x3a8, [0x3c8]),
  (0x3a9, [0x3c9]), (0x3aa, [0x3ca]), (0x3ab, [0x3cb]), (0x3cf, [0x3d7]), (0x3d8, [0x3d9]),
  (0x3da, [0x3db]), (0x3dc, [0x3dd]), (0x3de, [0x3df]), (0x3e0, [0x3e1]), (0x3e2, [0x3e3]),
  (0x3e4, [0x3e5]), (0x3e6, [0x3e7]), (0x3e8, [0x3e9]), (0x3ea, [0x3eb]), (0x3ec, [0x3ed]),
  (0x3ee, [0x3ef]), (0x3f4, [0x3b8]), (0x3f7, [0x3f8]), (0x3f9, [0x3f2]), (0x3fa, [0x3fb]),
  (0x3fd, [0x37b]), (0x3fe, [0x37c]), (0x3ff, [0x37d]), (0x400, [0x450]), (0x401, [0x451]),
  (0x402, [0x452]), (0x403, [0x453]), (0x404, [0x454]), (0x405, [0x455]), (0x406, [0x456]),
  (0x407, [0x457]), (0x408, [0x458]), (0x409, [0x459]), (0x40a, [0x45a]), (0x40b, [0x45b]),
  (0x40c, [0x45c]), (0x40d, [0x45d]), (0x40e, [0x45e]), (0x40f, [0x45f]), (0x410, [0x430]),
  (0x411, [0x431]), (0x412, [0x432]), (0x413, [0x433]), (0x414, [0x434]), (0x415, [0x435]),
  (0x416, [0x436]), (0x417, [0x437]), (0x418, [0x438]), (0x419, [0x439]), (0x41a, [0x43a]),
  (0x41b, [0x43b]), (0x41c, [0x43c]), (0x41d, [0x43d]), (0x41e, [0x43e]), (0x41f, [0x43f]),
  (0x420, [0x440]), (0x421, [0x441]), (0x422, [0x442]), (0x423, [0x443]), (0x424, [0x444]),
  (0x425, [0x445]), (0x426, [0x446]), (0x427, [0x447]), (0x428, [0x448]), (0x429, [0x449]),
  (0x42a, [0x44a]), (0x42b, [0x44b]), (0x42c, [0x44c]), (0x42d, [0x44d]), (0x42e, [0x44e]),
  (0x42f, [0x44f]), (0x460, [0x461]), (0x462, [0x463]), (0x464, [0x465]), (0x466, [0x467]),
  (0x468, [0x469]), (0x46a, [0x46b]), (0x46c, [0x46d]), (0x46e, [0x46f]), (0x470, [0x471]),
  (0x472, [0x473]), (0x474, [0x475]), (0x476, [0x477]), (0x478, [0x479]), (0x47a, [0x47b]),
  (0x47c, [0x47d]), (0x47e, [0x47f]), (0x480, [0x481]), (0x48a, [0x48b]), (0x48c, [0x48d]),
  (0x48e, [0x48f]), (0x490, [0x491]), (0x492, [0x493]), (0x494, [0x495]), (0x496, [0x497]),
  (0x498, [0x499]), (0x49a, [0x49b]), (0x49c, [0x49d]), (0x49e, [0x49f]), (0x4a0, [0x4a1]),
  (0x4a2, [0x4a3]), (0x4a4, [0x4a5]), (0x4a6, [0x4a7]), (0x4a8, [0x4a9]), (0x4aa, [0x4ab]),
  (0x4ac, [0x4ad]), (0x4ae, [0x4af]), (0x4b0, [0x4b1]), (0x4b2, [0x4b3]), (0x4b4, [0x4b5]),
  (0x4b6, [0x4b7]), (0x4b8, [0x4b9]), (0x4ba, [0x4bb]), (0x4bc, [0x4bd]), (0x4be, [0x4bf]),
  (0x4c0, [0x4cf]), (0x4c1, [0x4c2]), (0x4c3, [0x4c4]), (0x4c5, [0x4c6]), (0x4c7, [0x4c8]),
  (0x4c9, [0x4ca]), (0x4cb, [0x4cc]), (0x4cd, [0x4ce]), (0x4d0, [0x4d1]), (0x4d2, [0x4d3]),
  (0x4d4, [0x4d5]), (0x4d6, [0x4d7]), (0x4d8, [0x4d9]), (0x4da, [0x4db]), (0x4dc, [0x4dd]),
  (0x4de, [0x4df]), (0x4e0, [0x4e1]), (0x4e2, [0x4e3]), (0x4e4, [0x4e5]), (0x4e6, [0x4e7]),
  (0x4e8, [0x4e9]), (0x4ea, [0x4eb]), (0x4ec, [0x4ed]), (0x4ee, [0x4ef]), (0x4f0, [0x4f1]),
  (0x4f2, [0x4f3]), (0x4f4, [0x4f5]), (0x4f6, [0x4f7]), (0x4f8, [0x4f9]), (0x4fa, [0x4fb]),
  (0x4fc, [0x4fd]), (0x4fe, [0x4ff]), (0x500, [0x501]), (0x502, [0x503]), (0x504, [0x505]),
  (0x506, [0x507]), (0x508, [0x509]), (0x50a, [0x50b]), (0x50c, [0x50d]), (0x50e, [0x50f]),
  (0x510, [0x511]), (0x512, [0x513]), (0x514, [0x515]), (0x516, [0x517]), (0x518, [0x519]),
  (0x51a, [0x51b]), (0x51c, [0x51d]), (0x51e, [0x51f]), (0x520, [0x521]), (0x522, [0x523]),
  (0x524, [0x525]), (0x526, [0x527]), (0x528, [0x529]), (0x52a, [0x52b]), (0x52c, [0x52d]),
  (0x52e, [0x52f]), (0x531, [0x561]), (0x532, [0x562]), (0x533, [0x563]), (0x534, [0x564]),
  (0x535, [0x565]), (0x536, [0x566]), (0x537, [0x567]), (0x538, [0x568]), (0x539, [0x569]),
  (0x53a, [0x56a]), (0x53b, [0x56b]), (0x53c, [0x56c]), (0x53d, [0x56d]), (0x53e, [0x56e]),
  (0x53f, [0x56f]), (0x540, [0x570]), (0x541, [0x571]), (0x542, [0x572]), (0x543, [0x573]),
  (0x544, [0x574]), (0x545, [0x575]), (0x546, [0x576]), (0x547, [0x577]), (0x548, [0x578]),
  (0x549, [0x579]), (0x54a, [0x57a]), (0x54b, [0x57b]), (0x54c, [0x57c]), (0x54d, [0x57d]),
  (0x54e, [0x57e]), (0x54f, [0x57f]), (0x550, [0x580]), (0x551, [0x581]), (0x552, [0x582]),
  (0x553, [0x583]), (0x554, [0x584]), (0x555, [0x585]), (0x556, [0x586]), (0x10a0, [0x2d00]),
  (0x10a1, [0x2d01]), (0x10a2, [0x2d02]), (0x10a3, [0x2d03]), (0x10a4, [0x2d04]), (0x10a5, [0x2d05]),
  (0x10a6, [0x2d06]), (0x10a7, [0x2d07]), (0x10a8, [0x2d08]), (0x10a9, [0x2d09]), (0x10aa, [0x2d0a]),
  (0x10ab, [0x2d0b]), (0x10ac, [0x2d0c]), (0x10ad, [0x2d0d]), (0x10ae, [0x2d0e]), (0x10af, [0x2d0f]),
  (0x10b0, [0x2d10]), (0x10b1, [0x2d11]), (0x10b2, [0x2d12]), (0x10b3, [0x2d13]), (0x10b4, [0x2d14]),
  (0x10b5, [0x2d15]), (0x10b6, [0x2d16]), (0x10b7, [0x2d17]), (0x10b8, [0x2d18]), (0x10b9, [0x2d19]),
  (0x10ba, [0x2d1a]), (0x10bb, [0x2d1b]), (0x10bc, [0x2d1c]), (0x10bd, [0x2d1d]), (0x10be, [0x2d1e]),
  (0x10bf, [0x2d1f]), (0x10c0, [0x2d20]), (0x10c1, [0x2d21]), (0x10c2, [0x2d22]), (0x10c3, [0x2d23]),
  (0x10c4, [0x2d24]), (0x10c5, [0x2d25]), (0x10c7, [0x2d27]), (0x10cd, [0x2d2d]), (0x13a0, [0xab70]),
  (0x13a1, [0xab71]), (0x13a2, [0xab72]), (0x13a3, [0xab73]), (0x13a4, [0xab74]), (0x13a5, [0xab75]),
  (0x13a6, [0xab76]), (0x13a7, [0xab77]), (0x13a8, [0xab78]), (0x13a9, [0xab79]), (0x13aa, [0xab7a]),
  (0x13ab, [0xab7b]), (0x13ac, [0xab7c]), (0x13ad, [0xab7d]), (0x13ae, [0xab7e]), (0x13af, [0xab7f]),
  (0x13b0, [0xab80]), (0x13b1, [0xab81]), (0x13b2, [0xab82]), (0x13b3, [0xab83]), (0x13b4, [0xab84]),
  (0x13b5, [0xab85]), (0x13b6, [0xab86]), (0x13b7, [0xab87]), (0x13b8, [0xab88]), (0x13b9, [0xab89]),
  (0x13ba, [0xab8a]), (0x13bb, [0xab8b]), (0x13bc, [0xab8c]), (0x13bd, [0xab8d]), (0x13be, [0xab8e]),
  (0x13bf, [0xab8f]), (0x13c0, [0xab90]), (0x13c1, [0xab91]), (0x13c2, [0xab92]), (0x13c3, [0xab93]),
  (0x13c4, [0xab94]), (0x13c5, [0xab95]), (0x13c6, [0xab96]), (0x13c7, [0xab97]), (0x13c8, [0xab98]),
  (0x13c9, [0xab99]), (0x13ca, [0xab9a]), (0x13cb, [0xab9b]), (0x13cc, [0xab9c]), (0x13cd, [0xab9d]),
  (0x13ce, [0xab9e]), (0x13cf, [0xab9f]), (0x13d0, [0xaba0]), (0x13d1, [0xaba1]), (0x13d2, [0xaba2]),
  (0x13d3, [0xaba3]), (0x13d4, [0xaba4]), (0x13d5, [0xaba5]), (0x13d6, [0xaba6]), (0x13d7, [0xaba7]),
  (0x13d8, [0xaba8]), (0x13d9, [0xaba9]), (0x13da, [0xabaa]), (0x13db, [0xabab]), (0x13dc, [0xabac]),
  (0x13dd, [0xabad]), (0x13de, [0xabae]), (0x13df, [0xabaf]), (0x13e0, [0xabb0]), (0x13e1, [0xabb1]),
  (0x13e2, [0xabb2]), (0x13e3, [0xabb3]), (0x13e4, [0xabb4]), (0x13e5, [0xabb5]), (0x13e6, [0xabb6]),
  (0x13e7, [0xabb7]), (0x13e8, [0xabb8]), (0x13e9, [0xabb9]), (0x13ea, [0xabba]), (0x13eb, [0xabbb]),
  (0x13ec, [0xabbc]), (0x13ed, [0xabbd]), (0x13ee, [0xabbe]), (0x13ef, [0xabbf]), (0x13f0, [0x13f8]),
  (0x13f1, [0x13f9]), (0x13f2, [0x13fa]), (0x13f3, [0x13fb]), (0x13f4, [0x13fc]), (0x13f5, [0x13fd]),
  (0x1c90, [0x10d0]), (0x1c91, [0x10d1]), (0x1c92, [0x10d2]), (0x1c93, [0x10d3]), (0x1c94, [0x10d4]),
  (0x1c95, [0x10d5]), (0x1c96, [0x10d6]), (0x1c97, [0x10d7]), (0x1c98, [0x10d8]), (0x1c99, [0x10d9]),
  (0x1c9a, [0x10da]), (0x1c9b, [0x10db]), (0x1c9c, [0x10dc]), (0x1c9d, [0x10dd]), (0x1c9e, [0x10de]),
  (0x1c9f, [0x10df]), (0x1ca0, [0x10e0]), (0x1ca1, [0x10e1]), (0x1ca2, [0x10e2]), (0x1ca3, [0x10e3]),
  (0x1ca4, [0x10e4]), (0x1ca5, [0x10e5]), (0x1ca6, [0x10e6]), (0x1ca7, [0x10e7]), (0x1ca8, [0x10e8]),
  (0x1ca9, [0x10e9]), (0x1caa, [0x10ea]), (0x1cab, [0x10eb]), (0x1cac, [0x10ec]), (0x1cad, [0x10ed]),
  (0x1cae, [0x10ee]), (0x1caf, [0x10ef]), (0x1cb0, [0x10f0]), (0x1cb1, [0x10f1]), (0x1cb2, [0x10f2]),
  (0x1cb3, [0x10f3]), (0x1cb4, [0x10f4]), (0x1cb5, [0x10f5]), (0x1cb6, [0x10f6]), (0x1cb7, [0x10f7]),
  (0x1cb8, [0x10f8]), (0x1cb9, [0x10f9]), (0x1cba, [0x10fa]), (0x1cbd, [0x10fd]), (0x1cbe, [0x10fe]),
  (0x1cbf, [0x10ff]), (0x1e00, [0x1e01]), (0x1e02, [0x1e03]), (0x1e04, [0x1e05]), (0x1e06, [0x1e07]),
  (0x1e08, [0x1e09]), (0x1e0a, [0x1e0b]), (0x1e0c, [0x1e0d]), (0x1e0e, [0x1e0f]), (0x1e10, [0x1e11]),
  (0x1e12, [0x1e13]), (0x1e14, [0x1e15]), (0x1e16, [0x1e17]), (0x1e18, [0x1e19]), (0x1e1a, [0x1e1b]),
  (0x1e1c, [0x1e1d]), (0x1e1e, [0x1e1f]), (0x1e20, [0x1e21]), (0x1e22, [0x1e23]), (0x1e24, [0x1e25]),
  (0x1e26, [0x1e27]), (0x1e28, [0x1e29]), (0x1e2a, [0x1e2b]), (0x1e2c, [0x1e2d]), (0x1e2e, [0x1e2f]),
  (0x1e30, [0x1e31]), (0x1e32, [0x1e33]), (0x1e34, [0x1e35]), (0x1e36, [0x1e37]), (0x1e38, [0x1e39]),
  (0x1e3a, [0x1e3b]), (0x1e3c, [0x1e3d]), (0x1e3e, [0x1e3f]), (0x1e40, [0x1e41]), (0x1e42, [0x1e43]),
  (0x1e44, [0x1e45]), (0x1e46, [0x1e47]), (0x1e48, [0x1e49]), (0x1e4a, [0x1e4b]), (0x1e4c, [0x1e4d]),
  (0x1e4e, [0x1e4f]), (0x1e50, [0x1e51]), (0x1e52, [0x1e53]), (0x1e54, [0x1e55]), (0x1e56, [0x1e57]),
  (0x1e58, [0x1e59]), (0x1e5a, [0x1e5b]), (0x1e5c, [0x1e5d]), (0x1e5e, [0x1e5f]), (0x1e60, [0x1e61]),
  (0x1e62, [0x1e63]), (0x1e64, [0x1e65]), (0x1e66, [0x1e67]), (0x1e68, [0x1e69]), (0x1e6a, [0x1e6b]),
  (0x1e6c, [0x1e6d]), (0x1e6e, [0x1e6f]), (0x1e70, [0x1e71]), (0x1e72, [0x1e73]), (0x1e74, [0x1e75]),
  (0x1e76, [0x1e77]), (0x1e78, [0x1e79]), (0x1e7a, [0x1e7b]), (0x1e7c, [0x1e7d]), (0x1e7e, [0x1e7f]),
  (0x1e80, [0x1e81]), (0x1e82, [0x1e83]), (0x1e84, [0x1e85]), (0x1e86, [0x1e87]), (0x1e88, [0x1e89]),
  (0x1e8a, [0x1e8b]), (0x1e8c, [0x1e8d]), (0x1e8e, [0x1e8f]), (0x1e90, [0x1e91]), (0x1e92, [0x1e93]),
  (0x1e94, [0x1e95]), (0x1e9e, [0xdf]), (0x1ea0, [0x1ea1]), (0x1ea2, [0x1ea3]), (0x1ea4, [0x1ea5]),
  (0x1ea6, [0x1ea7]), (0x1ea8, [0x1ea9]), (0x1eaa, [0x1eab]), (0x1eac, [0x1ead]), (0x1eae, [0x1eaf]),
  (0x1eb0, [0x1eb1]), (0x1eb2, [0x1eb3]), (0x1eb4, [0x1eb5]), (0x1eb6, [0x1eb7]), (0x1eb8, [0x1eb9]),
  (0x1eba, [0x1ebb]), (0x1ebc, [0x1ebd]), (0x1ebe, [0x1ebf]), (0x1ec0, [0x1ec1]), (0x1ec2, [0x1ec3]),
  (0x1ec4, [0x1ec5]), (0x1ec6, [0x1ec7]), (0x1ec8, [0x1ec9]), (0x1eca, [0x1ecb]), (0x1ecc, [0x1ecd]),
  (0x1ece, [0x1ecf]), (0x1ed0, [0x1ed1]), (0x1ed2, [0x1ed3]), (0x1ed4, [0x1ed5]), (0x1ed6, [0x1ed7]),
  (0x1ed8, [0x1ed9]), (0x1eda, [0x1edb]), (0x1edc, [0x1edd]), (0x1ede, [0x1edf]), (0x1ee0, [0x1ee1]),
  (0x1ee2, [0x1ee3]), (0x1ee4, [0x1ee5]), (0x1ee6, [0x1ee7]), (0x1ee8, [0x1ee9]), (0x1eea, [0x1eeb]),
  (0x1eec, [0x1eed]), (0x1eee, [0x1eef]), (0x1ef0, [0x1ef1]), (0x1ef2, [0x1ef3]), (0x1ef4, [0x1ef5]),
  (0x1ef6, [0x1ef7]), (0x1ef8, [0x1ef9]), (0x1efa, [0x1efb]), (0x1efc, [0x1efd]), (0x1efe, [0x1eff]),
  (0x1f08, [0x1f00]), (0x1f09, [0x1f01]), (0x1f0a, [0x1f02]), (0x1f0b, [0x1f03]), (0x1f0c, [0x1f04]),
  (0x1f0d, [0x1f05]), (0x1f0e, [0x1f06]), (0x1f0f, [0x1f07]), (0x1f18, [0x1f10]), (0x1f19, [0x1f11]),
  (0x1f1a, [0x1f12]), (0x1f1b, [0x1f13]), (0x1f1c, [0x1f14]), (0x1f1d, [0x1f15]), (0x1f28, [0x1f20]),
  (0x1f29, [0x1f21]), (0x1f2a, [0x1f22]), (0x1f2b, [0x1f23]), (0x1f2c, [0x1f24]), (0x1f2d, [0x1f25]),
  (0x1f2e, [0x1f26]), (0x1f2f, [0x1f27]), (0x1f38, [0x1f30]), (0x1f39, [0x1f31]), (0x1f3a, [0x1f32]),
  (0x1f3b, [0x1f33]), (0x1f3c, [0x1f34]), (0x1f3d, [0x1f35]), (0x1f3e, [0x1f36]), (0x1f3f, [0x1f37]),
  (0x1f48, [0x1f40]), (0x1f49, [0x1f41]), (0x1f4a, [0x1f42]), (0x1f4b, [0x1f43]), (0x1f4c, [0x1f44]),
  (0x1f4d, [0x1f45]), (0x1f59, [0x1f51]), (0x1f5b, [0x1f53]), (0x1f5d, [0x1f55]), (0x1f5f, [0x1f57]),
  (0x1f68, [0x1f60]), (0x1f69, [0x1f61]), (0x1f6a, [0x1f62]), (0x1f6b, [0x1f63]), (0x1f6c, [0x1f64]),
  (0x1f6d, [0x1f65]), (0x1f6e, [0x1f66]), (0x1f6f, [0x1f67]), (0x1f88, [0x1f80]), (0x1f89, [0x1f81]),
  (0x1f8a, [0x1f82]), (0x1f8b, [0x1f83]), (0x1f8c, [0x1f84]), (0x1f8d, [0x1f85]), (0x1f8e, [0x1f86]),
  (0x1f8f, [0x1f87]), (0x1f98, [0x1f90]), (0x1f99, [0x1f91]), (0x1f9a, [0x1f92]), (0x1f9b, [0x1f93]),
  (0x1f9c, [0x1f94]), (0x1f9d, [0x1f95]), (0x1f9e, [0x1f96]), (0x1f9f, [0x1f97]), (0x1fa8, [0x1fa0]),
  (0x1fa9, [0x1fa1]), (0x1faa, [0x1fa2]), (0x1fab, [0x1fa3]), (0x1fac, [0x1fa4]), (0x1fad, [0x1fa5]),
  (0x1fae, [0x1fa6]), (0x1faf, [0x1fa7]), (0x1fb8, [0x1fb0]), (0x1fb9, [0x1fb1]), (0x1fba, [0x1f70]),
  (0x1fbb, [0x1f71]), (0x1fbc, [0x1fb3]), (0x1fc8, [0x1f72]), (0x1fc9, [0x1f73]), (0x1fca, [0x1f74]),
  (0x1fcb, [0x1f75]), (0x1fcc, [0x1fc3]), (0x1fd8, [0x1fd0]), (0x1fd9, [0x1fd1]), (0x1fda, [0x1f76]),
  (0x1fdb, [0x1f77]), (0x1fe8, [0x1fe0]), (0x1fe9, [0x1fe1]), (0x1fea, [0x1f7a]), (0x1feb, [0x1f7b]),
  (0x1fec, [0x1fe5]), (0x1ff8, [0x1f78]), (0x1ff9, [0x1f79]), (0x1ffa, [0x1f7c]), (0x1ffb, [0x1f7d]),
  (0x1ffc, [0x1ff3]), (0x2126, [0x3c9]), (0x212a, [0x6b]), (0x212b, [0xe5]), (0x2132, [0x214e]),
  (0x2160, [0x2170]), (0x2161, [0x2171]), (0x2162, [0x2172]), (0x2163, [0x2173]), (0x2164, [0x2174]),
  (0x2165, [0x2175]), (0x2166, [0x2176]), (0x2167, [0x2177]), (0x2168, [0x2178]), (0x2169, [0x2179]),
  (0x216a, [0x217a]), (0x216b, [0x217b]), (0x216c, [0x217c]), (0x216d, [0x217d]), (0x216e, [0x217e]),
  (0x216f, [0x217f]), (0x2183, [0x2184]), (0x24b6, [0x24d0]), (0x24b7, [0x24d1]), (0x24b8, [0x24d2]),
  (0x24b9, [0x24d3]), (0x24ba, [0x24d4]), (0x24bb, [0x24d5]), (0x24bc, [0x24d6]), (0x24bd, [0x24d7]),
  (0x24be, [0x24d8]), (0x24bf, [0x24d9]), (0x24c0, [0x24da]), (0x24c1, [0x24db]), (0x24c2, [0x24dc]),
  (0x24c3, [0x24dd]), (0x24c4, [0x24de]), (0x24c5, [0x24df]), (0x24c6, [0x24e0]), (0x24c7, [0x24e1]),
  (0x24c8, [0x24e2]), (0x24c9, [0x24e3]), (0x24ca, [0x24e4]), (0x24cb, [0x24e5]), (0x24cc, [0x24e6]),
  (0x24cd, [0x24e7]), (0x24ce, [0x24e8]), (0x24cf, [0x24e9]), (0x2c00, [0x2c30]), (0x2c01, [0x2c31]),
  (0x2c02, [0x2c32]), (0x2c03, [0x2c33]), (0x2c04, [0x2c34]), (0x2c05, [0x2c35]), (0x2c06, [0x2c36]),
  (0x2c07, [0x2c37]), (0x2c08, [0x2c38]), (0x2c09, [0x2c39]), (0x2c0a, [0x2c3a]), (0x2c0b, [0x2c3b]),
  (0x2c0c, [0x2c3c]), (0x2c0d, [0x2c3d]), (0x2c0e, [0x2c3e]), (0x2c0f, [0x2c3f]), (0x2c10, [0x2c40]),
  (0x2c11, [0x2c41]), (0x2c12, [0x2c42]), (0x2c13, [0x2c43]), (0x2c14, [0x2c44]), (0x2c15, [0x2c45]),
  (0x2c16, [0x2c46]), (0x2c17, [0x2c47]), (0x2c18, [0x2c48]), (0x2c19, [0x2c49]), (0x2c1a, [0x2c4a]),
  (0x2c1b, [0x2c4b]), (0x2c1c, [0x2c4c]), (0x2c1d, [0x2c4d]), (0x2c1e, [0x2c4e]), (0x2c1f, [0x2c4f]),
  (0x2c20, [0x2c50]), (0x2c21, [0x2c51]), (0x2c22, [0x2c52]), (0x2c23, [0x2c53]), (0x2c24, [0x2c54]),
  (0x2c25, [0x2c55]), (0x2c26, [0x2c56]), (0x2c27, [0x2c57]), (0x2c28, [0x2c58]), (0x2c29, [0x2c59]),
  (0x2c2a, [0x2c5a]), (0x2c2b, [0x2c5b]), (0x2c2c, [0x2c5c]), (0x2c2d, [0x2c5d]), (0x2c2e, [0x2c5e]),
  (0x2c2f, [0x2c5f]), (0x2c60, [0x2c61]), (0x2c62, [0x26b]), (0x2c63, [0x1d7d]), (0x2c64, [0x27d]),
  (0x2c67, [0x2c68]), (0x2c69, [0x2c6a]), (0x2c6b, [0x2c6c]), (0x2c6d, [0x251]), (0x2c6e, [0x271]),
  (0x2c6f, [0x250]), (0x2c70, [0x252]), (0x2c72, [0x2c73]), (0x2c75, [0x2c76]), (0x2c7e, [0x23f]),
  (0x2c7f, [0x240]), (0x2c80, [0x2c81]), (0x2c82, [0x2c83]), (0x2c84, [0x2c85]), (0x2c86, [0x2c87]),
  (0x2c88, [0x2c89]), (0x2c8a, [0x2c8b]), (0x2c8c, [0x2c8d]), (0x2c8e, [0x2c8f]), (0x2c90, [0x2c91]),
  (0x2c92, [0x2c93]), (0x2c94, [0x2c95]), (0x2c96, [0x2c97]), (0x2c98, [0x2c99]), (0x2c9a, [0x2c9b]),
  (0x2c9c, [0x2c9d]), (0x2c9e, [0x2c9f]), (0x2ca0, [0x2ca1]), (0x2ca2, [0x2ca3]), (0x2ca4, [0x2ca5]),
  (0x2ca6, [0x2ca7]), (0x2ca8, [0x2ca9]), (0x2caa, [0x2cab]), (0x2cac, [0x2cad]), (0x2cae, [0x2caf]),
  (0x2cb0, [0x2cb1]), (0x2cb2, [0x2cb3]), (0x2cb4, [0x2cb5]), (0x2cb6, [0x2cb7]), (0x2cb8, [0x2cb9]),
  (0x2cba, [0x2cbb]), (0x2cbc, [0x2cbd]), (0x2cbe, [0x2cbf]), (0x2cc0, [0x2cc1]), (0x2cc2, [0x2cc3]),
  (0x2cc4, [0x2cc5]), (0x2cc6, [0x2cc7]), (0x2cc8, [0x2cc9]), (0x2cca, [0x2ccb]), (0x2ccc, [0x2ccd]),
  (0x2cce, [0x2ccf]), (0x2cd0, [0x2cd1]), (0x2cd2, [0x2cd3]), (0x2cd4, [0x2cd5]), (0x2cd6, [0x2cd7]),
  (0x2cd8, [0x2cd9]), (0x2cda, [0x2cdb]), (0x2cdc, [0x2cdd]), (0x2cde, [0x2cdf]), (0x2ce0, [0x2ce1]),
  (0x2ce2, [0x2ce3]), (0x2ceb, [0x2cec]), (0x2ced, [0x2cee]), (0x2cf2, [0x2cf3]), (0xa640, [0xa641]),
  (0xa642, [0xa643]), (0xa644, [0xa645]), (0xa646, [0xa647]), (0xa648, [0xa649]), (0xa64a, [0xa64b]),
  (0xa64c, [0xa64d]), (0xa64e, [0xa64f]), (0xa650, [0xa651]), (0xa652, [0xa653]), (0xa654, [0xa655]),
  (0xa656, [0xa657]), (0xa658, [0xa659]), (0xa65a, [0xa65b]), (0xa65c, [0xa65d]), (0xa65e, [0xa65f]),
  (0xa660, [0xa661]), (0xa662, [0xa663]), (0xa664, [0xa665]), (0xa666, [0xa667]), (0xa668, [0xa669]),
  (0xa66a, [0xa66b]), (0xa66c, [0xa66d]), (0xa680, [0xa681]), (0xa682, [0xa683]), (0xa684, [0xa685]),
  (0xa686, [0xa687]), (0xa688, [0xa689]), (0xa68a, [0xa68b]), (0xa68c, [0xa68d]), (0xa68e, [0xa68f]),
  (0xa690, [0xa691]), (0xa692, [0xa693]), (0xa694, [0xa695]), (0xa696, [0xa697]), (0xa698, [0xa699]),
  (0xa69a, [0xa69b]), (0xa722, [0xa723]), (0xa724, [0xa725]), (0xa726, [0xa727]), (0xa728, [0xa729]),
  (0xa72a, [0xa72b]), (0xa72c, [0xa72d]), (0xa72e, [0xa72f]), (0xa732, [0xa733]), (0xa734, [0xa735]),
  (0xa736, [0xa737]), (0xa738, [0xa739]), (0xa73a, [0xa73b]), (0xa73c, [0xa73d]), (0xa73e, [0xa73f]),
  (0xa740, [0xa741]), (0xa742, [0xa743]), (0xa744, [0xa745]), (0xa746, [0xa747]), (0xa748, [0xa749]),
  (0xa74a, [0xa74b]), (0xa74c, [0xa74d]), (0xa74e, [0xa74f]), (0xa750, [0xa751]), (0xa752, [0xa753]),
  (0xa754, [0xa755]), (0xa756, [0xa757]), (0xa758, [0xa759]), (0xa75a, [0xa75b]), (0xa75c, [0xa75d]),
  (0xa75e, [0xa75f]), (0xa760, [0xa761]), (0xa762, [0xa763]), (0xa764, [0xa765]), (0xa766, [0xa767]),
  (0xa768, [0xa769]), (0xa76a, [0xa76b]), (0xa76c, [0xa76d]), (0xa76e, [0xa76f]), (0xa779, [0xa77a]),
  (0xa77b, [0xa77c]), (0xa77d, [0x1d79]), (0xa77e, [0xa77f]), (0xa780, [0xa781]), (0xa782, [0xa783]),
  (0xa784, [0xa785]), (0xa786, [0xa787]), (0xa78b, [0xa78c]), (0xa78d, [0x265]), (0xa790, [0xa791]),
  (0xa792, [0xa793]), (0xa796, [0xa797]), (0xa798, [0xa799]), (0xa79a, [0xa79b]), (0xa79c, [0xa79d]),
  (0xa79e, [0xa79f]), (0xa7a0, [0xa7a1]), (0xa7a2, [0xa7a3]), (0xa7a4, [0xa7a5]), (0xa7a6, [0xa7a7]),
  (0xa7a8, [0xa7a9]), (0xa7aa, [0x266]), (0xa7ab, [0x25c]), (0xa7ac, [0x261]), (0xa7ad, [0x26c]),
  (0xa7ae, [0x26a]), (0xa7b0, [0x29e]), (0xa7b1, [0x287]), (0xa7b2, [0x29d]), (0xa7b3, [0xab53]),
  (0xa7b4, [0xa7b5]), (0xa7b6, [0xa7b7]), (0xa7b8, [0xa7b9]), (0xa7ba, [0xa7bb]), (0xa7bc, [0xa7bd]),
  (0xa7be, [0xa7bf]), (0xa7c0, [0xa7c1]), (0xa7c2, [0xa7c3]), (0xa7c4, [0xa794]), (0xa7c5, [0x282]),
  (0xa7c6, [0x1d8e]), (0xa7c7, [0xa7c8]), (0xa7c9, [0xa7ca]), (0xa7d0, [0xa7d1]), (0xa7d6, [0xa7d7]),
  (0xa7d8, [0xa7d9]), (0xa7f5, [0xa7f6]), (0xff21, [0xff41]), (0xff22, [0xff42]), (0xff23, [0xff43]),
  (0xff24, [0xff44]), (0xff25, [0xff45]), (0xff26, [0xff46]), (0xff27, [0xff47]), (0xff28, [0xff48]),
  (0xff29, [0xff49]), (0xff2a, [0xff4a]), (0xff2b, [0xff4b]), (0xff2c, [0xff4c]), (0xff2d, [0xff4d]),
  (0xff2e, [0xff4e]), (0xff2f, [0xff4f]), (0xff30, [0xff50]), (0xff31, [0xff51]), (0xff32, [0xff52]),
  (0xff33, [0xff53]), (0xff34, [0xff54]), (0xff35, [0xff55]), (0xff36, [0xff56]), (0xff37, [0xff57]),
  (0xff38, [0xff58]), (0xff39, [0xff59]), (0xff3a, [0xff5a]), (0x10400, [0x10428]), (0x10401, [0x10429]),
  (0x10402, [0x1042a]), (0x10403, [0x1042b]), (0x10404, [0x1042c]), (0x10405, [0x1042d]), (0x10406, [0x1042e]),
  (0x10407, [0x1042f]), (0x10408, [0x10430]), (0x10409, [0x10431]), (0x1040a, [0x10432]), (0x1040b, [0x10433]),
  (0x1040c, [0x10434]), (0x1040d, [0x10435]), (0x1040e, [0x10436]), (0x1040f, [0x10437]), (0x10410, [0x10438]),
  (0x10411, [0x10439]), (0x10412, [0x1043a]), (0x10413, [0x1043b]), (0x10414, [0x1043c]), (0x10415, [0x1043d]),
  (0x10416, [0x1043e]), (0x10417, [0x1043f]), (0x10418, [0x10440]), (0x10419, [0x10441]), (0x1041a, [0x10442]),
  (0x1041b, [0x10443]), (0x1041c, [0x10444]), (0x1041d, [0x10445]), (0x1041e, [0x10446]), (0x1041f, [0x10447]),
  (0x10420, [0x10448]), (0x10421, [0x10449]), (0x10422, [0x1044a]), (0x10423, [0x1044b]), (0x10424, [0x1044c]),
  (0x10425, [0x1044d]), (0x10426, [0x1044e]), (0x10427, [0x1044f]), (0x104b0, [0x104d8]), (0x104b1, [0x104d9]),
  (0x104b2, [0x104da]), (0x104b3, [0x104db]), (0x104b4, [0x104dc]), (0x104b5, [0x104dd]), (0x104b6, [0x104de]),
  (0x104b7, [0x104df]), (0x104b8, [0x104e0]), (0x104b9, [0x104e1]), (0x104ba, [0x104e2]), (0x104bb, [0x104e3]),
  (0x104bc, [0x104e4]), (0x104bd, [0x104e5]), (0x104be, [0x104e6]), (0x104bf, [0x104e7]), (0x104c0, [0x104e8]),
  (0x104c1, [0x104e9]), (0x104c2, [0x104ea]), (0x104c3, [0x104eb]), (0x104c4, [0x104ec]), (0x104c5, [0x104ed]),
  (0x104c6, [0x104ee]), (0x104c7, [0x104ef]), (0x104c8, [0x104f0]), (0x104c9, [0x104f1]), (0x104ca, [0x104f2]),
  (0x104cb, [0x104f3]), (0x104cc, [0x104f4]), (0x104cd, [0x104f5]), (0x104ce, [0x104f6]), (0x104cf, [0x104f7]),
  (0x104d0, [0x104f8]), (0x104d1, [0x104f9]), (0x104d2, [0x104fa]), (0x104d3, [0x104fb]), (0x10570, [0x10597]),
  (0x10571, [0x10598]), (0x10572, [0x10599]), (0x10573, [0x1059a]), (0x10574, [0x1059b]), (0x10575, [0x1059c]),
  (0x10576, [0x1059d]), (0x10577, [0x1059e]), (0x10578, [0x1059f]), (0x10579, [0x105a0]), (0x1057a, [0x105a1]),
  (0x1057c, [0x105a3]), (0x1057d, [0x105a4]), (0x1057e, [0x105a5]), (0x1057f, [0x105a6]), (0x10580, [0x105a7]),
  (0x10581, [0x105a8]), (0x10582, [0x105a9]), (0x10583, [0x105aa]), (0x10584, [0x105ab]), (0x10585, [0x105ac]),
  (0x10586, [0x105ad]), (0x10587, [0x105ae]), (0x10588, [0x105af]), (0x10589, [0x105b0]), (0x1058a, [0x105b1]),
  (0x1058c, [0x105b3]), (0x1058d, [0x105b4]), (0x1058e, [0x105b5]), (0x1058f, [0x105b6]), (0x10590, [0x105b7]),
  (0x10591, [0x105b8]), (0x10592, [0x105b9]), (0x10594, [0x105bb]), (0x10595, [0x105bc]), (0x10c80, [0x10cc0]),
  (0x10c81, [0x10cc1]), (0x10c82, [0x10cc2]), (0x10c83, [0x10cc3]), (0x10c84, [0x10cc4]), (0x10c85, [0x10cc5]),
  (0x10c86, [0x10cc6]), (0x10c87, [0x10cc7]), (0x10c88, [0x10cc8]), (0x10c89, [0x10cc9]), (0x10c8a, [0x10cca]),
  (0x10c8b, [0x10ccb]), (0x10c8c, [0x10ccc]), (0x10c8d, [0x10ccd]), (0x10c8e, [0x10cce]), (0x10c8f, [0x10ccf]),
  (0x10c90, [0x10cd0]), (0x10c91, [0x10cd1]), (0x10c92, [0x10cd2]), (0x10c93, [0x10cd3]), (0x10c94, [0x10cd4]),
  (0x10c95, [0x10cd5]), (0x10c96, [0x10cd6]), (0x10c97, [0x10cd7]), (0x10c98, [0x10cd8]), (0x10c99, [0x10cd9]),
  (0x10c9a, [0x10cda]), (0x10c9b, [0x10cdb]), (0x10c9c, [0x10cdc]), (0x10c9d, [0x10cdd]), (0x10c9e, [0x10cde]),
  (0x10c9f, [0x10cdf]), (0x10ca0, [0x10ce0]), (0x10ca1, [0x10ce1]), (0x10ca2, [0x10ce2]), (0x10ca3, [0x10ce3]),
  (0x10ca4, [0x10ce4]), (0x10ca5, [0x10ce5]), (0x10ca6, [0x10ce6]), (0x10ca7, [0x10ce7]), (0x10ca8, [0x10ce8]),
  (0x10ca9, [0x10ce9]), (0x10caa, [0x10cea]), (0x10cab, [0x10ceb]), (0x10cac, [0x10cec]), (0x10cad, [0x10ced]),
  (0x10cae, [0x10cee]), (0x10caf, [0x10cef]), (0x10cb0, [0x10cf0]), (0x10cb1, [0x10cf1]), (0x10cb2, [0x10cf2]),
  (0x118a0, [0x118c0]), (0x118a1, [0x118c1]), (0x118a2, [0x118c2]), (0x118a3, [0x118c3]), (0x118a4, [0x118c4]),
  (0x118a5, [0x118c5]), (0x118a6, [0x118c6]), (0x118a7, [0x118c7]), (0x118a8, [0x118c8]), (0x118a9, [0x118c9]),
  (0x118aa, [0x118ca]), (0x118ab, [0x118cb]), (0x118ac, [0x118cc]), (0x118ad, [0x118cd]), (0x118ae, [0x118ce]),
  (0x118af, [0x118cf]), (0x118b0, [0x118d0]), (0x118b1, [0x118d1]), (0x118b2, [0x118d2]), (0x118b3, [0x118d3]),
  (0x118b4, [0x118d4]), (0x118b5, [0x118d5]), (0x118b6, [0x118d6]), (0x118b7, [0x118d7]), (0x118b8, [0x118d8]),
  (0x118b9, [0x118d9]), (0x118ba, [0x118da]), (0x118bb, [0x118db]), (0x118bc, [0x118dc]), (0x118bd, [0x118dd]),
  (0x118be, [0x118de]), (0x118bf, [0x118df]), (0x16e40, [0x16e60]), (0x16e41, [0x16e61]), (0x16e42, [0x16e62]),
  (0x16e43, [0x16e63]), (0x16e44, [0x16e64]), (0x16e45, [0x16e65]), (0x16e46, [0x16e66]), (0x16e47, [0x16e67]),
  (0x16e48, [0x16e68]), (0x16e49, [0x16e69]), (0x16e4a, [0x16e6a]), (0x16e4b, [0x16e6b]), (0x16e4c, [0x16e6c]),
  (0x16e4d, [0x16e6d]), (0x16e4e, [0x16e6e]), (0x16e4f, [0x16e6f]), (0x16e50, [0x16e70]), (0x16e51, [0x16e71]),
  (0x16e52, [0x16e72]), (0x16e53, [0x16e73]), (0x16e54, [0x16e74]), (0x16e55, [0x16e75]), (0x16e56, [0x16e76]),
  (0x16e57, [0x16e77]), (0x16e58, [0x16e78]), (0x16e59, [0x16e79]), (0x16e5a, [0x16e7a]), (0x16e5b, [0x16e7b]),
  (0x16e5c, [0x16e7c]), (0x16e5d, [0x16e7d]), (0x16e5e, [0x16e7e]), (0x16e5f, [0x16e7f]), (0x1e900, [0x1e922]),
  (0x1e901, [0x1e923]), (0x1e902, [0x1e924]), (0x1e903, [0x1e925]), (0x1e904, [0x1e926]), (0x1e905, [0x1e927]),
  (0x1e906, [0x1e928]), (0x1e907, [0x1e929]), (0x1e908, [0x1e92a]), (0x1e909, [0x1e92b]), (0x1e90a, [0x1e92c]),
  (0x1e90b, [0x1e92d]), (0x1e90c, [0x1e92e]), (0x1e90d, [0x1e92f]), (0x1e90e, [0x1e930]), (0x1e90f, [0x1e931]),
  (0x1e910, [0x1e932]), (0x1e911, [0x1e933]), (0x1e912, [0x1e934]), (0x1e913, [0x1e935]), (0x1e914, [0x1e936]),
  (0x1e915, [0x1e937]), (0x1e916, [0x1e938]), (0x1e917, [0x1e939]), (0x1e918, [0x1e93a]), (0x1e919, [0x1e93b]),
  (0x1e91a, [0x1e93c]), (0x1e91b, [0x1e93d]), (0x1e91c, [0x1e93e]), (0x1e91d, [0x1e93f]), (0x1e91e, [0x1e940]),
  (0x1e91f, [0x1e941]), (0x1e920, [0x1e942]), (0x1e921, [0x1e943])]

/-- Context-free lowercase of one code point: table lookup, identity
for code points not in the table. -/
def lowerMap (n : Nat) : List Nat :=
  match lowerTable.find? (fun p => p.1 = n) with
  | some p => p.2
  | none => [n]

/-- Membership of a code point in a sorted list of closed ranges. -/
def inRanges (rs : List (Nat × Nat)) (n : Nat) : Bool :=
  rs.any (fun r => decide (r.1 ≤ n) && decide (n ≤ r.2))

/-- Code points that Python's Final_Sigma scan treats as case-ignorable
(skipped when looking for a cased code point on either side of a
capital sigma). -/
def ciRanges : List (Nat × Nat) := [
  (0x27, 0x27), (0x2e, 0x2e), (0x3a, 0x3a), (0x5e, 0x5e), (0x60, 0x60), (0xa8, 0xa8), (0xad, 0xad),
  (0xaf, 0xaf), (0xb4, 0xb4), (0xb7, 0xb8), (0x2b0, 0x36f), (0x374, 0x375), (0x37a, 0x37a), (0x384, 0x385),
  (0x387, 0x387), (0x483, 0x489), (0x559, 0x559), (0x55f, 0x55f), (0x591, 0x5bd), (0x5bf, 0x5bf), (0x5c1, 0x5c2),
  (0x5c4, 0x5c5), (0x5c7, 0x5c7), (0x5f4, 0x5f4), (0x600, 0x605), (0x610, 0x61a), (0x61c, 0x61c), (0x640, 0x640),
  (0x64b, 0x65f), (0x670, 0x670), (0x6d6, 0x6dd), (0x6df, 0x6e8), (0x6ea, 0x6ed), (0x70f, 0x70f), (0x711, 0x711),
  (0x730, 0x74a), (0x7a6, 0x7b0), (0x7eb, 0x7f5), (0x7fa, 0x7fa), (0x7fd, 0x7fd), (0x816, 0x82d), (0x859, 0x85b),
  (0x888, 0x888), (0x890, 0x891), (0x898, 0x89f), (0x8c9, 0x902), (0x93a, 0x93a), (0x93c, 0x93c), (0x941, 0x948),
  (0x94d, 0x94d), (0x951, 0x957), (0x962, 0x963), (0x971, 0x971), (0x981, 0x981), (0x9bc, 0x9bc), (0x9c1, 0x9c4),
  (0x9cd, 0x9cd), (0x9e2, 0x9e3), (0x9fe, 0x9fe), (0xa01, 0xa02), (0xa3c, 0xa3c), (0xa41, 0xa42), (0xa47, 0xa48),
  (0xa4b, 0xa4d), (0xa51, 0xa51), (0xa70, 0xa71), (0xa75, 0xa75), (0xa81, 0xa82), (0xabc, 0xabc), (0xac1, 0xac5),
  (0xac7, 0xac8), (0xacd, 0xacd), (0xae2, 0xae3), (0xafa, 0xaff), (0xb01, 0xb01), (0xb3c, 0xb3c), (0xb3f, 0xb3f),
  (0xb41, 0xb44), (0xb4d, 0xb4d), (0xb55, 0xb56), (0xb62, 0xb63), (0xb82, 0xb82), (0xbc0, 0xbc0), (0xbcd, 0xbcd),
  (0xc00, 0xc00), (0xc04, 0xc04), (0xc3c, 0xc3c), (0xc3e, 0xc40), (0xc46, 0xc48), (0xc4a, 0xc4d), (0xc55, 0xc56),
  (0xc62, 0xc63), (0xc81, 0xc81), (0xcbc, 0xcbc), (0xcbf, 0xcbf), (0xcc6, 0xcc6), (0xccc, 0xccd), (0xce2, 0xce3),
  (0xd00, 0xd01), (0xd3b, 0xd3c), (0xd41, 0xd44), (0xd4d, 0xd4d), (0xd62, 0xd63), (0xd81, 0xd81), (0xdca, 0xdca),
  (0xdd2, 0xdd4), (0xdd6, 0xdd6), (0xe31, 0xe31), (0xe34, 0xe3a), (0xe46, 0xe4e), (0xeb1, 0xeb1), (0xeb4, 0xebc),
  (0xec6, 0xec6), (0xec8, 0xecd), (0xf18, 0xf19), (0xf35, 0xf35), (0xf37, 0xf37), (0xf39, 0xf39), (0xf71, 0xf7e),
  (0xf80, 0xf84), (0xf86, 0xf87), (0xf8d, 0xf97), (0xf99, 0xfbc), (0xfc6, 0xfc6), (0x102d, 0x1030), (0x1032, 0x1037),
  (0x1039, 0x103a), (0x103d, 0x103e), (0x1058, 0x1059), (0x105e, 0x1060), (0x1071, 0x1074), (0x1082, 0x1082), (0x1085, 0x1086),
  (0x108d, 0x108d), (0x109d, 0x109d), (0x10fc, 0x10fc), (0x135d, 0x135f), (0x1712, 0x1714), (0x1732, 0x1733), (0x1752, 0x1753),
  (0x1772, 0x1773), (0x17b4, 0x17b5), (0x17b7, 0x17bd), (0x17c6, 0x17c6), (0x17c9, 0x17d3), (0x17d7, 0x17d7), (0x17dd, 0x17dd),
  (0x180b, 0x180f), (0x1843, 0x1843), (0x1885, 0x1886), (0x18a9, 0x18a9), (0x1920, 0x1922), (0x1927, 0x1928), (0x1932, 0x1932),
  (0x1939, 0x193b), (0x1a17, 0x1a18), (0x1a1b, 0x1a1b), (0x1a56, 0x1a56), (0x1a58, 0x1a5e), (0x1a60, 0x1a60), (0x1a62, 0x1a62),
  (0x1a65, 0x1a6c), (0x1a73, 0x1a7c), (0x1a7f, 0x1a7f), (0x1aa7, 0x1aa7), (0x1ab0, 0x1ace), (0x1b00, 0x1b03), (0x1b34, 0x1b34),
  (0x1b36, 0x1b3a), (0x1b3c, 0x1b3c), (0x1b42, 0x1b42), (0x1b6b, 0x1b73), (0x1b80, 0x1b81), (0x1ba2, 0x1ba5), (0x1ba8, 0x1ba9),
  (0x1bab, 0x1bad), (0x1be6, 0x1be6), (0x1be8, 0x1be9), (0x1bed, 0x1bed), (0x1bef, 0x1bf1), (0x1c2c, 0x1c33), (0x1c36, 0x1c37),
  (0x1c78, 0x1c7d), (0x1cd0, 0x1cd2), (0x1cd4, 0x1ce0), (0x1ce2, 0x1ce8), (0x1ced, 0x1ced), (0x1cf4, 0x1cf4), (0x1cf8, 0x1cf9),
  (0x1d2c, 0x1d6a), (0x1d78, 0x1d78), (0x1d9b, 0x1dff), (0x1fbd, 0x1fbd), (0x1fbf, 0x1fc1), (0x1fcd, 0x1fcf), (0x1fdd, 0x1fdf),
  (0x1fed, 0x1fef), (0x1ffd, 0x1ffe), (0x200b, 0x200f), (0x2018, 0x2019), (0x2024, 0x2024), (0x2027, 0x2027), (0x202a, 0x202e),
  (0x2060, 0x2064), (0x2066, 0x206f), (0x2071, 0x2071), (0x207f, 0x207f), (0x2090, 0x209c), (0x20d0, 0x20f0), (0x2c7c, 0x2c7d),
  (0x2cef, 0x2cf1), (0x2d6f, 0x2d6f), (0x2d7f, 0x2d7f), (0x2de0, 0x2dff), (0x2e2f, 0x2e2f), (0x3005, 0x3005), (0x302a, 0x302d),
  (0x3031, 0x3035), (0x303b, 0x303b), (0x3099, 0x309e), (0x30fc, 0x30fe), (0xa015, 0xa015), (0xa4f8, 0xa4fd), (0xa60c, 0xa60c),
  (0xa66f, 0xa672), (0xa674, 0xa67d), (0xa67f, 0xa67f), (0xa69c, 0xa69f), (0xa6f0, 0xa6f1), (0xa700, 0xa721), (0xa770, 0xa770),
  (0xa788, 0xa78a), (0xa7f2, 0xa7f4), (0xa7f8, 0xa7f9), (0xa802, 0xa802), (0xa806, 0xa806), (0xa80b, 0xa80b), (0xa825, 0xa826),
  (0xa82c, 0xa82c), (0xa8c4, 0xa8c5), (0xa8e0, 0xa8f1), (0xa8ff, 0xa8ff), (0xa926, 0xa92d), (0xa947, 0xa951), (0xa980, 0xa982),
  (0xa9b3, 0xa9b3), (0xa9b6, 0xa9b9), (0xa9bc, 0xa9bd), (0xa9cf, 0xa9cf), (0xa9e5, 0xa9e6), (0xaa29, 0xaa2e), (0xaa31, 0xaa32),
  (0xaa35, 0xaa36), (0xaa43, 0xaa43), (0xaa4c, 0xaa4c), (0xaa70, 0xaa70), (0xaa7c, 0xaa7c), (0xaab0, 0xaab0), (0xaab2, 0xaab4),
  (0xaab7, 0xaab8), (0xaabe, 0xaabf), (0xaac1, 0xaac1), (0xaadd, 0xaadd), (0xaaec, 0xaaed), (0xaaf3, 0xaaf4), (0xaaf6, 0xaaf6),
  (0xab5b, 0xab5f), (0xab69, 0xab6b), (0xabe5, 0xabe5), (0xabe8, 0xabe8), (0xabed, 0xabed), (0xfb1e, 0xfb1e), (0xfbb2, 0xfbc2),
  (0xfe00, 0xfe0f), (0xfe13, 0xfe13), (0xfe20, 0xfe2f), (0xfe52, 0xfe52), (0xfe55, 0xfe55), (0xfeff, 0xfeff), (0xff07, 0xff07),
  (0xff0e, 0xff0e), (0xff1a, 0xff1a), (0xff3e, 0xff3e), (0xff40, 0xff40), (0xff70, 0xff70), (0xff9e, 0xff9f), (0xffe3, 0xffe3),
  (0xfff9, 0xfffb), (0x101fd, 0x101fd), (0x102e0, 0x102e0), (0x10376, 0x1037a), (0x10780, 0x10785), (0x10787, 0x107b0), (0x107b2, 0x107ba),
  (0x10a01, 0x10a03), (0x10a05, 0x10a06), (0x10a0c, 0x10a0f), (0x10a38, 0x10a3a), (0x10a3f, 0x10a3f), (0x10ae5, 0x10ae6), (0x10d24, 0x10d27),
  (0x10eab, 0x10eac), (0x10f46, 0x10f50), (0x10f82, 0x10f85), (0x11001, 0x11001), (0x11038, 0x11046), (0x11070, 0x11070), (0x11073, 0x11074),
  (0x1107f, 0x11081), (0x110b3, 0x110b6), (0x110b9, 0x110ba), (0x110bd, 0x110bd), (0x110c2, 0x110c2), (0x110cd, 0x110cd), (0x11100, 0x11102),
  (0x11127, 0x1112b), (0x1112d, 0x11134), (0x11173, 0x11173), (0x11180, 0x11181), (0x111b6, 0x111be), (0x111c9, 0x111cc), (0x111cf, 0x111cf),
  (0x1122f, 0x11231), (0x11234, 0x11234), (0x11236, 0x11237), (0x1123e, 0x1123e), (0x112df, 0x112df), (0x112e3, 0x112ea), (0x11300, 0x11301),
  (0x1133b, 0x1133c), (0x11340, 0x11340), (0x11366, 0x1136c), (0x11370, 0x11374), (0x11438, 0x1143f), (0x11442, 0x11444), (0x11446, 0x11446),
  (0x1145e, 0x1145e), (0x114b3, 0x114b8), (0x114ba, 0x114ba), (0x114bf, 0x114c0), (0x114c2, 0x114c3), (0x115b2, 0x115b5), (0x115bc, 0x115bd),
  (0x115bf, 0x115c0), (0x115dc, 0x115dd), (0x11633, 0x1163a), (0x1163d, 0x1163d), (0x1163f, 0x11640), (0x116ab, 0x116ab), (0x116ad, 0x116ad),
  (0x116b0, 0x116b5), (0x116b7, 0x116b7), (0x1171d, 0x1171f), (0x11722, 0x11725), (0x11727, 0x1172b), (0x1182f, 0x11837), (0x11839, 0x1183a),
  (0x1193b, 0x1193c), (0x1193e, 0x1193e), (0x11943, 0x11943), (0x119d4, 0x119d7), (0x119da, 0x119db), (0x119e0, 0x119e0), (0x11a01, 0x11a0a),
  (0x11a33, 0x11a38), (0x11a3b, 0x11a3e), (0x11a47, 0x11a47), (0x11a51, 0x11a56), (0x11a59, 0x11a5b), (0x11a8a, 0x11a96), (0x11a98, 0x11a99),
  (0x11c30, 0x11c36), (0x11c38, 0x11c3d), (0x11c3f, 0x11c3f), (0x11c92, 0x11ca7), (0x11caa, 0x11cb0), (0x11cb2, 0x11cb3), (0x11cb5, 0x11cb6),
  (0x11d31, 0x11d36), (0x11d3a, 0x11d3a), (0x11d3c, 0x11d3d), (0x11d3f, 0x11d45), (0x11d47, 0x11d47), (0x11d90, 0x11d91), (0x11d95, 0x11d95),
  (0x11d97, 0x11d97), (0x11ef3, 0x11ef4), (0x13430, 0x13438), (0x16af0, 0x16af4), (0x16b30, 0x16b36), (0x16b40, 0x16b43), (0x16f4f, 0x16f4f),
  (0x16f8f, 0x16f9f), (0x16fe0, 0x16fe1), (0x16fe3, 0x16fe4), (0x1aff0, 0x1aff3), (0x1aff5, 0x1affb), (0x1affd, 0x1affe), (0x1bc9d, 0x1bc9e),
  (0x1bca0, 0x1bca3), (0x1cf00, 0x1cf2d), (0x1cf30, 0x1cf46), (0x1d167, 0x1d169), (0x1d173, 0x1d182), (0x1d185, 0x1d18b), (0x1d1aa, 0x1d1ad),
  (0x1d242, 0x1d244), (0x1da00, 0x1da36), (0x1da3b, 0x1da6c), (0x1da75, 0x1da75), (0x1da84, 0x1da84), (0x1da9b, 0x1da9f), (0x1daa1, 0x1daaf),
  (0x1e000, 0x1e006), (0x1e008, 0x1e018), (0x1e01b, 0x1e021), (0x1e023, 0x1e024), (0x1e026, 0x1e02a), (0x1e130, 0x1e13d), (0x1e2ae, 0x1e2ae),
  (0x1e2ec, 0x1e2ef), (0x1e8d0, 0x1e8d6), (0x1e944, 0x1e94b), (0x1f3fb, 0x1f3ff), (0xe0001, 0xe0001), (0xe0020, 0xe007f), (0xe0100, 0xe01ef)]

/-- Code points that Python's Final_Sigma scan, after skipping the
case-ignorable ones, accepts as cased. -/
def casedRanges : List (Nat × Nat) := [
  (0x41, 0x5a), (0x61, 0x7a), (0xaa, 0xaa), (0xb5, 0xb5), (0xba, 0xba), (0xc0, 0xd6), (0xd8, 0xf6),
  (0xf8, 0x1ba), (0x1bc, 0x1bf), (0x1c4, 0x293), (0x295, 0x2af), (0x370, 0x373), (0x376, 0x377), (0x37b, 0x37d),
  (0x37f, 0x37f), (0x386, 0x386), (0x388, 0x38a), (0x38c, 0x38c), (0x38e, 0x3a1), (0x3a3, 0x3f5), (0x3f7, 0x481),
  (0x48a, 0x52f), (0x531, 0x556), (0x560, 0x588), (0x10a0, 0x10c5), (0x10c7, 0x10c7), (0x10cd, 0x10cd), (0x10d0, 0x10fa),
  (0x10fd, 0x10ff), (0x13a0, 0x13f5), (0x13f8, 0x13fd), (0x1c80, 0x1c88), (0x1c90, 0x1cba), (0x1cbd, 0x1cbf), (0x1d00, 0x1d2b),
  (0x1d6b, 0x1d77), (0x1d79, 0x1d9a), (0x1e00, 0x1f15), (0x1f18, 0x1f1d), (0x1f20, 0x1f45), (0x1f48, 0x1f4d), (0x1f50, 0x1f57),
  (0x1f59, 0x1f59), (0x1f5b, 0x1f5b), (0x1f5d, 0x1f5d), (0x1f5f, 0x1f7d), (0x1f80, 0x1fb4), (0x1fb6, 0x1fbc), (0x1fbe, 0x1fbe),
  (0x1fc2, 0x1fc4), (0x1fc6, 0x1fcc), (0x1fd0, 0x1fd3), (0x1fd6, 0x1fdb), (0x1fe0, 0x1fec), (0x1ff2, 0x1ff4), (0x1ff6, 0x1ffc),
  (0x2102, 0x2102), (0x2107, 0x2107), (0x210a, 0x2113), (0x2115, 0x2115), (0x2119, 0x211d), (0x2124, 0x2124), (0x2126, 0x2126),
  (0x2128, 0x2128), (0x212a, 0x212d), (0x212f, 0x2134), (0x2139, 0x2139), (0x213c, 0x213f), (0x2145, 0x2149), (0x214e, 0x214e),
  (0x2160, 0x217f), (0x2183, 0x2184), (0x24b6, 0x24e9), (0x2c00, 0x2c7b), (0x2c7e, 0x2ce4), (0x2ceb, 0x2cee), (0x2cf2, 0x2cf3),
  (0x2d00, 0x2d25), (0x2d27, 0x2d27), (0x2d2d, 0x2d2d), (0xa640, 0xa66d), (0xa680, 0xa69b), (0xa722, 0xa76f), (0xa771, 0xa787),
  (0xa78b, 0xa78e), (0xa790, 0xa7ca), (0xa7d0, 0xa7d1), (0xa7d3, 0xa7d3), (0xa7d5, 0xa7d9), (0xa7f5, 0xa7f6), (0xa7fa, 0xa7fa),
  (0xab30, 0xab5a), (0xab60, 0xab68), (0xab70, 0xabbf), (0xfb00, 0xfb06), (0xfb13, 0xfb17), (0xff21, 0xff3a), (0xff41, 0xff5a),
  (0x10400, 0x1044f), (0x104b0, 0x104d3), (0x104d8, 0x104fb), (0x10570, 0x1057a), (0x1057c, 0x1058a), (0x1058c, 0x10592), (0x10594, 0x10595),
  (0x10597, 0x105a1), (0x105a3, 0x105b1), (0x105b3, 0x105b9), (0x105bb, 0x105bc), (0x10c80, 0x10cb2), (0x10cc0, 0x10cf2), (0x118a0, 0x118df),
  (0x16e40, 0x16e7f), (0x1d400, 0x1d454), (0x1d456, 0x1d49c), (0x1d49e, 0x1d49f), (0x1d4a2, 0x1d4a2), (0x1d4a5, 0x1d4a6), (0x1d4a9, 0x1d4ac),
  (0x1d4ae, 0x1d4b9), (0x1d4bb, 0x1d4bb), (0x1d4bd, 0x1d4c3), (0x1d4c5, 0x1d505), (0x1d507, 0x1d50a), (0x1d50d, 0x1d514), (0x1d516, 0x1d51c),
  (0x1d51e, 0x1d539), (0x1d53b, 0x1d53e), (0x1d540, 0x1d544), (0x1d546, 0x1d546), (0x1d54a, 0x1d550), (0x1d552, 0x1d6a5), (0x1d6a8, 0x1d6c0),
  (0x1d6c2, 0x1d6da), (0x1d6dc, 0x1d6fa), (0x1d6fc, 0x1d714), (0x1d716, 0x1d734), (0x1d736, 0x1d74e), (0x1d750, 0x1d76e), (0x1d770, 0x1d788),
  (0x1d78a, 0x1d7a8), (0x1d7aa, 0x1d7c2), (0x1d7c4, 0x1d7cb), (0x1df00, 0x1df09), (0x1df0b, 0x1df1e), (0x1e900, 0x1e943), (0x1f130, 0x1f149),
  (0x1f150, 0x1f169), (0x1f170, 0x1f189)]

def isCaseIgnorableCp (n : Nat) : Bool := inRanges ciRanges n

def isCasedCp (n : Nat) : Bool := inRanges casedRanges n

/-- Lowercase one code point `c` in context: `prev` is the reversed
list of original code points before it and `rest` those after it.  A
capital sigma becomes the final form `0x3c2` exactly when, skipping
case-ignorable code points, a cased code point precedes it and none
follows it; anything else goes through `lowerMap`. -/
def lowerAt (prev : List Nat) (c : Nat) (rest : List Nat) : List Nat :=
  if c = 0x3a3 then
    let before := match prev.dropWhile isCaseIgnorableCp with
      | [] => false
      | d :: _ => isCasedCp d
    let after := match rest.dropWhile isCaseIgnorableCp with
      | [] => false
      | d :: _ => isCasedCp d
    if before && !after then [0x3c2] else [0x3c3]
  else lowerMap c

/-- Lowercase a list of code points left to right, keeping the reversed
prefix of original code points for the sigma context. -/
def lowerLoop (prev : List Nat) : List Nat → List Nat
  | [] => []
  | c :: rest => lowerAt prev c rest ++ lowerLoop (c :: prev) rest

/-- Python's `str.lower()`. -/
def strLower (s : String) : String :=
  ⟨(lowerLoop [] (s.data.map Char.toNat)).map Char.ofNat⟩

/-- `GameFactory.create_game`: normalize the name with
`(game_type or "").strip().lower()`, look it up, and construct the
game with the two default players; the constructors reject a
non-positive size. -/
def create_game (game_type : Option String) (size : Nat) :
    Except GameError AnyGame :=
  if strLower (strStrip (game_type.getD "")) = "gomoku" then
    if size = 0 then .error .invalidConstruction
    else .ok (.gomoku (GomokuState.init size))
  else if strLower (strStrip (game_type.getD "")) = "go" then
    if size = 0 then .error .invalidConstruction
    else .ok (.go (GoState.init size))
  else .error .unknownVariant

/-! ### Case analysis of successful operations -/

theorem colorsOK_swap {cur oth : Player} (h : colorsOK cur oth) : colorsOK oth cur := by
  rcases h with ⟨h1, h2⟩ | ⟨h1, h2⟩
  · exact Or.inr ⟨h2, h1⟩
  · exact Or.inl ⟨h2, h1⟩

/-- A successful Go move happened on an ongoing game, at an in-bounds
empty cell, and produced the post-capture state `goG3` up to the
status set by the full-board scoring check. -/
theorem GoState.make_move_ok {s : GoState} {row col : Int} {s' : GoState}
    (h : s.make_move row col = (none, s')) :
    s.status = GameStatus.ongoing ∧ s.board.validPos row col ∧
    s.board.grid.getCell row.toNat col.toNat = Cell.empty ∧
    ∃ st : GameStatus, s' = { goG3 s row.toNat col.toNat with status := st } := by
  unfold GoState.make_move at h
  split at h
  · simp at h
  next hstatus =>
  split at h
  · simp at h
  next hpos =>
  split at h
  · simp at h
  next hempty =>
  split at h
  · simp at h
  next hcolor =>
  split at h
  · simp at h
  next hsuicide =>
  refine ⟨not_not.mp (by simpa using hstatus), not_not.mp (by simpa using hpos),
    not_not.mp (by simpa using hempty), ?_⟩
  split at h
  · have h2 := (Prod.mk.injEq _ _ _ _ ▸ h).2
    exact ⟨_, h2.symm⟩
  · have h2 := (Prod.mk.injEq _ _ _ _ ▸ h).2
    refine ⟨(goG3 s row.toNat col.toNat).status, ?_⟩
    rw [← h2]

/-- A successful Go pass happened on an ongoing game and produced
`goPassG1` up to the status set by the scoring check. -/
theorem GoState.pass_ok {s s' : GoState} (h : s.pass_turn = (none, s')) :
    s.status = GameStatus.ongoing ∧
    ∃ st : GameStatus, s' = { goPassG1 s with status := st } := by
  unfold GoState.pass_turn at h
  split at h
  · simp at h
  next hstatus =>
  refine ⟨not_not.mp (by simpa using hstatus), ?_⟩
  split at h
  · have h2 := (Prod.mk.injEq _ _ _ _ ▸ h).2
    exact ⟨_, h2.symm⟩
  · have h2 := (Prod.mk.injEq _ _ _ _ ▸ h).2
    refine ⟨(goPassG1 s).status, ?_⟩
    rw [← h2]

/-- A successful Gomoku move happened on an ongoing game, at an
in-bounds empty cell, and produced `gomokuG2` up to the status set by
the win/draw checks. -/
theorem GomokuState.gomoku_make_move_ok {s : GomokuState} {row col : Int} {s' : GomokuState}
    (h : s.make_move row col = (none, s')) :
    s.status = GameStatus.ongoing ∧ s.board.validPos row col ∧
    s.board.grid.getCell row.toNat col.toNat = Cell.empty ∧
    ∃ st : GameStatus, s' = { gomokuG2 s row.toNat col.toNat with status := st } := by
  unfold GomokuState.make_move at h
  split at h
  · simp at h
  next hstatus =>
  split at h
  · simp at h
  next hpos =>
  split at h
  · simp at h
  next hcolor =>
  split at h
  · simp at h
  next hempty =>
  refine ⟨not_not.mp (by simpa using hstatus), not_not.mp (by simpa using hpos),
    not_not.mp (by simpa using hempty), ?_⟩
  split at h
  · have h2 := (Prod.mk.injEq _ _ _ _ ▸ h).2
    exact ⟨_, h2.symm⟩
  · split at h
    · have h2 := (Prod.mk.injEq _ _ _ _ ▸ h).2
      exact ⟨_, h2.symm⟩
    · have h2 := (Prod.mk.injEq _ _ _ _ ▸ h).2
      refine ⟨(gomokuG2 s row.toNat col.toNat).status, ?_⟩
      rw [← h2]

/-! ### Well-formedness preservation -/

theorem GoState.wf_g3 {s : GoState} (hwf : s.WF) (r c : Nat) (st : GameStatus) :
    ({ goG3 s r c with status := st } : GoState).WF :=
  ⟨(goCapInv hwf r c).wf, colorsOK_swap hwf.2⟩

theorem GoState.wf_passG1 {s : GoState} (hwf : s.WF) (st : GameStatus) :
    ({ goPassG1 s with status := st } : GoState).WF :=
  ⟨hwf.1, colorsOK_swap hwf.2⟩

theorem GoState.wf_resign {s : GoState} (hwf : s.WF) : s.resign.WF :=
  ⟨hwf.1, hwf.2⟩

theorem GomokuState.wf_g2 {s : GomokuState} (hwf : s.WF) (r c : Nat)
    (st : GameStatus) :
    ({ gomokuG2 s r c with status := st } : GomokuState).WF :=
  ⟨Board.wf_setCellB hwf.1 r c _, colorsOK_swap hwf.2⟩

theorem GomokuState.gomoku_wf_resign {s : GomokuState} (hwf : s.WF) : s.resign.WF :=
  ⟨hwf.1, hwf.2⟩

/-- A successful non-undo operation keeps the state well-formed. -/
theorem AnyGame.applyOp_ok_wf {g g' : AnyGame} {op : Op} (hwf : g.WF)
    (hop : op ≠ Op.undoOp) (h : g.applyOp op = (none, g')) : g'.WF := by
  cases g with
  | gomoku s =>
    cases op with
    | moveAt row col =>
      simp only [AnyGame.applyOp, Prod.mk.injEq] at h
      have hmm : s.make_move row col = (none, (s.make_move row col).2) := by
        rw [← h.1]
      obtain ⟨-, -, -, st, hs'⟩ := GomokuState.gomoku_make_move_ok hmm
      rw [← h.2, hs']
      exact GomokuState.wf_g2 hwf _ _ st
    | passOp => simp [AnyGame.applyOp, GomokuState.pass_turn] at h
    | resignOp =>
      simp only [AnyGame.applyOp, Prod.mk.injEq] at h
      rw [← h.2]
      exact GomokuState.gomoku_wf_resign hwf
    | undoOp => exact absurd rfl hop
  | go s =>
    cases op with
    | moveAt row col =>
      simp only [AnyGame.applyOp, Prod.mk.injEq] at h
      have hmm : s.make_move row col = (none, (s.make_move row col).2) := by
        rw [← h.1]
      obtain ⟨-, -, -, st, hs'⟩ := GoState.make_move_ok hmm
      rw [← h.2, hs']
      exact GoState.wf_g3 hwf _ _ st
    | passOp =>
      simp only [AnyGame.applyOp, Prod.mk.injEq] at h
      have hmm : s.pass_turn = (none, (s.pass_turn).2) := by
        rw [← h.1]
      obtain ⟨-, st, hs'⟩ := GoState.pass_ok hmm
      rw [← h.2, hs']
      exact GoState.wf_passG1 hwf st
    | resignOp =>
      simp only [AnyGame.applyOp, Prod.mk.injEq] at h
      rw [← h.2]
      exact GoState.wf_resign hwf
    | undoOp => exact absurd rfl hop

/-- One `undo()` exactly inverts any single successful non-undo
operation. -/
theorem AnyGame.applyOp_ok_undo {g g' : AnyGame} {op : Op} (hwf : g.WF)
    (hop : op ≠ Op.undoOp) (h : g.applyOp op = (none, g')) :
    g'.undo = (none, g) := by
  cases g with
  | gomoku s =>
    cases op with
    | moveAt row col =>
      simp only [AnyGame.applyOp, Prod.mk.injEq] at h
      have hmm : s.make_move row col = (none, (s.make_move row col).2) := by
        rw [← h.1]
      obtain ⟨-, hpos, hempty, st, hs'⟩ := GomokuState.gomoku_make_move_ok hmm
      rw [← h.2]
      show ((((s.make_move row col).2).undo).1,
        AnyGame.gomoku (((s.make_move row col).2).undo).2) = (none, AnyGame.gomoku s)
      rw [hs', gomokuUndo_g2 hwf hpos hempty st]
    | passOp => simp [AnyGame.applyOp, GomokuState.pass_turn] at h
    | resignOp =>
      simp only [AnyGame.applyOp, Prod.mk.injEq] at h
      rw [← h.2]
      show (((s.resign).undo).1, AnyGame.gomoku ((s.resign).undo).2) =
        (none, AnyGame.gomoku s)
      rw [gomokuUndo_resign]
    | undoOp => exact absurd rfl hop
  | go s =>
    cases op with
    | moveAt row col =>
      simp only [AnyGame.applyOp, Prod.mk.injEq] at h
      have hmm : s.make_move row col = (none, (s.make_move row col).2) := by
        rw [← h.1]
      obtain ⟨-, hpos, hempty, st, hs'⟩ := GoState.make_move_ok hmm
      rw [← h.2]
      show ((((s.make_move row col).2).undo).1,
        AnyGame.go (((s.make_move row col).2).undo).2) = (none, AnyGame.go s)
      rw [hs', goUndo_g3 hwf hpos hempty st]
    | passOp =>
      simp only [AnyGame.applyOp, Prod.mk.injEq] at h
      have hmm : s.pass_turn = (none, (s.pass_turn).2) := by
        rw [← h.1]
      obtain ⟨-, st, hs'⟩ := GoState.pass_ok hmm
      rw [← h.2]
      show ((((s.pass_turn).2).undo).1, AnyGame.go (((s.pass_turn).2).undo).2) =
        (none, AnyGame.go s)
      rw [hs', goUndo_pass s st]
    | resignOp =>
      simp only [AnyGame.applyOp, Prod.mk.injEq] at h
      rw [← h.2]
      show (((s.resign).undo).1, AnyGame.go ((s.resign).undo).2) =
        (none, AnyGame.go s)
      rw [goUndo_resign]
    | undoOp => exact absurd rfl hop

/-! ### Claim C1 -/

/-- Example game for the C1 witness. -/
def c1ExStart : AnyGame := .go (GoState.init 3)

def c1ExOps : List Op := [.moveAt 0 0, .passOp, .resignOp]

def c1ExEnd : AnyGame := (c1ExStart.applyAll c1ExOps).2

/-- C1: undo is an exact inverse.  For every Gomoku or Go game and
every sequence of successful public operations (moves, passes,
resignations), calling `undo()` once per operation in reverse order
restores the full state — board contents, Go captured counters,
consecutive-pass counter, current/other turn pointers, status, and
history — by state equality, to its value before the sequence; since
the theorem applies to every suffix of the sequence, each intermediate
undo lands exactly on the state immediately before the corresponding
operation. -/
theorem undo_exact_inverse (g g' : AnyGame) (ops : List Op) (hwf : g.WF)
    (hops : ∀ op ∈ ops, op ≠ Op.undoOp)
    (h : g.applyAll ops = (none, g')) :
    g'.undoN ops.length = (none, g) := by
  have main : ∀ ops2 : List Op, (∀ op ∈ ops2, op ≠ Op.undoOp) →
      ∀ gg : AnyGame, gg.WF → gg.applyAll ops2 = (none, g') →
      g'.undoN ops2.length = (none, gg) := by
    intro ops2
    induction ops2 with
    | nil =>
      intro hops2 gg hwf2 h2
      have h2' : ((none : Option GameError), gg) = (none, g') := h2
      injection h2' with h1 h2''
      rw [← h2'']
      rfl
    | cons op ops2 ih =>
      intro hops2 gg hwf2 h2
      cases hap : gg.applyOp op with
      | mk e g1 =>
        have h2' : (match gg.applyOp op with
            | (none, g1) => g1.applyAll ops2
            | (some e, g1) => (some e, g1)) = (none, g') := h2
        rw [hap] at h2'
        cases e with
        | some e' =>
          have h3 : ((some e', g1) : Option GameError × AnyGame) = (none, g') := h2'
          simp at h3
        | none =>
          have h3 : g1.applyAll ops2 = (none, g') := h2'
          have hwf1 : g1.WF :=
            AnyGame.applyOp_ok_wf hwf2 (hops2 op (List.mem_cons_self _ _)) hap
          have ihres := ih (fun o ho => hops2 o (List.mem_cons_of_mem _ ho)) g1 hwf1 h3
          have hlen : (op :: ops2).length = ops2.length + 1 := rfl
          rw [hlen]
          have hstep : g'.undoN (ops2.length + 1) =
              (match g'.undoN ops2.length with
                | (none, x) => x.undo
                | (some e, x) => (some e, x)) := rfl
          rw [hstep, ihres]
          exact AnyGame.applyOp_ok_undo hwf2 (hops2 op (List.mem_cons_self _ _)) hap
  exact main ops hops g hwf h

/-- Witness for `undo_exact_inverse`: a Go game with a move, a pass and
a resignation, undone three times. -/
theorem undo_exact_inverse_witness :
    (c1ExStart.WF ∧ (∀ op ∈ c1ExOps, op ≠ Op.undoOp) ∧
      c1ExStart.applyAll c1ExOps = (none, c1ExEnd)) ∧
    c1ExEnd.undoN c1ExOps.length = (none, c1ExStart) :=
  ⟨⟨by decide, by decide, by decide⟩,
    undo_exact_inverse c1ExStart c1ExEnd c1ExOps (by decide) (by decide) (by decide)⟩

/-! ### Claim C7 -/

/-- `resign` pushed exactly one resign entry capturing the prior
status and turn pointers. -/
def resignPushed : AnyGame → AnyGame → Prop
  | .gomoku s, .gomoku s' =>
    s'.history = GomokuEntry.resignEntry s.status s.current s.other :: s.history
  | .go s, .go s' =>
    s'.history = GoEntry.resignEntry s.status s.current s.other :: s.history
  | _, _ => False

/-- C7: `resign()` never fails, in any state (terminal included): it
pushes a resign entry capturing the prior status/current/other, leaves
the board and the turn pointers unchanged, sets the status to the
non-resigning (other) player's win regardless of board contents, and a
single `undo()` restores the previous state exactly. -/
theorem resign_spec (g : AnyGame) (hwf : g.WF) :
    g.applyOp Op.resignOp = (none, g.resign) ∧
    resignPushed g g.resign ∧
    g.resign.currentOf = g.currentOf ∧
    g.resign.otherOf = g.otherOf ∧
    g.resign.boardOf = g.boardOf ∧
    (g.otherOf.color = Cell.black → g.resign.statusOf = GameStatus.blackWin) ∧
    (g.otherOf.color = Cell.white → g.resign.statusOf = GameStatus.whiteWin) ∧
    g.resign.undo = (none, g) := by
  cases g with
  | gomoku s =>
    refine ⟨rfl, rfl, rfl, rfl, rfl, ?_, ?_, ?_⟩
    · intro hb
      show (if s.current.color = Cell.black then GameStatus.whiteWin
        else GameStatus.blackWin) = GameStatus.blackWin
      rcases hwf.2 with ⟨h1, h2⟩ | ⟨h1, h2⟩
      · have hb' : s.other.color = Cell.black := hb
        rw [h2] at hb'
        exact absurd hb' (by simp)
      · rw [if_neg (by rw [h1]; simp)]
    · intro hw
      show (if s.current.color = Cell.black then GameStatus.whiteWin
        else GameStatus.blackWin) = GameStatus.whiteWin
      rcases hwf.2 with ⟨h1, h2⟩ | ⟨h1, h2⟩
      · rw [if_pos h1]
      · have hw' : s.other.color = Cell.white := hw
        rw [h2] at hw'
        exact absurd hw' (by simp)
    · show (((s.resign).undo).1, AnyGame.gomoku ((s.resign).undo).2) =
        (none, AnyGame.gomoku s)
      rw [gomokuUndo_resign]
  | go s =>
    refine ⟨rfl, rfl, rfl, rfl, rfl, ?_, ?_, ?_⟩
    · intro hb
      show (if s.current.color = Cell.black then GameStatus.whiteWin
        else GameStatus.blackWin) = GameStatus.blackWin
      rcases hwf.2 with ⟨h1, h2⟩ | ⟨h1, h2⟩
      · have hb' : s.other.color = Cell.black := hb
        rw [h2] at hb'
        exact absurd hb' (by simp)
      · rw [if_neg (by rw [h1]; simp)]
    · intro hw
      show (if s.current.color = Cell.black then GameStatus.whiteWin
        else GameStatus.blackWin) = GameStatus.whiteWin
      rcases hwf.2 with ⟨h1, h2⟩ | ⟨h1, h2⟩
      · rw [if_pos h1]
      · have hw' : s.other.color = Cell.white := hw
        rw [h2] at hw'
        exact absurd hw' (by simp)
    · show (((s.resign).undo).1, AnyGame.go ((s.resign).undo).2) =
        (none, AnyGame.go s)
      rw [goUndo_resign]

/-- Example for the C7 witness: an already-terminal game (after one
resignation) resigning again. -/
def c7Ex : AnyGame := AnyGame.resign (.go (GoState.init 2))

/-- Witness for `resign_spec`, at a game that is already terminal. -/
theorem resign_spec_witness :
    (c7Ex.WF ∧ c7Ex.statusOf ≠ GameStatus.ongoing) ∧
    (c7Ex.applyOp Op.resignOp = (none, c7Ex.resign) ∧
      resignPushed c7Ex c7Ex.resign ∧
      c7Ex.resign.currentOf = c7Ex.currentOf ∧
      c7Ex.resign.otherOf = c7Ex.otherOf ∧
      c7Ex.resign.boardOf = c7Ex.boardOf ∧
      (c7Ex.otherOf.color = Cell.black → c7Ex.resign.statusOf = GameStatus.blackWin) ∧
      (c7Ex.otherOf.color = Cell.white → c7Ex.resign.statusOf = GameStatus.whiteWin) ∧
      c7Ex.resign.undo = (none, c7Ex)) :=
  ⟨⟨by decide, by decide⟩, resign_spec c7Ex (by decide)⟩

/-! ### Claim C8 -/

/-- The error a pass raises on a terminal game: `GameOver` for Go, but
`PassNotSupported` for Gomoku (the base-class pass always raises it). -/
def passFailKind : AnyGame → GameError
  | .gomoku _ => .passNotSupported
  | .go _ => .gameOver

/-- C8 (amended): in a terminal state, no public operation other than
`undo()` can move the status back to Ongoing: a move fails with
`GameOver` leaving the state unchanged; a pass also leaves the state
unchanged but fails with `GameOver` only for Go — Gomoku's pass fails
with `PassNotSupported` —; and resign only ever sets a win status. -/
theorem terminal_stickiness (g : AnyGame) (hwf : g.WF)
    (hterm : g.statusOf ≠ GameStatus.ongoing) :
    (∀ row col : Int, g.applyOp (Op.moveAt row col) = (some .gameOver, g)) ∧
    g.applyOp Op.passOp = (some (passFailKind g), g) ∧
    ((g.applyOp Op.resignOp).2.statusOf = GameStatus.blackWin ∨
      (g.applyOp Op.resignOp).2.statusOf = GameStatus.whiteWin) := by
  cases g with
  | gomoku s =>
    have hterm' : s.status ≠ GameStatus.ongoing := hterm
    refine ⟨?_, rfl, ?_⟩
    · intro row col
      have hmm : s.make_move row col = (some .gameOver, s) := by
        unfold GomokuState.make_move
        rw [if_pos hterm']
      show ((s.make_move row col).1, AnyGame.gomoku (s.make_move row col).2) =
        (some .gameOver, AnyGame.gomoku s)
      rw [hmm]
    · show (if s.current.color = Cell.black then GameStatus.whiteWin
        else GameStatus.blackWin) = GameStatus.blackWin ∨
        (if s.current.color = Cell.black then GameStatus.whiteWin
        else GameStatus.blackWin) = GameStatus.whiteWin
      split
      · exact Or.inr rfl
      · exact Or.inl rfl
  | go s =>
    have hterm' : s.status ≠ GameStatus.ongoing := hterm
    refine ⟨?_, ?_, ?_⟩
    · intro row col
      have hmm : s.make_move row col = (some .gameOver, s) := by
        unfold GoState.make_move
        rw [if_pos hterm']
      show ((s.make_move row col).1, AnyGame.go (s.make_move row col).2) =
        (some .gameOver, AnyGame.go s)
      rw [hmm]
    · have hp : s.pass_turn = (some .gameOver, s) := by
        unfold GoState.pass_turn
        rw [if_pos hterm']
      show ((s.pass_turn).1, AnyGame.go (s.pass_turn).2) =
        (some (passFailKind (AnyGame.go s)), AnyGame.go s)
      rw [hp]
      rfl
    · show (if s.current.color = Cell.black then GameStatus.whiteWin
        else GameStatus.blackWin) = GameStatus.blackWin ∨
        (if s.current.color = Cell.black then GameStatus.whiteWin
        else GameStatus.blackWin) = GameStatus.whiteWin
      split
      · exact Or.inr rfl
      · exact Or.inl rfl

/-- A terminal Gomoku game (after a resignation). -/
def c8Ex : AnyGame := AnyGame.resign (.gomoku (GomokuState.init 3))

/-- Counterexample to C8 as stated: on a terminal *Gomoku* game, pass
does not fail with `GameOver` — it fails with `PassNotSupported`. -/
theorem terminal_stickiness_counterexample :
    c8Ex.statusOf ≠ GameStatus.ongoing ∧
    (c8Ex.applyOp Op.passOp).1 = some GameError.passNotSupported ∧
    (c8Ex.applyOp Op.passOp).1 ≠ some GameError.gameOver := by
  decide

/-- Witness for `terminal_stickiness` at a terminal Gomoku game. -/
theorem terminal_stickiness_witness :
    (c8Ex.WF ∧ c8Ex.statusOf ≠ GameStatus.ongoing) ∧
    ((∀ row col : Int, c8Ex.applyOp (Op.moveAt row col) = (some .gameOver, c8Ex)) ∧
      c8Ex.applyOp Op.passOp = (some (passFailKind c8Ex), c8Ex) ∧
      ((c8Ex.applyOp Op.resignOp).2.statusOf = GameStatus.blackWin ∨
        (c8Ex.applyOp Op.resignOp).2.statusOf = GameStatus.whiteWin)) :=
  ⟨⟨by decide, by decide⟩, terminal_stickiness c8Ex (by decide) (by decide)⟩

/-! ### Claim C4 -/

theorem colorsOK_not_invalid {cur oth : Player} (h : colorsOK cur oth) :
    ¬ (cur.color ≠ Cell.black ∧ cur.color ≠ Cell.white) := by
  rcases h with ⟨h1, -⟩ | ⟨h1, -⟩ <;> rintro ⟨hb, hw⟩
  · exact hb h1
  · exact hw h1

/-- A failed Gomoku move leaves the state unchanged, except for the
occupied-cell failure, which leaves the spurious history entry. -/
theorem GomokuState.gomoku_move_err {s : GomokuState} {row col : Int} {e : GameError}
    {s2 : GomokuState} (hwf : s.WF) (h : s.make_move row col = (some e, s2)) :
    s2 = s ∨ (e = GameError.alreadyOccupied ∧
      s2 = { s with history := GomokuEntry.move ⟨row.toNat, col.toNat,
        s.board.grid.getCell row.toNat col.toNat, s.status, s.current, s.other⟩
        :: s.history }) := by
  unfold GomokuState.make_move at h
  split at h
  · obtain ⟨-, h2⟩ := Prod.mk.injEq _ _ _ _ ▸ h
    exact Or.inl h2.symm
  split at h
  · obtain ⟨-, h2⟩ := Prod.mk.injEq _ _ _ _ ▸ h
    exact Or.inl h2.symm
  split at h
  next hcol => exact absurd hcol (colorsOK_not_invalid hwf.2)
  split at h
  · obtain ⟨h1, h2⟩ := Prod.mk.injEq _ _ _ _ ▸ h
    injection h1 with h1'
    exact Or.inr ⟨h1'.symm, h2.symm⟩
  split at h
  · simp at h
  split at h
  · simp at h
  · simp at h

/-- A failed Go move other than a suicide leaves the state unchanged. -/
theorem GoState.move_err {s : GoState} {row col : Int} {e : GameError}
    {s2 : GoState} (hwf : s.WF) (h : s.make_move row col = (some e, s2))
    (he : e ≠ GameError.suicideNotAllowed) : s2 = s := by
  unfold GoState.make_move at h
  split at h
  · exact ((Prod.mk.injEq _ _ _ _ ▸ h).2).symm
  split at h
  · exact ((Prod.mk.injEq _ _ _ _ ▸ h).2).symm
  split at h
  · exact ((Prod.mk.injEq _ _ _ _ ▸ h).2).symm
  split at h
  next hcol => exact absurd hcol (colorsOK_not_invalid hwf.2)
  split at h
  · obtain ⟨h1, -⟩ := Prod.mk.injEq _ _ _ _ ▸ h
    injection h1 with h1'
    exact absurd h1'.symm he
  split at h
  · simp at h
  · simp at h

/-- A failed Go pass leaves the state unchanged. -/
theorem GoState.pass_err {s : GoState} {e : GameError} {s2 : GoState}
    (h : s.pass_turn = (some e, s2)) : s2 = s := by
  unfold GoState.pass_turn at h
  split at h
  · exact ((Prod.mk.injEq _ _ _ _ ▸ h).2).symm
  split at h
  · simp at h
  · simp at h

/-- A failed Go undo leaves the state unchanged. -/
theorem GoState.undo_err {s : GoState} {e : GameError} {s2 : GoState}
    (h : s.undo = (some e, s2)) : s2 = s := by
  unfold GoState.undo at h
  match hh : s.history with
  | [] =>
    rw [hh] at h
    exact ((Prod.mk.injEq _ _ _ _ ▸ h).2).symm
  | GoEntry.move base cap pcb pcw pp :: rest => rw [hh] at h; simp at h
  | GoEntry.passEntry ps pc po pp :: rest => rw [hh] at h; simp at h
  | GoEntry.resignEntry ps pc po :: rest => rw [hh] at h; simp at h

/-- A failed Gomoku undo leaves the state unchanged. -/
theorem GomokuState.gomoku_undo_err {s : GomokuState} {e : GameError} {s2 : GomokuState}
    (h : s.undo = (some e, s2)) : s2 = s := by
  unfold GomokuState.undo at h
  match hh : s.history with
  | [] =>
    rw [hh] at h
    exact ((Prod.mk.injEq _ _ _ _ ▸ h).2).symm
  | GomokuEntry.move base :: rest => rw [hh] at h; simp at h
  | GomokuEntry.passEntry ps pc po :: rest => rw [hh] at h; simp at h
  | GomokuEntry.resignEntry ps pc po :: rest => rw [hh] at h; simp at h

/-- C4 (amended): with one exception, every failure other than
`SuicideNotAllowed` is detected before any mutation, leaving the state
(board, counters, turn pointers, status, history) unchanged.  The
exception is Gomoku's `AlreadyOccupied`: `GomokuGame.make_move` has no
occupancy pre-check, so `_apply_move` pushes the history entry before
`place_piece` raises — the failed move leaves one spurious move entry
on the log, while the board, status and turn pointers are unchanged. -/
theorem failure_atomicity (g : AnyGame) (op : Op) (e : GameError) (g2 : AnyGame)
    (hwf : g.WF) (h : g.applyOp op = (some e, g2))
    (he : e ≠ GameError.suicideNotAllowed) :
    g2 = g ∨
    ∃ (s : GomokuState) (row col : Int), g = AnyGame.gomoku s ∧
      op = Op.moveAt row col ∧ e = GameError.alreadyOccupied ∧
      g2 = AnyGame.gomoku { s with
        history := GomokuEntry.move ⟨row.toNat, col.toNat,
          s.board.grid.getCell row.toNat col.toNat, s.status, s.current, s.other⟩
          :: s.history } ∧
      g2.boardOf = g.boardOf ∧ g2.statusOf = g.statusOf ∧
      g2.currentOf = g.currentOf ∧ g2.otherOf = g.otherOf := by
  cases g with
  | gomoku s =>
    cases op with
    | moveAt row col =>
      cases hres : s.make_move row col with
      | mk e2 s2 =>
        have h1 : ((s.make_move row col).1,
            AnyGame.gomoku (s.make_move row col).2) = (some e, g2) := h
        rw [hres] at h1
        have h2 : (e2, AnyGame.gomoku s2) = (some e, g2) := h1
        obtain ⟨he2, hg2⟩ := Prod.mk.injEq _ _ _ _ ▸ h2
        have hres2 : s.make_move row col = (some e, s2) := by rw [hres, he2]
        rcases GomokuState.gomoku_move_err hwf hres2 with hcase | ⟨hocc, hcase⟩
        · exact Or.inl (by rw [← hg2, hcase])
        · refine Or.inr ⟨s, row, col, rfl, rfl, hocc, by rw [← hg2, hcase], ?_, ?_, ?_, ?_⟩
            <;> rw [← hg2, hcase] <;> rfl
    | passOp =>
      have h1 : ((some GameError.passNotSupported : Option GameError),
          AnyGame.gomoku s) = (some e, g2) := h
      obtain ⟨-, hg2⟩ := Prod.mk.injEq _ _ _ _ ▸ h1
      exact Or.inl hg2.symm
    | resignOp =>
      have h1 : ((none : Option GameError), AnyGame.gomoku s.resign) =
        (some e, g2) := h
      obtain ⟨hne, -⟩ := Prod.mk.injEq _ _ _ _ ▸ h1
      simp at hne
    | undoOp =>
      cases hres : s.undo with
      | mk e2 s2 =>
        have h1 : ((s.undo).1, AnyGame.gomoku (s.undo).2) = (some e, g2) := h
        rw [hres] at h1
        have h2 : (e2, AnyGame.gomoku s2) = (some e, g2) := h1
        obtain ⟨he2, hg2⟩ := Prod.mk.injEq _ _ _ _ ▸ h2
        have hres2 : s.undo = (some e, s2) := by rw [hres, he2]
        exact Or.inl (by rw [← hg2, GomokuState.gomoku_undo_err hres2])
  | go s =>
    cases op with
    | moveAt row col =>
      cases hres : s.make_move row col with
      | mk e2 s2 =>
        have h1 : ((s.make_move row col).1,
            AnyGame.go (s.make_move row col).2) = (some e, g2) := h
        rw [hres] at h1
        have h2 : (e2, AnyGame.go s2) = (some e, g2) := h1
        obtain ⟨he2, hg2⟩ := Prod.mk.injEq _ _ _ _ ▸ h2
        have hres2 : s.make_move row col = (some e, s2) := by rw [hres, he2]
        exact Or.inl (by rw [← hg2, GoState.move_err hwf hres2 he])
    | passOp =>
      cases hres : s.pass_turn with
      | mk e2 s2 =>
        have h1 : ((s.pass_turn).1, AnyGame.go (s.pass_turn).2) = (some e, g2) := h
        rw [hres] at h1
        have h2 : (e2, AnyGame.go s2) = (some e, g2) := h1
        obtain ⟨he2, hg2⟩ := Prod.mk.injEq _ _ _ _ ▸ h2
        have hres2 : s.pass_turn = (some e, s2) := by rw [hres, he2]
        exact Or.inl (by rw [← hg2, GoState.pass_err hres2])
    | resignOp =>
      have h1 : ((none : Option GameError), AnyGame.go s.resign) = (some e, g2) := h
      obtain ⟨hne, -⟩ := Prod.mk.injEq _ _ _ _ ▸ h1
      simp at hne
    | undoOp =>
      cases hres : s.undo with
      | mk e2 s2 =>
        have h1 : ((s.undo).1, AnyGame.go (s.undo).2) = (some e, g2) := h
        rw [hres] at h1
        have h2 : (e2, AnyGame.go s2) = (some e, g2) := h1
        obtain ⟨he2, hg2⟩ := Prod.mk.injEq _ _ _ _ ▸ h2
        have hres2 : s.undo = (some e, s2) := by rw [hres, he2]
        exact Or.inl (by rw [← hg2, GoState.undo_err hres2])

/-- The Gomoku game after Black's move at (0,0). -/
def c4ExG1 : GomokuState := ((GomokuState.init 3).make_move 0 0).2

/-- Counterexample to C4 as stated: White attempts the occupied cell
(0,0); the move fails with `AlreadyOccupied` but the state is *not*
unchanged — a spurious history entry has been pushed. -/
theorem failure_atomicity_counterexample :
    ((AnyGame.gomoku c4ExG1).applyOp (Op.moveAt 0 0)).1 =
      some GameError.alreadyOccupied ∧
    ((AnyGame.gomoku c4ExG1).applyOp (Op.moveAt 0 0)).2 ≠ AnyGame.gomoku c4ExG1 := by
  decide

/-- Witness for `failure_atomicity`: an out-of-bounds Go move. -/
theorem failure_atomicity_witness :
    ((AnyGame.go (GoState.init 3)).WF ∧
      (AnyGame.go (GoState.init 3)).applyOp (Op.moveAt 5 5) =
        (some GameError.outOfBounds,
          ((AnyGame.go (GoState.init 3)).applyOp (Op.moveAt 5 5)).2) ∧
      GameError.outOfBounds ≠ GameError.suicideNotAllowed) ∧
    (((AnyGame.go (GoState.init 3)).applyOp (Op.moveAt 5 5)).2 =
        AnyGame.go (GoState.init 3) ∨
      ∃ (s : GomokuState) (row col : Int),
        AnyGame.go (GoState.init 3) = AnyGame.gomoku s ∧
        Op.moveAt 5 5 = Op.moveAt row col ∧
        GameError.outOfBounds = GameError.alreadyOccupied ∧
        ((AnyGame.go (GoState.init 3)).applyOp (Op.moveAt 5 5)).2 =
          AnyGame.gomoku { s with
            history := GomokuEntry.move ⟨row.toNat, col.toNat,
              s.board.grid.getCell row.toNat col.toNat, s.status, s.current,
              s.other⟩ :: s.history } ∧
        (((AnyGame.go (GoState.init 3)).applyOp (Op.moveAt 5 5)).2).boardOf =
          (AnyGame.go (GoState.init 3)).boardOf ∧
        (((AnyGame.go (GoState.init 3)).applyOp (Op.moveAt 5 5)).2).statusOf =
          (AnyGame.go (GoState.init 3)).statusOf ∧
        (((AnyGame.go (GoState.init 3)).applyOp (Op.moveAt 5 5)).2).currentOf =
          (AnyGame.go (GoState.init 3)).currentOf ∧
        (((AnyGame.go (GoState.init 3)).applyOp (Op.moveAt 5 5)).2).otherOf =
          (AnyGame.go (GoState.init 3)).otherOf) :=
  ⟨⟨by decide, by decide, by decide⟩,
    failure_atomicity (AnyGame.go (GoState.init 3)) (Op.moveAt 5 5)
      GameError.outOfBounds _ (by decide) (by decide) (by decide)⟩

/-! ### Claim C5 -/

/-- Play a list of Go moves, stopping at the first error. -/
def goPlay (g : GoState) (moves : List (Int × Int)) : Option GameError × GoState :=
  match moves with
  | [] => (none, g)
  | m :: ms =>
    match g.make_move m.1 m.2 with
    | (none, g1) => goPlay g1 ms
    | (some e, g1) => (some e, g1)

/-- The C5 example: Black at (0,0),(1,0),(2,0), White at (0,1),(1,1). -/
def c5Ex : GoState := (goPlay (GoState.init 3) [(0,0),(0,1),(1,0),(1,1),(2,0)]).2

/-- C5: on an ongoing Go game, `pass()` swaps the turn and increments
the consecutive-pass counter; every successful move resets the counter
to 0; when the counter reaches 2 the game ends by area scoring —
each color's total being its stones on the board plus its captured
counter, BlackWin/WhiteWin on strict majority, Draw on equality; and
`pass()` fails with `GameOver` on a terminal game.  In particular, in
the example game (Black 3 stones, White 2) White's then Black's passes
end the game as BlackWin. -/
theorem go_pass_spec (g : GoState) (hwf : g.WF) :
    (g.status ≠ GameStatus.ongoing → g.pass_turn = (some .gameOver, g)) ∧
    (g.status = GameStatus.ongoing →
      ∃ g2, g.pass_turn = (none, g2) ∧
        g2.current = g.other ∧ g2.other = g.current ∧ g2.board = g.board ∧
        g2.consecutive_passes = g.consecutive_passes + 1 ∧
        (g.consecutive_passes + 1 < 2 → g2.status = GameStatus.ongoing) ∧
        (2 ≤ g.consecutive_passes + 1 →
          (countColor g.board Cell.white + g.captured_white <
              countColor g.board Cell.black + g.captured_black →
            g2.status = GameStatus.blackWin) ∧
          (countColor g.board Cell.black + g.captured_black <
              countColor g.board Cell.white + g.captured_white →
            g2.status = GameStatus.whiteWin) ∧
          (countColor g.board Cell.black + g.captured_black =
              countColor g.board Cell.white + g.captured_white →
            g2.status = GameStatus.draw))) ∧
    (∀ (row col : Int) (g2 : GoState), g.make_move row col = (none, g2) →
      g2.consecutive_passes = 0) ∧
    ((goPlay (GoState.init 3) [(0,0),(0,1),(1,0),(1,1),(2,0)]).1 = none ∧
      (c5Ex.pass_turn).1 = none ∧
      ((c5Ex.pass_turn).2.pass_turn).2.status = GameStatus.blackWin) := by
  refine ⟨?_, ?_, ?_, by decide, by decide, by decide⟩
  · intro hterm
    unfold GoState.pass_turn
    rw [if_pos hterm]
  · intro hstatus
    by_cases h2 : 2 ≤ g.consecutive_passes + 1
    · refine ⟨(goPassG1 g).end_game_by_counts, ?_, rfl, rfl, rfl, rfl, ?_, ?_⟩
      · unfold GoState.pass_turn
        rw [if_neg (by simp [hstatus]), if_pos (by exact h2)]
      · intro hlt
        omega
      · intro _
        refine ⟨?_, ?_, ?_⟩
        · intro hbt
          show (if countColor g.board Cell.white + g.captured_white <
              countColor g.board Cell.black + g.captured_black then
              GameStatus.blackWin
            else if countColor g.board Cell.black + g.captured_black <
              countColor g.board Cell.white + g.captured_white then
              GameStatus.whiteWin else GameStatus.draw) = GameStatus.blackWin
          rw [if_pos hbt]
        · intro hwt
          show (if countColor g.board Cell.white + g.captured_white <
              countColor g.board Cell.black + g.captured_black then
              GameStatus.blackWin
            else if countColor g.board Cell.black + g.captured_black <
              countColor g.board Cell.white + g.captured_white then
              GameStatus.whiteWin else GameStatus.draw) = GameStatus.whiteWin
          rw [if_neg (by omega), if_pos hwt]
        · intro heq
          show (if countColor g.board Cell.white + g.captured_white <
              countColor g.board Cell.black + g.captured_black then
              GameStatus.blackWin
            else if countColor g.board Cell.black + g.captured_black <
              countColor g.board Cell.white + g.captured_white then
              GameStatus.whiteWin else GameStatus.draw) = GameStatus.draw
          rw [if_neg (by omega), if_neg (by omega)]
    · refine ⟨goPassG1 g, ?_, rfl, rfl, rfl, rfl, ?_, ?_⟩
      · unfold GoState.pass_turn
        rw [if_neg (by simp [hstatus]), if_neg (by exact h2)]
      · intro _
        exact hstatus
      · intro hge
        exact absurd hge h2
  · intro row col g2 h
    obtain ⟨-, -, -, st, hs⟩ := GoState.make_move_ok h
    rw [hs]
    rfl

/-- Witness for `go_pass_spec` at the example game. -/
theorem go_pass_spec_witness :
    c5Ex.WF ∧
    ((c5Ex.status ≠ GameStatus.ongoing → c5Ex.pass_turn = (some .gameOver, c5Ex)) ∧
      (c5Ex.status = GameStatus.ongoing →
        ∃ g2, c5Ex.pass_turn = (none, g2) ∧
          g2.current = c5Ex.other ∧ g2.other = c5Ex.current ∧
          g2.board = c5Ex.board ∧
          g2.consecutive_passes = c5Ex.consecutive_passes + 1 ∧
          (c5Ex.consecutive_passes + 1 < 2 → g2.status = GameStatus.ongoing) ∧
          (2 ≤ c5Ex.consecutive_passes + 1 →
            (countColor c5Ex.board Cell.white + c5Ex.captured_white <
                countColor c5Ex.board Cell.black + c5Ex.captured_black →
              g2.status = GameStatus.blackWin) ∧
            (countColor c5Ex.board Cell.black + c5Ex.captured_black <
                countColor c5Ex.board Cell.white + c5Ex.captured_white →
              g2.status = GameStatus.whiteWin) ∧
            (countColor c5Ex.board Cell.black + c5Ex.captured_black =
                countColor c5Ex.board Cell.white + c5Ex.captured_white →
              g2.status = GameStatus.draw))) ∧
      (∀ (row col : Int) (g2 : GoState), c5Ex.make_move row col = (none, g2) →
        g2.consecutive_passes = 0) ∧
      ((goPlay (GoState.init 3) [(0,0),(0,1),(1,0),(1,1),(2,0)]).1 = none ∧
        (c5Ex.pass_turn).1 = none ∧
        ((c5Ex.pass_turn).2.pass_turn).2.status = GameStatus.blackWin)) :=
  ⟨by decide, go_pass_spec c5Ex (by decide)⟩

/-! ### Claim C2 -/

/-- The capture example: on a 3×3 board, B(1,1), W(1,0), B(0,0),
W(0,1), B(0,2), W(1,2), B(2,2), W(2,1). -/
def c2Moves : List (Int × Int) := [(1,1),(1,0),(0,0),(0,1),(0,2),(1,2),(2,2),(2,1)]

def c2Ex : GoState := (goPlay (GoState.init 3) c2Moves).2

/-- C2: after every successful Go move, the removed cells are exactly
the members of the zero-liberty opponent groups adjacent to the placed
stone (groups and liberties read off the post-placement board, a group
being everything reachable from a seed through same-colored orthogonal
steps); every removed stone is recorded with its position and the
opponent color in the move's history entry, with no duplicate
positions (each distinct group captured once); all other cells keep
their post-placement value; and the mover's captured counter grows by
the number of removed stones.  In particular, after the 3×3 example
sequence, cell (1,1) is empty and `captured_white = 4`. -/
theorem go_capture_spec (g : GoState) (row col : Int) (g2 : GoState)
    (hwf : g.WF) (h : g.make_move row col = (none, g2)) :
    (∃ caps : List (Nat × Nat × Cell),
      g2.history = GoEntry.move ⟨row.toNat, col.toNat, Cell.empty, g.status,
          g.current, g.other⟩ (some caps) (some g.captured_black)
          (some g.captured_white) (some g.consecutive_passes) :: g.history ∧
      (caps.map fun t => (t.1, t.2.1)).Nodup ∧
      (∀ (p : Nat × Nat) (cl : Cell), ((p.1, p.2, cl) ∈ caps ↔
        cl = g.other.color ∧ capturedBySeeds (goB1 g row.toNat col.toNat)
          g.other.color (nbrs g.board.size (row.toNat, col.toNat)) p)) ∧
      (∀ p : Nat × Nat, capturedBySeeds (goB1 g row.toNat col.toNat) g.other.color
          (nbrs g.board.size (row.toNat, col.toNat)) p →
        g2.board.grid.getCell p.1 p.2 = Cell.empty) ∧
      (∀ p : Nat × Nat, ¬ capturedBySeeds (goB1 g row.toNat col.toNat) g.other.color
          (nbrs g.board.size (row.toNat, col.toNat)) p →
        g2.board.grid.getCell p.1 p.2 =
          (goB1 g row.toNat col.toNat).grid.getCell p.1 p.2) ∧
      (g.current.color = Cell.black →
        g2.captured_black = g.captured_black + caps.length ∧
        g2.captured_white = g.captured_white) ∧
      (g.current.color = Cell.white →
        g2.captured_white = g.captured_white + caps.length ∧
        g2.captured_black = g.captured_black)) ∧
    ((goPlay (GoState.init 3) c2Moves).1 = none ∧
      c2Ex.board.grid.getCell 1 1 = Cell.empty ∧
      c2Ex.captured_white = 4) := by
  obtain ⟨hst, hpos, hempty, st, hg2⟩ := GoState.make_move_ok h
  have hinv := goCapInv hwf row.toNat col.toNat
  have hcapmap : (goStf g row.toNat col.toNat).captured =
      (goStf g row.toNat col.toNat).processed.map
        (fun p => (p.1, p.2, g.other.color)) := hinv.cap
  have hb2 : g2.board = (goStf g row.toNat col.toNat).board := by
    rw [hg2]
    rfl
  have hcb : g2.captured_black = (goStf g row.toNat col.toNat).captured_black := by
    rw [hg2]
    rfl
  have hcw : g2.captured_white = (goStf g row.toNat col.toNat).captured_white := by
    rw [hg2]
    rfl
  have hlen : (goStf g row.toNat col.toNat).captured.length =
      (goStf g row.toNat col.toNat).processed.length := by
    rw [hcapmap, List.length_map]
  refine ⟨⟨(goStf g row.toNat col.toNat).captured, ?_, ?_, ?_, ?_, ?_, ?_, ?_⟩,
    by decide, by decide, by decide⟩
  · rw [hg2]
    rfl
  · rw [hcapmap, List.map_map]
    have hid : ((fun t : Nat × Nat × Cell => (t.1, t.2.1)) ∘
        (fun p : Nat × Nat => (p.1, p.2, g.other.color))) = id := funext fun p => rfl
    rw [hid, List.map_id]
    exact hinv.nodup
  · intro p cl
    rw [hcapmap]
    constructor
    · intro hmem
      obtain ⟨q, hq, heq⟩ := List.mem_map.mp hmem
      injection heq with h1 hrest
      injection hrest with h2 h3
      have hqp : q = p := by
        obtain ⟨q1, q2⟩ := q
        obtain ⟨p1, p2⟩ := p
        simp only at h1 h2
        rw [h1, h2]
      rw [hqp] at hq
      exact ⟨h3.symm, (hinv.pmem p).mp hq⟩
    · rintro ⟨hcl, hcap⟩
      refine List.mem_map.mpr ⟨p, (hinv.pmem p).mpr hcap, ?_⟩
      rw [hcl]
  · intro p hcap
    rw [hb2, hinv.cells p.1 p.2, if_pos ((hinv.pmem p).mpr hcap)]
  · intro p hcap
    rw [hb2, hinv.cells p.1 p.2,
      if_neg (fun hmem => hcap ((hinv.pmem p).mp hmem))]
  · intro hmover
    have hopp : g.other.color = Cell.white := by
      rcases hwf.2 with ⟨h1, h2⟩ | ⟨h1, h2⟩
      · exact h2
      · rw [h1] at hmover; exact absurd hmover (by simp)
    constructor
    · rw [hcb, hinv.cntb, if_neg (by rw [hopp]; simp), hlen]
    · rw [hcw, hinv.cntw, if_neg (by rw [hopp]; simp)]
  · intro hmover
    have hopp : g.other.color = Cell.black := by
      rcases hwf.2 with ⟨h1, h2⟩ | ⟨h1, h2⟩
      · rw [h1] at hmover; exact absurd hmover (by simp)
      · exact h2
    constructor
    · rw [hcw, hinv.cntw, if_pos hopp, hlen]
    · rw [hcb, hinv.cntb, if_pos hopp]

/-- The example game just before the final capturing move W(2,1). -/
def c2Ex7 : GoState :=
  (goPlay (GoState.init 3) [(1,1),(1,0),(0,0),(0,1),(0,2),(1,2),(2,2)]).2

def c2ExAfter : GoState := (c2Ex7.make_move 2 1).2

/-- Witness for `go_capture_spec` at the final move of the example. -/
theorem go_capture_spec_witness :
    (c2Ex7.WF ∧ c2Ex7.make_move 2 1 = (none, c2ExAfter)) ∧
    ((∃ caps : List (Nat × Nat × Cell),
      c2ExAfter.history = GoEntry.move ⟨(2 : Int).toNat, (1 : Int).toNat,
          Cell.empty, c2Ex7.status, c2Ex7.current, c2Ex7.other⟩ (some caps)
          (some c2Ex7.captured_black) (some c2Ex7.captured_white)
          (some c2Ex7.consecutive_passes) :: c2Ex7.history ∧
      (caps.map fun t => (t.1, t.2.1)).Nodup ∧
      (∀ (p : Nat × Nat) (cl : Cell), ((p.1, p.2, cl) ∈ caps ↔
        cl = c2Ex7.other.color ∧
          capturedBySeeds (goB1 c2Ex7 (2 : Int).toNat (1 : Int).toNat)
            c2Ex7.other.color
            (nbrs c2Ex7.board.size ((2 : Int).toNat, (1 : Int).toNat)) p)) ∧
      (∀ p : Nat × Nat,
        capturedBySeeds (goB1 c2Ex7 (2 : Int).toNat (1 : Int).toNat)
          c2Ex7.other.color
          (nbrs c2Ex7.board.size ((2 : Int).toNat, (1 : Int).toNat)) p →
        c2ExAfter.board.grid.getCell p.1 p.2 = Cell.empty) ∧
      (∀ p : Nat × Nat,
        ¬ capturedBySeeds (goB1 c2Ex7 (2 : Int).toNat (1 : Int).toNat)
          c2Ex7.other.color
          (nbrs c2Ex7.board.size ((2 : Int).toNat, (1 : Int).toNat)) p →
        c2ExAfter.board.grid.getCell p.1 p.2 =
          (goB1 c2Ex7 (2 : Int).toNat (1 : Int).toNat).grid.getCell p.1 p.2) ∧
      (c2Ex7.current.color = Cell.black →
        c2ExAfter.captured_black = c2Ex7.captured_black + caps.length ∧
        c2ExAfter.captured_white = c2Ex7.captured_white) ∧
      (c2Ex7.current.color = Cell.white →
        c2ExAfter.captured_white = c2Ex7.captured_white + caps.length ∧
        c2ExAfter.captured_black = c2Ex7.captured_black)) ∧
    ((goPlay (GoState.init 3) c2Moves).1 = none ∧
      c2Ex.board.grid.getCell 1 1 = Cell.empty ∧
      c2Ex.captured_white = 4)) :=
  ⟨⟨by decide, by decide⟩, go_capture_spec c2Ex7 2 1 c2ExAfter (by decide) (by decide)⟩

/-! ### Claim C3 -/

/-- C3: a Go move that captures nothing (no adjacent opponent group is
dead on the post-placement board) and whose own group has zero
liberties after captures are resolved fails with `SuicideNotAllowed`,
and the resulting state — board, captured counters, pass counter, turn
pointers, status, and history — is exactly the pre-move state. -/
theorem go_suicide_spec (g : GoState) (row col : Int) (hwf : g.WF)
    (hstatus : g.status = GameStatus.ongoing)
    (hpos : g.board.validPos row col)
    (hempty : g.board.grid.getCell row.toNat col.toNat = Cell.empty)
    (hnocap : ∀ p : Nat × Nat, ¬ capturedBySeeds (goB1 g row.toNat col.toNat)
      g.other.color (nbrs g.board.size (row.toNat, col.toNat)) p)
    (hdead : groupDead (goB1 g row.toNat col.toNat).grid
      (goB1 g row.toNat col.toNat).size g.current.color
      (row.toNat, col.toNat)) :
    g.make_move row col = (some GameError.suicideNotAllowed, g) := by
  have hinv := goCapInv hwf row.toNat col.toNat
  have hproc_nil : (goStf g row.toNat col.toNat).processed = [] := by
    rw [List.eq_nil_iff_forall_not_mem]
    intro p hp
    exact hnocap p ((hinv.pmem p).mp hp)
  have hcaps_nil : (goStf g row.toNat col.toNat).captured = [] := by
    rw [hinv.cap, hproc_nil]
    rfl
  have hboard_eq : (goStf g row.toNat col.toNat).board =
      goB1 g row.toNat col.toNat := by
    have hwfB1 : (goB1 g row.toNat col.toNat).WF := Board.wf_setCellB hwf.1 _ _ _
    have hrect : (goStf g row.toNat col.toNat).board.grid.Rect
        (goB1 g row.toNat col.toNat).size := hinv.size_eq ▸ hinv.wf
    have hgrid : (goStf g row.toNat col.toNat).board.grid =
        (goB1 g row.toNat col.toNat).grid := by
      apply Grid.rect_ext hrect hwfB1
      intro x hx y hy
      rw [hinv.cells x y, if_neg (by rw [hproc_nil]; simp)]
    ext : 1
    · exact hinv.size_eq
    · exact hgrid
  obtain ⟨hr, hc⟩ := Board.validPos_toNat hpos
  have hmovercol : (goB1 g row.toNat col.toNat).grid.getCell row.toNat col.toNat =
      g.current.color := Grid.getCell_setCell_eq hwf.1 hr hc _
  have hseed : ((row.toNat, col.toNat) : Nat × Nat).1 <
      (goB1 g row.toNat col.toNat).size ∧
      ((row.toNat, col.toNat) : Nat × Nat).2 < (goB1 g row.toNat col.toNat).size :=
    ⟨hr, hc⟩
  have hlib : chain_has_liberties (goB1 g row.toNat col.toNat)
      (find_chain (goB1 g row.toNat col.toNat) (row.toNat, col.toNat)) = false :=
    (groupDead_iff_chain hseed hmovercol (colorsOK_cur_ne_empty hwf.2)).mp hdead
  have hcond : chain_has_liberties (goG3 g row.toNat col.toNat).board
      (find_chain (goG3 g row.toNat col.toNat).board (row.toNat, col.toNat)) = false
      ∧ (goStf g row.toNat col.toNat).captured = [] := by
    constructor
    · show chain_has_liberties (goStf g row.toNat col.toNat).board
        (find_chain (goStf g row.toNat col.toNat).board (row.toNat, col.toNat)) =
        false
      rw [hboard_eq]
      exact hlib
    · exact hcaps_nil
  have hundo : (goG3 g row.toNat col.toNat).undo = (none, g) :=
    goUndo_g3 hwf hpos hempty g.status
  unfold GoState.make_move
  rw [if_neg (by simp [hstatus]), if_neg (by simp [hpos]),
    if_neg (by simp [hempty]), if_neg (colorsOK_not_invalid hwf.2),
    if_pos hcond, hundo]

/-- Witness for `go_suicide_spec`: after the capture example, Black
plays into the fully surrounded point (1,1). -/
theorem go_suicide_spec_witness :
    (c2Ex.WF ∧ c2Ex.status = GameStatus.ongoing ∧ c2Ex.board.validPos 1 1 ∧
      c2Ex.board.grid.getCell (1 : Int).toNat (1 : Int).toNat = Cell.empty ∧
      (∀ p : Nat × Nat, ¬ capturedBySeeds (goB1 c2Ex (1 : Int).toNat (1 : Int).toNat)
        c2Ex.other.color
        (nbrs c2Ex.board.size ((1 : Int).toNat, (1 : Int).toNat)) p) ∧
      groupDead (goB1 c2Ex (1 : Int).toNat (1 : Int).toNat).grid
        (goB1 c2Ex (1 : Int).toNat (1 : Int).toNat).size c2Ex.current.color
        ((1 : Int).toNat, (1 : Int).toNat)) ∧
    c2Ex.make_move 1 1 = (some GameError.suicideNotAllowed, c2Ex) := by
  have hnocap : ∀ p : Nat × Nat,
      ¬ capturedBySeeds (goB1 c2Ex (1 : Int).toNat (1 : Int).toNat)
        c2Ex.other.color
        (nbrs c2Ex.board.size ((1 : Int).toNat, (1 : Int).toNat)) p := by
    rintro p ⟨n, hn, hcol, hdead, -⟩
    have hn' : n ∈ ([(0, 1), (2, 1), (1, 0), (1, 2)] : List (Nat × Nat)) := by
      have he : nbrs c2Ex.board.size ((1 : Int).toNat, (1 : Int).toNat) =
          ([(0, 1), (2, 1), (1, 0), (1, 2)] : List (Nat × Nat)) := by decide
      rw [he] at hn
      exact hn
    fin_cases hn' <;>
      · rw [groupDead_iff_chain (by decide) hcol (by decide)] at hdead
        exact absurd hdead (by decide)
  have hdead : groupDead (goB1 c2Ex (1 : Int).toNat (1 : Int).toNat).grid
      (goB1 c2Ex (1 : Int).toNat (1 : Int).toNat).size c2Ex.current.color
      ((1 : Int).toNat, (1 : Int).toNat) :=
    (groupDead_iff_chain (by decide) (by decide) (by decide)).mpr (by decide)
  exact ⟨⟨by decide, by decide, by decide, by decide, hnocap, hdead⟩,
    go_suicide_spec c2Ex 1 1 (by decide) (by decide) (by decide) (by decide)
      hnocap hdead⟩

/-! ### Claim C6 -/

/-- The cell at integer coordinates is on the board and holds `color`
(the loop condition of `count_in_dir`). -/
def coloredAt (b : Board) (color : Cell) (r c : Int) : Prop :=
  0 ≤ r ∧ r < (b.size : Int) ∧ 0 ≤ c ∧ c < (b.size : Int) ∧
  b.grid.getCell r.toNat c.toNat = color

instance (b : Board) (color : Cell) (r c : Int) :
    Decidable (coloredAt b color r c) := by
  unfold coloredAt; infer_instance

/-- The spec's five-in-a-row property through the placed stone: on one
of the four axes, runs of consecutively colored cells forward and
backward from the stone sum with it to at least five.  (Quantifying
existentially over run lengths is equivalent to using the maximal
runs.) -/
def fiveThrough (b : Board) (row col : Int) (color : Cell) : Prop :=
  ∃ d ∈ ([((0 : Int), (1 : Int)), (1, 0), (1, 1), (1, -1)] : List (Int × Int)),
    ∃ a bk : Nat,
      (∀ i : Nat, 1 ≤ i → i ≤ a →
        coloredAt b color (row + i * d.1) (col + i * d.2)) ∧
      (∀ i : Nat, 1 ≤ i → i ≤ bk →
        coloredAt b color (row - i * d.1) (col - i * d.2)) ∧
      5 ≤ 1 + a + bk

theorem coloredAt_shift {b : Board} {color : Cell} {r c dr dc : Int} {j : Nat}
    (h : coloredAt b color (r + dr + j * dr) (c + dc + j * dc)) :
    coloredAt b color (r + ((j + 1 : Nat) : Int) * dr)
      (c + ((j + 1 : Nat) : Int) * dc) := by
  have e1 : r + ((j + 1 : Nat) : Int) * dr = r + dr + (j : Int) * dr := by
    push_cast; ring
  have e2 : c + ((j + 1 : Nat) : Int) * dc = c + dc + (j : Int) * dc := by
    push_cast; ring
  rw [e1, e2]
  exact h

theorem coloredAt_shift_rev {b : Board} {color : Cell} {r c dr dc : Int} {j : Nat}
    (h : coloredAt b color (r + ((j + 1 : Nat) : Int) * dr)
      (c + ((j + 1 : Nat) : Int) * dc)) :
    coloredAt b color (r + dr + j * dr) (c + dc + j * dc) := by
  have e1 : r + ((j + 1 : Nat) : Int) * dr = r + dr + (j : Int) * dr := by
    push_cast; ring
  have e2 : c + ((j + 1 : Nat) : Int) * dc = c + dc + (j : Int) * dc := by
    push_cast; ring
  rw [e1, e2] at h
  exact h

/-- Every cell strictly within the counted run is colored (soundness
of `count_in_dir`). -/
theorem countInDir_colored {b : Board} {color : Cell} {dr dc : Int} :
    ∀ (fuel : Nat) (r c : Int) (i : Nat),
      i < countInDir b color r c dr dc fuel →
      coloredAt b color (r + i * dr) (c + i * dc) := by
  intro fuel
  induction fuel with
  | zero =>
    intro r c i hi
    exact absurd hi (by simp [countInDir])
  | succ fuel ih =>
    intro r c i hi
    unfold countInDir at hi
    split at hi
    next hcond =>
      cases i with
      | zero =>
        show coloredAt b color (r + ((0 : Nat) : Int) * dr) (c + ((0 : Nat) : Int) * dc)
        have e1 : r + ((0 : Nat) : Int) * dr = r := by push_cast; ring
        have e2 : c + ((0 : Nat) : Int) * dc = c := by push_cast; ring
        rw [e1, e2]
        exact hcond
      | succ j =>
        have hj : j < countInDir b color (r + dr) (c + dc) dr dc fuel := by omega
        exact coloredAt_shift (ih (r + dr) (c + dc) j hj)
    next => exact absurd hi (by omega)

/-- If `a` consecutive cells along the ray are colored and the fuel
covers them, the count reaches at least `a` (completeness). -/
theorem countInDir_ge {b : Board} {color : Cell} {dr dc : Int} :
    ∀ (fuel a : Nat) (r c : Int), a ≤ fuel →
      (∀ i : Nat, i < a → coloredAt b color (r + i * dr) (c + i * dc)) →
      a ≤ countInDir b color r c dr dc fuel := by
  intro fuel
  induction fuel with
  | zero =>
    intro a r c ha h
    omega
  | succ fuel ih =>
    intro a r c ha h
    cases a with
    | zero => omega
    | succ a2 =>
      have h0 := h 0 (by omega)
      have hcond : 0 ≤ r ∧ r < (b.size : Int) ∧ 0 ≤ c ∧ c < (b.size : Int) ∧
          b.grid.getCell r.toNat c.toNat = color := by
        have e1 : r + ((0 : Nat) : Int) * dr = r := by push_cast; ring
        have e2 : c + ((0 : Nat) : Int) * dc = c := by push_cast; ring
        rw [coloredAt, e1, e2] at h0
        exact h0
      unfold countInDir
      rw [if_pos hcond]
      have hrec : a2 ≤ countInDir b color (r + dr) (c + dc) dr dc fuel := by
        apply ih a2 _ _ (by omega)
        intro i hi
        exact coloredAt_shift_rev (h (i + 1) (by omega))
      omega

/-- `_has_five_in_a_row` decides exactly the spec's five-in-a-row
property. -/
theorem hasFive_iff {b : Board} {row col : Int} {color : Cell} :
    hasFiveInARow b row col color = true ↔ fiveThrough b row col color := by
  unfold hasFiveInARow fiveThrough
  rw [List.any_eq_true]
  constructor
  · rintro ⟨d, hd, hcount⟩
    rw [decide_eq_true_eq] at hcount
    refine ⟨d, hd, countInDir b color (row + d.1) (col + d.2) d.1 d.2 b.size,
      countInDir b color (row - d.1) (col - d.2) (-d.1) (-d.2) b.size, ?_, ?_, ?_⟩
    · intro i h1 h2
      obtain ⟨j, rfl⟩ : ∃ j, i = j + 1 := ⟨i - 1, by omega⟩
      exact coloredAt_shift (countInDir_colored b.size (row + d.1) (col + d.2) j
        (by omega))
    · intro i h1 h2
      obtain ⟨j, rfl⟩ : ∃ j, i = j + 1 := ⟨i - 1, by omega⟩
      have := @countInDir_colored b color (-d.1) (-d.2) b.size (row - d.1)
        (col - d.2) j (by omega)
      have e1 : row - d.1 + (j : Int) * -d.1 = row - ((j + 1 : Nat) : Int) * d.1 := by
        push_cast; ring
      have e2 : col - d.2 + (j : Int) * -d.2 = col - ((j + 1 : Nat) : Int) * d.2 := by
        push_cast; ring
      rw [e1, e2] at this
      exact this
    · omega
  · rintro ⟨d, hd, a, bk, hfwd, hbwd, hsum⟩
    refine ⟨d, hd, ?_⟩
    rw [decide_eq_true_eq]
    -- the run lengths are bounded by the board size
    have hdcases : d = ((0 : Int), (1 : Int)) ∨ d = (1, 0) ∨ d = (1, 1) ∨
        d = (1, -1) := by
      simpa using hd
    have hfa : a ≤ b.size := by
      cases Nat.eq_zero_or_pos a with
      | inl h0 => omega
      | inr hpos =>
        have hb1 := hfwd 1 (by omega) (by omega)
        have hba := hfwd a (by omega) (by omega)
        rw [coloredAt] at hb1 hba
        rcases hdcases with rfl | rfl | rfl | rfl <;>
          · simp only at hb1 hba
            omega
    have hfb : bk ≤ b.size := by
      cases Nat.eq_zero_or_pos bk with
      | inl h0 => omega
      | inr hpos =>
        have hb1 := hbwd 1 (by omega) (by omega)
        have hba := hbwd bk (by omega) (by omega)
        rw [coloredAt] at hb1 hba
        rcases hdcases with rfl | rfl | rfl | rfl <;>
          · simp only at hb1 hba
            omega
    have hcf : a ≤ countInDir b color (row + d.1) (col + d.2) d.1 d.2 b.size := by
      apply countInDir_ge b.size a _ _ hfa
      intro i hi
      exact coloredAt_shift_rev (hfwd (i + 1) (by omega) (by omega))
    have hcb : bk ≤ countInDir b color (row - d.1) (col - d.2) (-d.1) (-d.2)
        b.size := by
      apply countInDir_ge b.size bk _ _ hfb
      intro i hi
      have := hbwd (i + 1) (by omega) (by omega)
      have e1 : row - ((i + 1 : Nat) : Int) * d.1 = row - d.1 + (i : Int) * -d.1 := by
        push_cast; ring
      have e2 : col - ((i + 1 : Nat) : Int) * d.2 = col - d.2 + (i : Int) * -d.2 := by
        push_cast; ring
      rw [e1, e2] at this
      exact this
    omega

/-- Play a list of Gomoku moves, stopping at the first error. -/
def gomokuPlay (g : GomokuState) (moves : List (Int × Int)) :
    Option GameError × GomokuState :=
  match moves with
  | [] => (none, g)
  | m :: ms =>
    match g.make_move m.1 m.2 with
    | (none, g1) => gomokuPlay g1 ms
    | (some e, g1) => (some e, g1)

/-- C6: after every successful Gomoku move, the status becomes the
mover's win iff some axis through the placed stone carries
`1 + forward + backward ≥ 5` consecutive cells of the mover's color;
with no such axis, a completely full board yields Draw and otherwise
the game stays Ongoing. -/
theorem gomoku_win_draw_spec (g : GomokuState) (row col : Int) (g2 : GomokuState)
    (hwf : g.WF) (h : g.make_move row col = (none, g2)) :
    (g2.status = (if g.current.color = Cell.black then GameStatus.blackWin
        else GameStatus.whiteWin) ↔
      fiveThrough g2.board row col g.current.color) ∧
    (¬ fiveThrough g2.board row col g.current.color →
      ((∀ r2 < g2.board.size, ∀ c2 < g2.board.size,
          g2.board.grid.getCell r2 c2 ≠ Cell.empty) →
        g2.status = GameStatus.draw) ∧
      (¬ (∀ r2 < g2.board.size, ∀ c2 < g2.board.size,
          g2.board.grid.getCell r2 c2 ≠ Cell.empty) →
        g2.status = GameStatus.ongoing)) := by
  have hwinne1 : (if g.current.color = Cell.black then GameStatus.blackWin
      else GameStatus.whiteWin) ≠ GameStatus.draw := by
    split <;> simp
  have hwinne2 : (if g.current.color = Cell.black then GameStatus.blackWin
      else GameStatus.whiteWin) ≠ GameStatus.ongoing := by
    split <;> simp
  unfold GomokuState.make_move at h
  split at h
  · simp at h
  next hstatus =>
  split at h
  · simp at h
  next hpos =>
  split at h
  · simp at h
  next hcolor =>
  split at h
  · simp at h
  next hempty =>
  split at h
  next hfive =>
    have hg2 : g2 = { gomokuG2 g row.toNat col.toNat with
        status := if g.current.color = Cell.black then GameStatus.blackWin
          else GameStatus.whiteWin } := ((Prod.mk.injEq _ _ _ _ ▸ h).2).symm
    have hst2 : g2.status = (if g.current.color = Cell.black then
        GameStatus.blackWin else GameStatus.whiteWin) := by
      rw [hg2]
    have hboard2 : g2.board = (gomokuG2 g row.toNat col.toNat).board := by
      rw [hg2]
    have hft : fiveThrough g2.board row col g.current.color := by
      rw [hboard2]
      exact hasFive_iff.mp hfive
    exact ⟨⟨fun _ => hft, fun _ => hst2⟩, fun hnot => absurd hft hnot⟩
  next hnotfive =>
  have hnft : ∀ bb : GomokuState, bb.board = (gomokuG2 g row.toNat col.toNat).board →
      ¬ fiveThrough bb.board row col g.current.color := by
    intro bb hb hft
    rw [hb] at hft
    exact hnotfive (hasFive_iff.mpr hft)
  split at h
  next hfull =>
    have hg2 : g2 = { gomokuG2 g row.toNat col.toNat with
        status := GameStatus.draw } := ((Prod.mk.injEq _ _ _ _ ▸ h).2).symm
    have hst2 : g2.status = GameStatus.draw := by rw [hg2]
    have hboard2 : g2.board = (gomokuG2 g row.toNat col.toNat).board := by
      rw [hg2]
    refine ⟨⟨fun hw => absurd (hst2 ▸ hw).symm hwinne1, fun hft =>
      absurd hft (hnft g2 hboard2)⟩, fun _ => ⟨fun _ => hst2, fun hnf => ?_⟩⟩
    exfalso
    apply hnf
    rw [hboard2]
    exact boardFull_iff.mp hfull
  next hnotfull =>
    have hg2 : g2 = gomokuG2 g row.toNat col.toNat :=
      ((Prod.mk.injEq _ _ _ _ ▸ h).2).symm
    have hst2 : g2.status = g.status := by
      rw [hg2]
      rfl
    have hboard2 : g2.board = (gomokuG2 g row.toNat col.toNat).board := by
      rw [hg2]
    have hong : g2.status = GameStatus.ongoing := by
      rw [hst2]
      exact not_not.mp (by simpa using hstatus)
    refine ⟨⟨fun hw => absurd (hong ▸ hw).symm hwinne2, fun hft =>
      absurd hft (hnft g2 hboard2)⟩, fun _ => ⟨fun hfu => ?_, fun _ => hong⟩⟩
    exfalso
    apply hnotfull
    rw [hboard2] at hfu
    exact boardFull_iff.mpr hfu

/-- The horizontal-win example, one move before Black completes the
row. -/
def c6Ex8 : GomokuState :=
  (gomokuPlay (GomokuState.init 5)
    [(0,0),(4,4),(0,1),(4,3),(0,2),(4,2),(0,3),(4,1)]).2

def c6ExAfter : GomokuState := (c6Ex8.make_move 0 4).2

/-- Witness for `gomoku_win_draw_spec`: Black completes five in a row
at (0,4). -/
theorem gomoku_win_draw_spec_witness :
    (c6Ex8.WF ∧ c6Ex8.make_move 0 4 = (none, c6ExAfter)) ∧
    ((c6ExAfter.status = (if c6Ex8.current.color = Cell.black then
        GameStatus.blackWin else GameStatus.whiteWin) ↔
      fiveThrough c6ExAfter.board 0 4 c6Ex8.current.color) ∧
    (¬ fiveThrough c6ExAfter.board 0 4 c6Ex8.current.color →
      ((∀ r2 < c6ExAfter.board.size, ∀ c2 < c6ExAfter.board.size,
          c6ExAfter.board.grid.getCell r2 c2 ≠ Cell.empty) →
        c6ExAfter.status = GameStatus.draw) ∧
      (¬ (∀ r2 < c6ExAfter.board.size, ∀ c2 < c6ExAfter.board.size,
          c6ExAfter.board.grid.getCell r2 c2 ≠ Cell.empty) →
        c6ExAfter.status = GameStatus.ongoing))) :=
  ⟨⟨by decide, by decide⟩,
    gomoku_win_draw_spec c6Ex8 0 4 c6ExAfter (by decide) (by decide)⟩

/-! ### Claim C10 -/

set_option maxRecDepth 40000 in
set_option maxHeartbeats 1600000 in
/-- C10: `create_game` normalizes the variant name by stripping
surrounding whitespace and lowercasing, so (for a positive size) it
succeeds exactly on case/whitespace variants of `"gomoku"` and `"go"`
and fails with `UnknownVariant` on every other name, including the
empty string and a missing (`None`) name; a created game has an empty
`size × size` board, players named Black and White, Black to move, and
status Ongoing. -/
theorem create_game_spec (game_type : Option String) (size : Nat)
    (hsize : 0 < size) :
    ((strLower (strStrip (game_type.getD "")) = "gomoku" ∨
        strLower (strStrip (game_type.getD "")) = "go") ↔
      ∃ g : AnyGame, create_game game_type size = .ok g) ∧
    (¬ (strLower (strStrip (game_type.getD "")) = "gomoku" ∨
        strLower (strStrip (game_type.getD "")) = "go") →
      create_game game_type size = .error .unknownVariant) ∧
    (∀ g : AnyGame, create_game game_type size = .ok g →
      g.statusOf = GameStatus.ongoing ∧
      g.currentOf = ⟨"Black", Cell.black⟩ ∧
      g.otherOf = ⟨"White", Cell.white⟩ ∧
      (g.boardOf).size = size ∧
      (∀ r c : Nat, (g.boardOf).grid.getCell r c = Cell.empty) ∧ g.WF) ∧
    (create_game (some ("GO")) 5 = .ok (.go (GoState.init 5)) ∧
      create_game (some (" Gomoku ")) 5 = .ok (.gomoku (GomokuState.init 5)) ∧
      create_game (some ("")) 5 = .error .unknownVariant ∧
      create_game none 5 = .error .unknownVariant ∧
      create_game (some ("chess")) 8 = .error .unknownVariant) := by
  have hsz : ¬ (size = 0) := by omega
  refine ⟨⟨?_, ?_⟩, ?_, ?_, rfl, rfl, rfl, rfl, rfl⟩
  · rintro (h1 | h1)
    · exact ⟨_, by unfold create_game; rw [if_pos h1, if_neg hsz]⟩
    · by_cases h2 : strLower (strStrip (game_type.getD "")) = "gomoku"
      · exact ⟨_, by unfold create_game; rw [if_pos h2, if_neg hsz]⟩
      · exact ⟨_, by unfold create_game; rw [if_neg h2, if_pos h1, if_neg hsz]⟩
  · rintro ⟨g, hg⟩
    by_contra hnot
    push_neg at hnot
    unfold create_game at hg
    rw [if_neg hnot.1, if_neg hnot.2] at hg
    simp at hg
  · intro hnot
    push_neg at hnot
    unfold create_game
    rw [if_neg hnot.1, if_neg hnot.2]
  · intro g hg
    unfold create_game at hg
    by_cases h1 : strLower (strStrip (game_type.getD "")) = "gomoku"
    · rw [if_pos h1, if_neg hsz] at hg
      injection hg with h2
      rw [← h2]
      exact ⟨rfl, rfl, rfl, rfl, fun r c => Grid.getCell_mkGrid size r c,
        GomokuState.gomoku_wf_init size⟩
    · by_cases h2 : strLower (strStrip (game_type.getD "")) = "go"
      · rw [if_neg h1, if_pos h2, if_neg hsz] at hg
        injection hg with h3
        rw [← h3]
        exact ⟨rfl, rfl, rfl, rfl, fun r c => Grid.getCell_mkGrid size r c,
          GoState.go_wf_init size⟩
      · rw [if_neg h1, if_neg h2] at hg
        simp at hg

set_option maxRecDepth 40000 in
set_option maxHeartbeats 1600000 in
/-- Witness for `create_game_spec` with name `" Go "` and size 3. -/
theorem create_game_spec_witness :
    (0 < 3) ∧
    ((strLower (strStrip ((some (" Go ")).getD "")) = "gomoku" ∨
        strLower (strStrip ((some (" Go ")).getD "")) = "go") ↔
      ∃ g : AnyGame, create_game (some (" Go ")) 3 = .ok g) ∧
    (¬ (strLower (strStrip ((some (" Go ")).getD "")) = "gomoku" ∨
        strLower (strStrip ((some (" Go ")).getD "")) = "go") →
      create_game (some (" Go ")) 3 = .error .unknownVariant) ∧
    (∀ g : AnyGame, create_game (some (" Go ")) 3 = .ok g →
      g.statusOf = GameStatus.ongoing ∧
      g.currentOf = ⟨"Black", Cell.black⟩ ∧
      g.otherOf = ⟨"White", Cell.white⟩ ∧
      (g.boardOf).size = 3 ∧
      (∀ r c : Nat, (g.boardOf).grid.getCell r c = Cell.empty) ∧ g.WF) ∧
    (create_game (some ("GO")) 5 = .ok (.go (GoState.init 5)) ∧
      create_game (some (" Gomoku ")) 5 = .ok (.gomoku (GomokuState.init 5)) ∧
      create_game (some ("")) 5 = .error .unknownVariant ∧
      create_game none 5 = .error .unknownVariant ∧
      create_game (some ("chess")) 8 = .error .unknownVariant) :=
  ⟨by decide, create_game_spec (some (" Go ")) 3 (by decide)⟩

end BoardGame
